import Mathlib

set_option maxHeartbeats 1000000

/-!
Shallow embedding of the glass-dashboard layout store and command reducer
(`layout_manager.py`, `project_controller.py`) and of the multi-object JSON
extractor (`json_multi_parser.py`).  Python dict/list/str/int/bool/None trees
are modelled by the inductive `JVal`; file contents are modelled either as
parsed JSON (`FileJson.json`) or as unparseable bytes (`FileJson.malformed`);
Python exceptions are modelled with `Except String`.
-/

/-- JSON-like values: the shallow embedding of the Python dict/list/str/int/
bool/None trees exchanged by the controller.  Numbers are modelled as
integers (the layout documents and commands under verification carry no
fractional numbers). -/
inductive JVal where
  | null : JVal
  | bool : Bool → JVal
  | num : Int → JVal
  | str : String → JVal
  | arr : List JVal → JVal
  | obj : List (String × JVal) → JVal

/-- Association-list lookup, modelling Python dict indexing on the (unique)
keys of a dict.  Returns the first binding. -/
def lookAssoc {α : Type} : List (String × α) → String → Option α
  | [], _ => none
  | (k, v) :: rest, key => if k = key then some v else lookAssoc rest key

/-- Association-list update, modelling Python dict assignment: replaces the
binding in place if the key exists (keeping its position), else appends. -/
def setAssoc {α : Type} : List (String × α) → String → α → List (String × α)
  | [], key, v => [(key, v)]
  | (k, w) :: rest, key, v =>
    if k = key then (key, v) :: rest else (k, w) :: setAssoc rest key v

/-- Python whitespace characters as stripped by `str.strip()` (ASCII part). -/
def pyWs (c : Char) : Bool :=
  (c == ' ') || (c == '\t') || (c == '\n') || (c == '\r') || (c == '\x0b') || (c == '\x0c')

/-- Drop trailing whitespace from a character list. -/
def stripEnd (l : List Char) : List Char := (l.reverse.dropWhile pyWs).reverse

/-- Model of Python `str.strip()` on the underlying characters. -/
def pyStripChars (l : List Char) : List Char := stripEnd (l.dropWhile pyWs)

/-- Model of Python `str.strip()`. -/
def pyStrip (s : String) : String := String.mk (pyStripChars s.data)

/-- Python truthiness of a JSON value (`bool(x)`). -/
def pyTruthy : JVal → Bool
  | .null => false
  | .bool b => b
  | .num n => n != 0
  | .str s => !s.data.isEmpty
  | .arr xs => !xs.isEmpty
  | .obj kvs => !kvs.isEmpty

/-- Python `==` between a JSON value and a string: equal strings compare
equal, every other shape compares unequal (no exception). -/
def jvalEqStr (v : JVal) (s : String) : Bool :=
  match v with
  | .str t => t == s
  | _ => false

/-- Model of Python `str(x)` for the shapes that reach it in the reducer.
Container rendering is simplified; the column inspector consuming it is an
abstract parameter, so the exact rendering is never load-bearing. -/
def pyToStr : JVal → String
  | .str s => s
  | .bool true => "True"
  | .bool false => "False"
  | .null => "None"
  | .num n => toString n
  | .arr _ => "[...]"
  | .obj _ => "..."

/-- On-disk content of a JSON file: either bytes that parse to a JSON value
or bytes that fail to parse. -/
inductive FileJson where
  | malformed : FileJson
  | json : JVal → FileJson

/-- File-system state visible to the controller: the layout file (`none` when
absent), the backup directory (name to raw copied content), and the writable
project files (absolute path to text). -/
structure St where
  layout : Option FileJson
  backups : List (String × FileJson)
  files : List (String × String)

/-- Store-call events, in chronological order, emitted by `apply_command`:
`backup` for a `backup_layout` invocation and `load` for a `load_layout`
invocation. -/
inductive Ev where
  | backup : Ev
  | load : Ev
deriving DecidableEq

/-- The default tab synthesized by the layout store. -/
def overviewTab : JVal :=
  .obj [("name", .str "Overview"), ("filters", .arr []), ("panels", .arr [])]

/-- The default layout document synthesized by `load_layout` when the layout
file does not exist. -/
def defaultLayoutDoc : JVal :=
  .obj [("tabs", .arr [overviewTab]), ("sidebar", .obj [])]

/-- Embedding of `load_layout`: missing file yields the synthesized default;
an existing file is parsed with `json.load`, which raises on malformed bytes
and otherwise returns the parsed value verbatim. -/
def loadLayout : Option FileJson → Except String JVal
  | none => .ok defaultLayoutDoc
  | some .malformed => .error "json.decoder.JSONDecodeError"
  | some (.json j) => .ok j

/-- Python `x.get(k, d)`: dict lookup with default; raises `AttributeError`
when `x` is not a dict. -/
def pyGetD : JVal → String → JVal → Except String JVal
  | .obj kvs, k, d => .ok ((lookAssoc kvs k).getD d)
  | _, _, _ => .error "AttributeError: no attribute get"

/-- Python `x[k]` for reading: raises `KeyError` on a missing key and
`TypeError` when `x` is not a dict. -/
def pyIndex : JVal → String → Except String JVal
  | .obj kvs, k =>
    match lookAssoc kvs k with
    | some v => .ok v
    | none => .error "KeyError"
  | _, _ => .error "TypeError: not subscriptable"

/-- Python `x[k] = v`: raises `TypeError` when `x` is not a dict. -/
def pySetIndex : JVal → String → JVal → Except String JVal
  | .obj kvs, k, v => .ok (.obj (setAssoc kvs k v))
  | _, _, _ => .error "TypeError: does not support item assignment"

/-- Python iteration `for t in x`: lists yield elements, strings yield
one-character strings, dicts yield their keys; other values raise
`TypeError`. -/
def pyIter : JVal → Except String (List JVal)
  | .arr xs => .ok xs
  | .str s => .ok (s.data.map fun c => .str (String.mk [c]))
  | .obj kvs => .ok (kvs.map fun kv => .str kv.1)
  | _ => .error "TypeError: not iterable"

/-- The per-tab branch of `_validate`: non-dict tabs and tabs without a
non-blank string name are dropped; surviving tabs are rebuilt with a trimmed
name and with list-coerced `filters` and `panels`. -/
def validateTab (t : JVal) : Option JVal :=
  match t with
  | .obj kvs =>
    match lookAssoc kvs "name" with
    | some (.str s) =>
      if (pyStrip s).data.isEmpty then none
      else
        some (.obj [("name", .str (pyStrip s)),
          ("filters", match (lookAssoc kvs "filters").getD (.arr []) with
            | .arr xs => .arr xs
            | _ => .arr []),
          ("panels", match (lookAssoc kvs "panels").getD (.arr []) with
            | .arr xs => .arr xs
            | _ => .arr [])])
    | _ => none
  | _ => none

/-- Embedding of `_validate`: rebuilds `tabs` from the valid tabs (falling
back to the single default tab when none survive) and coerces `sidebar` to a
dict, leaving all other top-level keys untouched. -/
def validateLayout (layout : JVal) : Except String JVal := do
  let tv ← pyGetD layout "tabs" (.arr [])
  let items ← pyIter tv
  let safe := items.filterMap validateTab
  let safe := if safe.isEmpty then [overviewTab] else safe
  let l1 ← pySetIndex layout "tabs" (.arr safe)
  let sv ← pyGetD l1 "sidebar" (.obj [])
  let sb := match sv with
    | .obj kvs => JVal.obj kvs
    | _ => .obj []
  pySetIndex l1 "sidebar" sb

/-- Embedding of `save_layout` at the state level: validates the document and
overwrites the layout file with the validated JSON. -/
def saveLayoutSt (layout : JVal) (st : St) : Except String St := do
  let v ← validateLayout layout
  .ok { st with layout := some (.json v) }

/-- Backup file name produced by `backup_layout` for a given
`time.strftime` second-resolution timestamp string. -/
def backupName (ts : String) : String := ".backups/layout/layout_" ++ ts ++ ".json"

/-- Embedding of `backup_layout`: no-op when the layout file is absent,
otherwise a raw byte copy of the layout file into the backup directory under
a timestamped name (overwriting any backup already carrying that name). -/
def backupLayoutSt (ts : String) (st : St) : St :=
  match st.layout with
  | none => st
  | some c => { st with backups := setAssoc st.backups (backupName ts) c }

/-- Boolean list-prefix test on characters. -/
def isPreL : List Char → List Char → Bool
  | [], _ => true
  | _ :: _, [] => false
  | p :: ps, c :: cs => p == c && isPreL ps cs

/-- Boolean list-suffix test on characters. -/
def isSufL (pat l : List Char) : Bool := isPreL pat.reverse l.reverse

/-- Lexicographically greatest backup record whose name ends in `.json`,
modelling `sorted(list_backups())[-1]`. -/
def maxBackupName : List (String × FileJson) → Option (String × FileJson)
  | [] => none
  | (k, c) :: rest =>
    match maxBackupName rest with
    | none => if isSufL ".json".data k.data then some (k, c) else none
    | some (k2, c2) =>
      if isSufL ".json".data k.data then
        (if k2 < k then some (k, c) else some (k2, c2))
      else some (k2, c2)

/-- Embedding of `rollback_last`: copies the most recent backup (greatest
timestamped name) raw over the layout file, returning its name; returns
`none` and leaves the state unchanged when there are no backups. -/
def rollbackLastSt (st : St) : Option String × St :=
  match maxBackupName st.backups with
  | none => (none, st)
  | some (k, c) => (some k, { st with layout := some c })

/-- Replace backslashes by forward slashes (`path.replace` of the source). -/
def slashNorm (l : List Char) : List Char :=
  l.map fun c => if c = '\\' then '/' else c

/-- Split a character list on a separator, modelling Python `str.split(sep)`
(the empty input yields one empty segment). -/
def splitSeg (sep : Char) : List Char → List (List Char)
  | [] => [[]]
  | c :: rest =>
    let r := splitSeg sep rest
    if c = sep then [] :: r
    else
      match r with
      | [] => [[c]]
      | seg :: segs => (c :: seg) :: segs

/-- Embedding of `_safe_relpath`: reject blank paths, normalize backslashes,
reject leading `/` or `~`, reject any `..` segment. -/
def safeRelpath (path : String) : Except String String :=
  if (pyStripChars path.data).isEmpty then .error "relative_path is required."
  else
    let p := slashNorm (pyStripChars path.data)
    if (match p with
        | '/' :: _ => true
        | '~' :: _ => true
        | _ => false) then
      .error "Absolute paths are not allowed."
    else if (splitSeg '/' p).any (fun seg => seg == ['.', '.']) then
      .error "Path traversal is not allowed."
    else .ok (String.mk p)

/-- Index of the last occurrence of a character in a list. -/
def lastIdxOf (c : Char) : List Char → Option Nat
  | [] => none
  | a :: rest =>
    match lastIdxOf c rest with
    | some i => some (i + 1)
    | none => if a = c then some 0 else none

/-- Embedding of the extension part of `os.path.splitext`: the suffix of the
basename from its last dot, unless every character before that dot is itself
a dot (so dotfiles such as `.bashrc` have no extension). -/
def extOf (p : String) : String :=
  let base := (splitSeg '/' p.data).getLastD []
  match lastIdxOf '.' base with
  | none => ""
  | some i =>
    if (base.take i).any (fun c => c ≠ '.') then String.mk (base.drop i) else ""

/-- ASCII lower-casing of a string (`str.lower`). -/
def lowerStr (s : String) : String := String.mk (s.data.map Char.toLower)

/-- The fixed write-extension allow-list `ALLOWED_WRITE_EXT`. -/
def allowedExts : List String := [".py", ".json", ".md", ".txt", ".yml", ".yaml"]

/-- The project root directory, modelling `os.path.abspath` of the working
directory, fixed for the embedding. -/
def projectRoot : String := "/project"

/-- Model of `os.path.abspath` on a safe (already normalized, relative)
path: resolution under the fixed project root. -/
def absPath (rp : String) : String := projectRoot ++ "/" ++ rp

/-- The `full.startswith(proj)` containment check of the source. -/
def underRoot (full : String) : Bool := isPreL projectRoot.data full.data

/-- Embedding of `_write_file`: path safety, extension allow-list, project
root containment, then create-or-overwrite (mode `write`) or append (mode
`append`). Returns the normalized relative path. -/
def writeFileOp (rp content : String) (append : Bool) (st : St) :
    Except String (String × St) := do
  let p ← safeRelpath rp
  let ext := lowerStr (extOf p)
  if ¬ allowedExts.contains ext then
    .error ("Extension not allowed: " ++ ext)
  else
    let full := absPath p
    if ¬ underRoot full then .error "Write path is outside project directory."
    else
      let old := lookAssoc st.files full
      let newContent := if append then (old.getD "") ++ content else content
      .ok (p, { st with files := setAssoc st.files full newContent })

/-- Literal-pattern substitution on characters, modelling `re.sub` for
patterns without regex metacharacters: left-to-right, non-overlapping
replacement of every occurrence (an empty pattern inserts the replacement at
every position, as in Python).  The fuel is always sufficient at
`length + 1`. -/
def reSubLit (pat rep : List Char) : Nat → List Char → List Char
  | 0, t => t
  | _ + 1, [] => if pat.isEmpty then rep else []
  | f + 1, c :: cs =>
    if pat.isEmpty then rep ++ c :: reSubLit pat rep f cs
    else if isPreL pat (c :: cs) then
      rep ++ reSubLit pat rep f ((c :: cs).drop pat.length)
    else c :: reSubLit pat rep f cs

/-- Model of `re.sub(pattern, replacement, text)` for literal patterns. -/
def reSub (pat rep txt : String) : String :=
  String.mk (reSubLit pat.data rep.data (txt.data.length + 1) txt.data)

/-- Embedding of `_patch_file`: path safety and root containment (note: no
extension check in the source), existence check, then regex substitution over
the whole file. -/
def patchFileOp (rp pat rep : String) (st : St) : Except String (String × St) := do
  let p ← safeRelpath rp
  let full := absPath p
  if ¬ underRoot full then .error "Patch path is outside project directory."
  else
    match lookAssoc st.files full with
    | none => .error ("File not found: " ++ p)
    | some txt =>
      .ok (p, { st with files := setAssoc st.files full (reSub pat rep txt) })

/-- The tab-match predicate of `_find_tab` and the `delete_tab`
comprehension: a dict whose `name` value equals the given string. -/
def tabMatches (t : JVal) (name : String) : Bool :=
  match t with
  | .obj kvs =>
    match lookAssoc kvs "name" with
    | some (.str s) => s == name
    | _ => false
  | _ => false

/-- First index (with element) satisfying a predicate. -/
def findIdxA (p : JVal → Bool) : Nat → List JVal → Option (Nat × JVal)
  | _, [] => none
  | i, t :: rest => if p t then some (i, t) else findIdxA p (i + 1) rest

/-- Embedding of `_find_tab` (returning also the iterated tab list and the
index, for the aliased in-place mutations of the source): iterates
`layout.get("tabs", [])` and finds the first dict tab with the given name. -/
def findTabIdx (layout : JVal) (name : String) :
    Except String (List JVal × Option (Nat × JVal)) := do
  let tv ← pyGetD layout "tabs" (.arr [])
  let items ← pyIter tv
  .ok (items, findIdxA (fun t => tabMatches t name) 0 items)

/-- Failure result record of the reducer. -/
def failRes (msg : String) : JVal := .obj [("ok", .bool false), ("error", .str msg)]

/-- Success result record of the reducer with action-specific extra keys. -/
def okResW (extra : List (String × JVal)) : JVal := .obj (("ok", .bool true) :: extra)

/-- The tab-name list of the `list_tabs` action. -/
def listTabsNames (layout : JVal) : Except String (List JVal) := do
  let tv ← pyGetD layout "tabs" (.arr [])
  let items ← pyIter tv
  .ok (items.filterMap fun t =>
    match t with
    | .obj tkvs =>
      match lookAssoc tkvs "name" with
      | some (.str s) => some (JVal.str s)
      | _ => none
    | _ => none)

/-- Python `int(x)` on a string, modelling the accepted forms: optional
whitespace, optional sign, nonempty digits. -/
def parseIntPy (s : String) : Option Int :=
  let l := pyStripChars s.data
  let core : List Char → Option Nat := fun ds =>
    if ds.isEmpty ∨ ds.any (fun c => ¬ c.isDigit) then none
    else some (ds.foldl (fun a c => 10 * a + (c.toNat - 48)) 0)
  match l with
  | '-' :: rest => (core rest).map fun n => -(n : Int)
  | '+' :: rest => (core rest).map fun n => (n : Int)
  | _ => (core l).map fun n => (n : Int)

/-- Python `int(x)` coercion as used on `row_limit` and `top`: integers pass
through, booleans coerce, numeric strings parse, everything else raises. -/
def pyIntCoerce : JVal → Except String Int
  | .num n => .ok n
  | .bool b => .ok (if b then 1 else 0)
  | .str s =>
    match parseIntPy s with
    | some n => .ok n
    | none => .error "ValueError: invalid literal for int()"
  | _ => .error "TypeError: int() argument"

/-- The `add_tab` action body (run after backup and load). -/
def actAddTab (kvs : List (String × JVal)) (layout : JVal) (st : St) :
    Except String (JVal × St) :=
  match lookAssoc kvs "name" with
  | some (.str n) =>
    if (pyStrip n).data.isEmpty then .ok (failRes "add_tab requires name.", st)
    else
      let name := pyStrip n
      do
      let fi ← findTabIdx layout name
      match fi.2 with
      | some _ =>
        .ok (okResW [("message", .str "Tab already exists."), ("tab", .str name)], st)
      | none => do
        let tabs ← pyIndex layout "tabs"
        match tabs with
        | .arr xs => do
          let l2 ← pySetIndex layout "tabs" (.arr (xs ++
            [JVal.obj [("name", .str name), ("filters", .arr []), ("panels", .arr [])]]))
          let st2 ← saveLayoutSt l2 st
          .ok (okResW [("added_tab", .str name)], st2)
        | _ => .error "AttributeError: no attribute append"
  | _ => .ok (failRes "add_tab requires name.", st)

/-- The `delete_tab` action body: removes every dict tab with the given name
and saves (deleting a nonexistent tab still succeeds). -/
def actDeleteTab (kvs : List (String × JVal)) (layout : JVal) (st : St) :
    Except String (JVal × St) :=
  match lookAssoc kvs "name" with
  | some (.str n) =>
    if (pyStrip n).data.isEmpty then .ok (failRes "delete_tab requires name.", st)
    else
      let name := pyStrip n
      do
      let tv ← pyGetD layout "tabs" (.arr [])
      let items ← pyIter tv
      let l2 ← pySetIndex layout "tabs" (.arr (items.filter fun t => !tabMatches t name))
      let st2 ← saveLayoutSt l2 st
      .ok (okResW [("deleted_tab", .str name)], st2)
  | _ => .ok (failRes "delete_tab requires name.", st)

/-- The `keep_only_tab` action body. -/
def actKeepOnly (kvs : List (String × JVal)) (layout : JVal) (st : St) :
    Except String (JVal × St) :=
  match lookAssoc kvs "name" with
  | some (.str n) =>
    if (pyStrip n).data.isEmpty then .ok (failRes "keep_only_tab requires name.", st)
    else
      let name := pyStrip n
      do
      let fi ← findTabIdx layout name
      match fi.2 with
      | none => .ok (failRes ("Tab not found: " ++ name), st)
      | some (_, t) => do
        let l2 ← pySetIndex layout "tabs" (.arr [t])
        let st2 ← saveLayoutSt l2 st
        .ok (okResW [("kept_only", .str name)], st2)
  | _ => .ok (failRes "keep_only_tab requires name.", st)

/-- The `clear_panels` action body.  The found tab is necessarily a dict
(`tabMatches` only accepts dicts); the non-dict arm is unreachable. -/
def actClearPanels (kvs : List (String × JVal)) (layout : JVal) (st : St) :
    Except String (JVal × St) :=
  match lookAssoc kvs "tab_name" with
  | some (.str n) =>
    if (pyStrip n).data.isEmpty then .ok (failRes "clear_panels requires tab_name.", st)
    else
      let name := pyStrip n
      do
      let fi ← findTabIdx layout name
      match fi.2 with
      | none => .ok (failRes ("Tab not found: " ++ name), st)
      | some (i, t) =>
        match t with
        | .obj tkvs => do
          let t2 := JVal.obj (setAssoc tkvs "panels" (.arr []))
          let l2 ← pySetIndex layout "tabs" (.arr (fi.1.set i t2))
          let st2 ← saveLayoutSt l2 st
          .ok (okResW [("cleared_panels", .str name)], st2)
        | _ => .error "unreachable: matched tab is a dict"
  | _ => .ok (failRes "clear_panels requires tab_name.", st)

/-- The single-column panel fields validated by `add_panel`. -/
def singleColKeys : List String :=
  ["x", "y", "col", "date", "group", "facet_row", "facet_col", "color"]

/-- The first single-column field of the panel holding a non-empty string
that is not a known column, together with that string (the source loop
returns the failure for the first such field, in field-list order). -/
def firstBadSingle (cols : List String) :
    List String → List (String × JVal) → Option (String × String)
  | [], _ => none
  | k :: ks, pkvs =>
    match lookAssoc pkvs k with
    | some (.str c) =>
      if c != "" && !cols.contains c then some (k, c)
      else firstBadSingle cols ks pkvs
    | _ => firstBadSingle cols ks pkvs

/-- The unknown string entries of a multi-column field (`metrics` or `cols`);
non-string entries are ignored by the source. -/
def badMulti (pkvs : List (String × JVal)) (key : String) (cols : List String) :
    List String :=
  match lookAssoc pkvs key with
  | some (.arr ms) =>
    ms.filterMap fun m =>
      match m with
      | .str s => if cols.contains s then none else some s
      | _ => none
  | _ => []

/-- Rendering of the offending column list in the failure message (the
source formats `bad[:8]` with a possible ellipsis; quoting is simplified). -/
def joinCols (bad : List String) : String :=
  String.intercalate ", " (bad.take 8) ++ (if bad.length > 8 then "..." else "")

/-- The `add_panel` action body: tab looked up by name or created fresh,
`type` required and trimmed, then column validation of single- and
multi-column fields before the panel is appended and the layout saved. -/
def actAddPanel (kvs : List (String × JVal)) (columns : List String)
    (layout : JVal) (st : St) : Except String (JVal × St) :=
  match lookAssoc kvs "tab_name" with
  | some (.str tn) =>
    if (pyStrip tn).data.isEmpty then .ok (failRes "add_panel requires tab_name.", st)
    else
      match lookAssoc kvs "panel" with
      | some (.obj pkvs) =>
        let tabName := pyStrip tn
        do
        let fi ← findTabIdx layout tabName
        let found ← (match fi.2 with
          | some (i, t) => (.ok (layout, fi.1, i, t) : Except String _)
          | none => do
            let tabs ← pyIndex layout "tabs"
            match tabs with
            | .arr xs =>
              let fresh := JVal.obj
                [("name", .str tabName), ("filters", .arr []), ("panels", .arr [])]
              let l1 ← pySetIndex layout "tabs" (.arr (xs ++ [fresh]))
              .ok (l1, xs ++ [fresh], xs.length, fresh)
            | _ => .error "AttributeError: no attribute append")
        match found with
        | (layout1, items1, i, t) =>
          match lookAssoc pkvs "type" with
          | some (.str pt) =>
            if (pyStrip pt).data.isEmpty then .ok (failRes "panel.type is required.", st)
            else
              let pkvs1 := setAssoc pkvs "type" (.str (pyStrip pt))
              match firstBadSingle columns singleColKeys pkvs1 with
              | some (k, c) =>
                .ok (failRes ("Unknown column for " ++ k ++ ": " ++ c), st)
              | none =>
                let badM := badMulti pkvs1 "metrics" columns
                if !badM.isEmpty then
                  .ok (failRes ("Unknown metric columns: " ++ joinCols badM), st)
                else
                  let badC := badMulti pkvs1 "cols" columns
                  if !badC.isEmpty then
                    .ok (failRes ("Unknown cols: " ++ joinCols badC), st)
                  else
                    match t with
                    | .obj tkvs =>
                      (match lookAssoc tkvs "panels" with
                       | none => do
                         let t2 := JVal.obj (setAssoc tkvs "panels" (.arr [JVal.obj pkvs1]))
                         let l2 ← pySetIndex layout1 "tabs" (.arr (items1.set i t2))
                         let st2 ← saveLayoutSt l2 st
                         .ok (okResW
                           [("added_panel", (lookAssoc pkvs1 "title").getD (.str (pyStrip pt))),
                            ("tab", .str tabName)], st2)
                       | some (.arr ps) => do
                         let t2 := JVal.obj (setAssoc tkvs "panels" (.arr (ps ++ [JVal.obj pkvs1])))
                         let l2 ← pySetIndex layout1 "tabs" (.arr (items1.set i t2))
                         let st2 ← saveLayoutSt l2 st
                         .ok (okResW
                           [("added_panel", (lookAssoc pkvs1 "title").getD (.str (pyStrip pt))),
                            ("tab", .str tabName)], st2)
                       | some _ => .error "AttributeError: no attribute append")
                    | _ => .error "unreachable: matched tab is a dict"
          | _ => .ok (failRes "panel.type is required.", st)
      | _ => .ok (failRes "add_panel requires panel object.", st)
  | _ => .ok (failRes "add_panel requires tab_name.", st)

/-- Dispatch of the layout-mutating block of `apply_command` (run after the
unconditional backup and load): the five layout actions, with every other
action falling through to the unknown-action failure. -/
def layoutDispatch (kvs : List (String × JVal)) (columns : List String) (a : String)
    (layout : JVal) (st1 : St) : Except String (JVal × St) :=
  if a = "add_tab" then actAddTab kvs layout st1
  else if a = "delete_tab" then actDeleteTab kvs layout st1
  else if a = "keep_only_tab" then actKeepOnly kvs layout st1
  else if a = "clear_panels" then actClearPanels kvs layout st1
  else if a = "add_panel" then actAddPanel kvs columns layout st1
  else .ok (failRes ("Unknown action: " ++ a), st1)

/-- Reducer output: the result record (or a propagated exception), the file
system state after the call, and the store-call events in order. -/
structure Out where
  res : Except String JVal
  st : St
  evs : List Ev

/-- Lift a layout-action body into a reducer output (the backup and load
events have already happened by the time an action body runs). -/
def wrapLE (r : Except String (JVal × St)) (st1 : St) : Out :=
  match r with
  | .ok (j, st2) => ⟨.ok j, st2, [.backup, .load]⟩
  | .error e => ⟨.error e, st1, [.backup, .load]⟩

/-- Embedding of `apply_command`.  `insp` abstracts the external column
inspector (`inspect_column`), `columns` is the valid-column snapshot, `ts`
the current `time.strftime` second-resolution timestamp, and `st` the file
system state. -/
def applyCommand (insp : String → Int → String → Int → JVal) (cmd : JVal)
    (columns : List String) (ts : String) (st : St) : Out :=
  match cmd with
  | .obj kvs =>
    match lookAssoc kvs "action" with
    | some (.str action) =>
      if action.data.isEmpty then ⟨.ok (failRes "Missing action."), st, []⟩
      else if action = "list_tabs" then
        match (do
          let layout ← loadLayout st.layout
          let names ← listTabsNames layout
          pure names : Except String (List JVal)) with
        | .ok names => ⟨.ok (okResW [("tabs", .arr names)]), st, [.load]⟩
        | .error e => ⟨.error e, st, [.load]⟩
      else if action = "inspect_column" then
        let nameV :=
          let a := (lookAssoc kvs "name").getD .null
          if pyTruthy a then a else (lookAssoc kvs "column").getD .null
        match nameV with
        | .str n =>
          if (pyStrip n).data.isEmpty then
            ⟨.ok (failRes "inspect_column requires name (column)."), st, []⟩
          else
            match (do
              let rlRaw := (lookAssoc kvs "row_limit").getD (.num 100000)
              let rlRaw := if pyTruthy rlRaw then rlRaw else .num 100000
              let rl ← pyIntCoerce rlRaw
              let smV := (lookAssoc kvs "sample_mode").getD (.str "head")
              let topRaw := (lookAssoc kvs "top").getD (.num 20)
              let topRaw := if pyTruthy topRaw then topRaw else .num 20
              let top ← pyIntCoerce topRaw
              pure (insp (pyStrip n) rl (pyToStr smV) top) : Except String JVal) with
            | .ok r => ⟨.ok r, st, []⟩
            | .error e => ⟨.error e, st, []⟩
        | _ => ⟨.ok (failRes "inspect_column requires name (column)."), st, []⟩
      else if action = "create_file" then
        match (lookAssoc kvs "relative_path").getD .null with
        | .str rp =>
          match (lookAssoc kvs "content").getD (.str "") with
          | .str content =>
            let modeV := (lookAssoc kvs "mode").getD (.str "write")
            (match writeFileOp rp content (jvalEqStr modeV "append") st with
             | .ok (p, st2) =>
               ⟨.ok (okResW [("written", .str p), ("mode", modeV)]), st2, []⟩
             | .error e => ⟨.ok (failRes e), st, []⟩)
          | _ => ⟨.ok (failRes "create_file requires content (string)."), st, []⟩
        | _ => ⟨.ok (failRes "create_file requires relative_path (string)."), st, []⟩
      else if action = "patch_file" then
        match (lookAssoc kvs "relative_path").getD .null,
              (lookAssoc kvs "pattern").getD .null,
              (lookAssoc kvs "replacement").getD (.str "") with
        | .str rp, .str pat, .str rep =>
          (match patchFileOp rp pat rep st with
           | .ok (p, st2) => ⟨.ok (okResW [("patched", .str p)]), st2, []⟩
           | .error e => ⟨.ok (failRes e), st, []⟩)
        | _, _, _ =>
          ⟨.ok (failRes "patch_file requires relative_path, pattern, replacement (strings)."),
            st, []⟩
      else if action = "rollback_layout" then
        let rb := rollbackLastSt st
        ⟨.ok (okResW [("rollback",
          match rb.1 with
          | some s => JVal.str s
          | none => .null)]), rb.2, []⟩
      else
        match loadLayout (backupLayoutSt ts st).layout with
        | .error e => ⟨.error e, backupLayoutSt ts st, [.backup, .load]⟩
        | .ok layout =>
          wrapLE (layoutDispatch kvs columns action layout (backupLayoutSt ts st))
            (backupLayoutSt ts st)
    | _ => ⟨.ok (failRes "Missing action."), st, []⟩
  | _ => ⟨.ok (failRes "Command must be an object."), st, []⟩

/-- Remove a binding from an association list. -/
def delAssoc {α : Type} : List (String × α) → String → List (String × α)
  | [], _ => []
  | (k, v) :: rest, key =>
    if k = key then delAssoc rest key else (k, v) :: delAssoc rest key

/-- Byte-level file operations, for stating how `save_layout` persists: a
truncating open (`open(path, "w")`), a data write into the opened file, and a
rename.  The source's save is `open` + `json.dump`; a temp-file-plus-rename
save would end in a `rename`. -/
inductive FOp where
  | trunc : String → FOp
  | fwrite : String → String → FOp
  | rename : String → String → FOp

/-- Whether a file operation is a rename. -/
def isRename : FOp → Bool
  | .rename _ _ => true
  | _ => false

/-- Effect of one file operation on a name-to-content file system. -/
def runFOp (fs : List (String × String)) : FOp → List (String × String)
  | .trunc p => setAssoc fs p ""
  | .fwrite p d => setAssoc fs p (((lookAssoc fs p).getD "") ++ d)
  | .rename src dst =>
    match lookAssoc fs src with
    | some d => setAssoc (delAssoc fs src) dst d
    | none => fs

/-- Every file-system state observable by a concurrent reader while a
sequence of file operations runs: the initial state and the state after each
operation. -/
def statesDuring (fs : List (String × String)) : List FOp → List (List (String × String))
  | [] => [fs]
  | op :: ops => fs :: statesDuring (runFOp fs op) ops

/-- JSON whitespace characters skipped by the decoder between tokens. -/
def wsJson (c : Char) : Bool :=
  (c == ' ') || (c == '\t') || (c == '\n') || (c == '\r')

/-- Skip JSON whitespace. -/
def skipWs (l : List Char) : List Char := l.dropWhile wsJson

/-- Decimal digit test. -/
def isDig (c : Char) : Bool := decide (48 ≤ c.toNat) && decide (c.toNat ≤ 57)

/-- Value of a decimal digit character. -/
def digitVal (c : Char) : Nat := c.toNat - 48

/-- Numeric value of a digit string. -/
def digitsToNat (ds : List Char) : Nat := ds.foldl (fun a c => 10 * a + digitVal c) 0

/-- Integer literal fragment of the JSON number grammar, as consumed by the
decoder: optional minus then a maximal run of digits.  (The documents under
verification carry only integers, so the fraction/exponent forms of the full
grammar are not modelled.) -/
def parseNum : List Char → Option (JVal × List Char)
  | [] => none
  | c :: rest =>
    if c = '-' then
      let ds := rest.takeWhile isDig
      if ds.isEmpty then none
      else some (.num (-(digitsToNat ds : Int)), rest.dropWhile isDig)
    else
      let ds := (c :: rest).takeWhile isDig
      if ds.isEmpty then none
      else some (.num (digitsToNat ds), (c :: rest).dropWhile isDig)

/-- JSON string escape characters understood by the model (the `\u` form is
not modelled; the inputs under verification do not use it). -/
def unesc : Char → Option Char
  | 'n' => some '\n'
  | 't' => some '\t'
  | 'r' => some '\r'
  | 'b' => some '\x08'
  | 'f' => some '\x0c'
  | '"' => some '"'
  | '\\' => some '\\'
  | '/' => some '/'
  | _ => none

/-- Body of a JSON string after the opening quote, in strict decoder mode
(control characters are rejected): yields the decoded characters and the
input after the closing quote. -/
def parseStrBody : List Char → Option (List Char × List Char)
  | [] => none
  | c :: cs =>
    if c = '"' then some ([], cs)
    else if c = '\\' then
      match cs with
      | [] => none
      | e :: cs2 =>
        match unesc e with
        | some u => (parseStrBody cs2).map fun r => (u :: r.1, r.2)
        | none => none
    else if c.toNat < 32 then none
    else (parseStrBody cs).map fun r => (c :: r.1, r.2)

mutual

/-- Fuel-indexed embedding of the incremental JSON decoder
(`json.JSONDecoder().raw_decode`): decodes exactly one JSON value starting at
the head of the input (no leading whitespace skipped, as in the source) and
returns the value and the remaining input.  The fuel bounds the value-nesting
recursion; `length + 1` is always sufficient for the inputs under
verification. -/
def parseVal : Nat → List Char → Option (JVal × List Char)
  | 0, _ => none
  | _ + 1, [] => none
  | f + 1, c :: r =>
    if c = 'n' then
      match r with
      | 'u' :: 'l' :: 'l' :: r2 => some (.null, r2)
      | _ => none
    else if c = 't' then
      match r with
      | 'r' :: 'u' :: 'e' :: r2 => some (.bool true, r2)
      | _ => none
    else if c = 'f' then
      match r with
      | 'a' :: 'l' :: 's' :: 'e' :: r2 => some (.bool false, r2)
      | _ => none
    else if c = '"' then
      (parseStrBody r).map fun p => (.str (String.mk p.1), p.2)
    else if c = '{' then
      match skipWs r with
      | [] => none
      | d :: r2 =>
        if d = '}' then some (.obj [], r2)
        else (parseMembers f (d :: r2)).map fun p => (.obj p.1, p.2)
    else if c = '[' then
      match skipWs r with
      | [] => none
      | d :: r2 =>
        if d = ']' then some (.arr [], r2)
        else (parseElems f (d :: r2)).map fun p => (.arr p.1, p.2)
    else if c = '-' then parseNum (c :: r)
    else if isDig c then parseNum (c :: r)
    else none

/-- Members of a nonempty JSON object: `"key": value` pairs separated by
commas, ending at the closing brace. -/
def parseMembers : Nat → List Char → Option (List (String × JVal) × List Char)
  | 0, _ => none
  | _ + 1, [] => none
  | f + 1, c :: r =>
    if c = '"' then
      match parseStrBody r with
      | none => none
      | some (kcs, r1) =>
        match skipWs r1 with
        | [] => none
        | d :: r2 =>
          if d = ':' then
            match parseVal f (skipWs r2) with
            | none => none
            | some (v, r3) =>
              match skipWs r3 with
              | [] => none
              | e :: r4 =>
                if e = ',' then
                  match parseMembers f (skipWs r4) with
                  | none => none
                  | some (rest, r5) => some ((String.mk kcs, v) :: rest, r5)
                else if e = '}' then some ([(String.mk kcs, v)], r4)
                else none
          else none
    else none

/-- Elements of a nonempty JSON array, ending at the closing bracket. -/
def parseElems : Nat → List Char → Option (List JVal × List Char)
  | 0, _ => none
  | f + 1, l =>
    match parseVal f l with
    | none => none
    | some (v, r1) =>
      match skipWs r1 with
      | [] => none
      | e :: r2 =>
        if e = ',' then
          match parseElems f (skipWs r2) with
          | none => none
          | some (rest, r3) => some (v :: rest, r3)
        else if e = ']' then some ([v], r2)
        else none

end

/-- Decimal digit character for a value below ten. -/
def digitChar10 : Nat → Char
  | 0 => '0'
  | 1 => '1'
  | 2 => '2'
  | 3 => '3'
  | 4 => '4'
  | 5 => '5'
  | 6 => '6'
  | 7 => '7'
  | 8 => '8'
  | _ => '9'

/-- Decimal digits of a natural number (fuel-indexed; `n + 1` suffices). -/
def natChars : Nat → Nat → List Char
  | 0, _ => []
  | f + 1, n =>
    if n < 10 then [digitChar10 n]
    else natChars f (n / 10) ++ [digitChar10 (n % 10)]

/-- Decimal rendering of an integer. -/
def intChars (n : Int) : List Char :=
  if n < 0 then '-' :: natChars (n.natAbs + 1) n.natAbs
  else natChars (n.toNat + 1) n.toNat

mutual

/-- Compact serialization of a JSON value, used to build the concrete texts
whose extraction the theorems quantify over. -/
def dumpJ : JVal → List Char
  | .null => 'n' :: ['u', 'l', 'l']
  | .bool true => 't' :: ['r', 'u', 'e']
  | .bool false => 'f' :: ['a', 'l', 's', 'e']
  | .num n => intChars n
  | .str s => '"' :: s.data ++ ['"']
  | .arr xs => '[' :: dumpElems xs ++ [']']
  | .obj kvs => '{' :: dumpMembers kvs ++ ['}']

/-- Comma-separated serialization of array elements. -/
def dumpElems : List JVal → List Char
  | [] => []
  | [v] => dumpJ v
  | v :: rest => dumpJ v ++ ',' :: dumpElems rest

/-- Comma-separated serialization of object members. -/
def dumpMembers : List (String × JVal) → List Char
  | [] => []
  | [(k, v)] => '"' :: k.data ++ '"' :: ':' :: dumpJ v
  | (k, v) :: rest => '"' :: k.data ++ '"' :: ':' :: dumpJ v ++ ',' :: dumpMembers rest

end

/-- Characters that may appear unescaped in a serialized JSON string. -/
def strOkChars (l : List Char) : Bool :=
  l.all fun c => (c != '"') && (c != '\\') && decide (32 ≤ c.toNat)

mutual

/-- Well-formedness of a JSON value for serialization: strings (including
object keys) need no escaping.  (Python dicts additionally have unique keys;
key multiplicity does not affect the object count and order the claims are
about, so it is not restricted here.) -/
def wfJ : JVal → Bool
  | .null => true
  | .bool _ => true
  | .num _ => true
  | .str s => strOkChars s.data
  | .arr xs => wfList xs
  | .obj kvs => wfFields kvs

/-- Well-formedness of array elements. -/
def wfList : List JVal → Bool
  | [] => true
  | v :: rest => wfJ v && wfList rest

/-- Well-formedness of object members. -/
def wfFields : List (String × JVal) → Bool
  | [] => true
  | (k, v) :: rest => strOkChars k.data && wfJ v && wfFields rest

end

mutual

/-- Fuel measure of a JSON value: an upper bound on the decoder fuel needed
to parse its serialization. -/
def sizeJv : JVal → Nat
  | .arr xs => 1 + sizeJvList xs
  | .obj kvs => 1 + sizeJvFields kvs
  | _ => 1

/-- Fuel measure of array elements. -/
def sizeJvList : List JVal → Nat
  | [] => 0
  | v :: rest => 1 + sizeJv v + sizeJvList rest

/-- Fuel measure of object members. -/
def sizeJvFields : List (String × JVal) → Nat
  | [] => 0
  | (_, v) :: rest => 1 + sizeJv v + sizeJvFields rest

end

/-- Characters other than `{` and `[`, skipped by the extractor scan. -/
def notBrace (c : Char) : Bool := !(c == '{' || c == '[')

/-- Absence of `{` and `[`, the formal rendering of prose that contains no
JSON object or array opener. -/
def noBraces (l : List Char) : Bool := l.all notBrace

/-- Objects emitted for one decoded value: a dict is emitted itself, a list
contributes its dict elements, anything else contributes nothing. -/
def dictsOf (v : JVal) : List JVal :=
  match v with
  | .obj kvs => [.obj kvs]
  | .arr xs =>
    xs.filter fun x =>
      match x with
      | .obj _ => true
      | _ => false
  | _ => []

/-- The left-to-right scan of `extract_json_objects`: skip to the next `{`
or `[`, attempt one incremental decode there, emit the dicts of the decoded
value and continue after it, or advance one character on failure.  The fuel
bounds the iteration count; `length + 1` always suffices. -/
def scanStep : Nat → List Char → List JVal
  | 0, _ => []
  | f + 1, s =>
    match s.dropWhile notBrace with
    | [] => []
    | c :: tl =>
      match parseVal ((c :: tl).length + 1) (c :: tl) with
      | some (v, rest) => dictsOf v ++ scanStep f rest
      | none => scanStep f tl

/-- Whether a JSON value is a dict. -/
def isObjB : JVal → Bool
  | .obj _ => true
  | _ => false

/-- Embedding of `extract_json_objects`: strip the text; empty input yields
no objects; a text starting with `[` is first tried whole as a JSON array
(returning its dict elements on success, as `json.loads` does, which demands
full consumption up to trailing whitespace); otherwise — or when the array
parse fails — the incremental scan runs over the stripped text. -/
def extractJsonObjects (text : String) : List JVal :=
  match pyStripChars text.data with
  | [] => []
  | c :: tl =>
    if c = '[' then
      match parseVal ((c :: tl).length + 1) (c :: tl) with
      | some (.arr xs, rest) =>
        if (skipWs rest).isEmpty then xs.filter isObjB
        else scanStep ((c :: tl).length + 1) (c :: tl)
      | _ => scanStep ((c :: tl).length + 1) (c :: tl)
    else scanStep ((c :: tl).length + 1) (c :: tl)

/-- Interleaving of prose segments and serialized JSON objects, followed by a
trailing prose segment: the texts over which the extraction claim
quantifies. -/
def glueChars : List (List Char × List (String × JVal)) → List Char → List Char
  | [], tailp => tailp
  | (p, o) :: rest, tailp => p ++ dumpJ (.obj o) ++ glueChars rest tailp

/-- Input whose head is not a digit (so a preceding number cannot greedily
extend into it). -/
def headSafe : List Char → Bool
  | [] => true
  | c :: _ => !isDig c

/-- Serialization context condition: when the value is a number, the
following input must not begin with a digit. -/
def numOkB (v : JVal) (rest : List Char) : Bool :=
  match v with
  | .num _ => headSafe rest
  | _ => true

theorem dropWhile_cons_false {α : Type} {p : α → Bool} {c : α} {r : List α}
    (h : p c = false) : (c :: r).dropWhile p = c :: r := by
  simp [List.dropWhile_cons, h]

theorem dropWhile_keep_append {α : Type} {p : α → Bool} (l : List α) {r : List α}
    (h : r.dropWhile p = r) : (l ++ r).dropWhile p = l.dropWhile p ++ r := by
  induction l with
  | nil => simpa using h
  | cons c l ih =>
    cases hc : p c with
    | true => simp [List.dropWhile_cons, hc, ih]
    | false => simp [List.dropWhile_cons, hc]

theorem dropWhile_nil_of_all {α : Type} {p : α → Bool} {l : List α}
    (h : l.all p = true) : l.dropWhile p = [] := by
  induction l with
  | nil => rfl
  | cons c l ih =>
    simp only [List.all_cons, Bool.and_eq_true] at h
    simp [List.dropWhile_cons, h.1, ih h.2]

theorem takeWhile_append_of_all {α : Type} {p : α → Bool} {l r : List α}
    (h : l.all p = true) : (l ++ r).takeWhile p = l ++ r.takeWhile p := by
  induction l with
  | nil => rfl
  | cons c l ih =>
    simp only [List.all_cons, Bool.and_eq_true] at h
    simp [List.takeWhile_cons, h.1, ih h.2]

theorem dropWhile_append_of_all {α : Type} {p : α → Bool} {l r : List α}
    (h : l.all p = true) : (l ++ r).dropWhile p = r.dropWhile p := by
  induction l with
  | nil => rfl
  | cons c l ih =>
    simp only [List.all_cons, Bool.and_eq_true] at h
    simp [List.dropWhile_cons, h.1, ih h.2]

theorem mem_of_mem_dropWhile {α : Type} {p : α → Bool} {a : α} :
    ∀ {l : List α}, a ∈ l.dropWhile p → a ∈ l := by
  intro l
  induction l with
  | nil => simp
  | cons c l ih =>
    intro h
    rw [List.dropWhile_cons] at h
    cases hc : p c with
    | true =>
      rw [hc] at h
      simp only [if_true] at h
      exact List.mem_cons_of_mem _ (ih h)
    | false =>
      rw [hc] at h
      simpa using h

theorem all_dropWhile {α : Type} {p q : α → Bool} {l : List α}
    (h : l.all q = true) : (l.dropWhile p).all q = true := by
  rw [List.all_eq_true] at h ⊢
  exact fun a ha => h a (mem_of_mem_dropWhile ha)

theorem all_stripEnd {q : Char → Bool} {l : List Char} (h : l.all q = true) :
    (stripEnd l).all q = true := by
  unfold stripEnd
  rw [List.all_eq_true] at h ⊢
  intro a ha
  rw [List.mem_reverse] at ha
  exact h a (List.mem_reverse.mp (mem_of_mem_dropWhile ha))

/-- Structural strong induction for `JVal`, descending into the elements of
arrays and the values of object members. -/
theorem JVal.indStrong {P : JVal → Prop} (hnull : P .null) (hbool : ∀ b, P (.bool b))
    (hnum : ∀ n, P (.num n)) (hstr : ∀ s, P (.str s))
    (harr : ∀ xs, (∀ v ∈ xs, P v) → P (.arr xs))
    (hobj : ∀ kvs, (∀ kv ∈ kvs, P kv.2) → P (.obj kvs)) : ∀ v, P v
  | .null => hnull
  | .bool b => hbool b
  | .num n => hnum n
  | .str s => hstr s
  | .arr xs => harr xs fun v hv =>
      have : sizeOf v < sizeOf (JVal.arr xs) := by
        have h1 := List.sizeOf_lt_of_mem hv
        simp only [JVal.arr.sizeOf_spec]
        omega
      JVal.indStrong hnull hbool hnum hstr harr hobj v
  | .obj kvs => hobj kvs fun kv hkv =>
      have : sizeOf kv.2 < 1 + sizeOf kvs := by
        have h1 := List.sizeOf_lt_of_mem hkv
        have h2 : sizeOf kv.2 < sizeOf kv := by
          obtain ⟨a, b⟩ := kv
          simp
        omega
      JVal.indStrong hnull hbool hnum hstr harr hobj kv.2
termination_by v => sizeOf v

theorem isDig_digitChar10 (n : Nat) : isDig (digitChar10 n) = true := by
  unfold digitChar10
  split <;> decide

theorem digitVal_digitChar10 (n : Nat) (h : n < 10) : digitVal (digitChar10 n) = n := by
  interval_cases n <;> decide

theorem natChars_all_dig : ∀ f n, n < f → (natChars f n).all isDig = true := by
  intro f
  induction f with
  | zero => intro n h; omega
  | succ f ih =>
    intro n h
    unfold natChars
    by_cases h10 : n < 10
    · simp [h10, isDig_digitChar10]
    · have hd : n / 10 < f := by
        have := Nat.div_lt_self (show 0 < n by omega) (show 1 < 10 by omega)
        omega
      simp only [h10, if_false, List.all_append]
      rw [ih _ hd]
      simp [isDig_digitChar10]

theorem natChars_ne_nil : ∀ f n, n < f → natChars f n ≠ [] := by
  intro f
  induction f with
  | zero => intro n h; omega
  | succ f _ =>
    intro n _
    unfold natChars
    by_cases h10 : n < 10
    · simp [h10]
    · simp [h10]

theorem digitsToNat_natChars : ∀ f n, n < f → digitsToNat (natChars f n) = n := by
  intro f
  induction f with
  | zero => intro n h; omega
  | succ f ih =>
    intro n h
    unfold natChars
    by_cases h10 : n < 10
    · simp only [h10, if_true]
      unfold digitsToNat
      simp [digitVal_digitChar10 n h10]
    · have hd : n / 10 < f := by
        have := Nat.div_lt_self (show 0 < n by omega) (show 1 < 10 by omega)
        omega
      simp only [h10, if_false]
      unfold digitsToNat
      rw [List.foldl_append]
      have hmod : digitVal (digitChar10 (n % 10)) = n % 10 :=
        digitVal_digitChar10 _ (Nat.mod_lt _ (by omega))
      simp only [List.foldl_cons, List.foldl_nil]
      have hrec : digitsToNat (natChars f (n / 10)) = n / 10 := ih _ hd
      unfold digitsToNat at hrec
      rw [hrec, hmod]
      omega

theorem isDig_not_ws {c : Char} (h : isDig c = true) : wsJson c = false := by
  unfold isDig at h
  simp only [Bool.and_eq_true, decide_eq_true_eq] at h
  unfold wsJson
  have h1 : (c == ' ') = false := by
    rw [beq_eq_false_iff_ne]
    intro he
    subst he
    exact absurd h (by decide)
  have h2 : (c == '\t') = false := by
    rw [beq_eq_false_iff_ne]
    intro he
    subst he
    exact absurd h (by decide)
  have h3 : (c == '\n') = false := by
    rw [beq_eq_false_iff_ne]
    intro he
    subst he
    exact absurd h (by decide)
  have h4 : (c == '\r') = false := by
    rw [beq_eq_false_iff_ne]
    intro he
    subst he
    exact absurd h (by decide)
  simp [h1, h2, h3, h4]

theorem takeWhile_digits {ds rest : List Char} (hds : ds.all isDig = true)
    (hrest : headSafe rest = true) :
    (ds ++ rest).takeWhile isDig = ds ∧ (ds ++ rest).dropWhile isDig = rest := by
  constructor
  · rw [takeWhile_append_of_all hds]
    cases rest with
    | nil => simp
    | cons c cs =>
      unfold headSafe at hrest
      simp only [Bool.not_eq_true'] at hrest
      simp [List.takeWhile_cons, hrest]
  · rw [dropWhile_append_of_all hds]
    cases rest with
    | nil => rfl
    | cons c cs =>
      unfold headSafe at hrest
      simp only [Bool.not_eq_true'] at hrest
      simp [List.dropWhile_cons, hrest]

theorem parseNum_intChars (n : Int) (rest : List Char) (hrest : headSafe rest = true) :
    parseNum (intChars n ++ rest) = some (.num n, rest) := by
  unfold intChars
  by_cases hneg : n < 0
  · simp only [hneg, if_true]
    have hall := natChars_all_dig (n.natAbs + 1) n.natAbs (by omega)
    have hne := natChars_ne_nil (n.natAbs + 1) n.natAbs (by omega)
    have htw := takeWhile_digits hall hrest
    rw [List.cons_append]
    unfold parseNum
    simp only [if_pos rfl, htw.1, htw.2]
    have hie : (natChars (n.natAbs + 1) n.natAbs).isEmpty = false := by
      cases hc : natChars (n.natAbs + 1) n.natAbs with
      | nil => exact absurd hc hne
      | cons a as => rfl
    simp only [hie, Bool.false_eq_true, if_false]
    have hv := digitsToNat_natChars (n.natAbs + 1) n.natAbs (by omega)
    rw [hv]
    have : -((n.natAbs : Int)) = n := by omega
    rw [this]
    simp
  · simp only [hneg, if_false]
    have hall := natChars_all_dig (n.toNat + 1) n.toNat (by omega)
    have hne := natChars_ne_nil (n.toNat + 1) n.toNat (by omega)
    cases hsh : natChars (n.toNat + 1) n.toNat with
    | nil => exact absurd hsh hne
    | cons c cs =>
      have hcdig : isDig c = true := by
        rw [hsh] at hall
        simp only [List.all_cons, Bool.and_eq_true] at hall
        exact hall.1
      rw [List.cons_append]
      unfold parseNum
      have hcne : ¬ (c = '-') := by
        intro he
        subst he
        exact absurd hcdig (by decide)
      simp only [if_neg hcne]
      have hallc : (c :: cs).all isDig = true := by
        rw [← hsh]
        exact hall
      have htw := takeWhile_digits hallc hrest
      rw [List.cons_append] at htw
      simp only [htw.1, htw.2]
      simp only [List.isEmpty_cons, Bool.false_eq_true, if_false]
      have hv := digitsToNat_natChars (n.toNat + 1) n.toNat (by omega)
      rw [hsh] at hv
      rw [hv]
      have : ((n.toNat : Int)) = n := by omega
      rw [this]

theorem parseStrBody_append {l : List Char} (rest : List Char)
    (h : strOkChars l = true) :
    parseStrBody (l ++ '"' :: rest) = some (l, rest) := by
  induction l with
  | nil =>
    show parseStrBody ('"' :: rest) = some ([], rest)
    unfold parseStrBody
    simp
  | cons c cs ih =>
    unfold strOkChars at h
    simp only [List.all_cons, Bool.and_eq_true, bne_iff_ne, ne_eq,
      decide_eq_true_eq] at h
    have hq : ¬ (c = '"') := by tauto
    have hbs : ¬ (c = '\\') := by tauto
    have hge : 32 ≤ c.toNat := by tauto
    have hall : cs.all (fun c => (c != '"') && (c != '\\') && decide (32 ≤ c.toNat)) = true := by
      tauto
    rw [List.cons_append]
    unfold parseStrBody
    rw [if_neg hq, if_neg hbs, if_neg (by omega : ¬ (c.toNat < 32))]
    have hres := ih hall
    rw [hres]
    rfl

theorem skipWs_cons_false {c : Char} {cs : List Char} (h : wsJson c = false) :
    skipWs (c :: cs) = c :: cs := by
  simp [skipWs, List.dropWhile_cons, h]

theorem dump_head_not_ws (v : JVal) : ∃ c cs, dumpJ v = c :: cs ∧ wsJson c = false := by
  cases v with
  | null => exact ⟨'n', ['u', 'l', 'l'], by simp [dumpJ], by decide⟩
  | bool b =>
    cases b with
    | true => exact ⟨'t', ['r', 'u', 'e'], by simp [dumpJ], by decide⟩
    | false => exact ⟨'f', ['a', 'l', 's', 'e'], by simp [dumpJ], by decide⟩
  | num n =>
    by_cases hneg : n < 0
    · exact ⟨'-', natChars (n.natAbs + 1) n.natAbs,
        by simp [dumpJ, intChars, hneg], by decide⟩
    · have hne := natChars_ne_nil (n.toNat + 1) n.toNat (by omega)
      have hall := natChars_all_dig (n.toNat + 1) n.toNat (by omega)
      cases hsh : natChars (n.toNat + 1) n.toNat with
      | nil => exact absurd hsh hne
      | cons c cs =>
        refine ⟨c, cs, by simp [dumpJ, intChars, hneg, hsh], ?_⟩
        rw [hsh] at hall
        simp only [List.all_cons, Bool.and_eq_true] at hall
        exact isDig_not_ws hall.1
  | str s => exact ⟨'"', s.data ++ ['"'], by simp [dumpJ], by decide⟩
  | arr xs => exact ⟨'[', dumpElems xs ++ [']'], by simp [dumpJ], by decide⟩
  | obj kvs => exact ⟨'{', dumpMembers kvs ++ ['}'], by simp [dumpJ], by decide⟩

theorem skipWs_dump_append (v : JVal) (rest : List Char) :
    skipWs (dumpJ v ++ rest) = dumpJ v ++ rest := by
  obtain ⟨c, cs, heq, hws⟩ := dump_head_not_ws v
  rw [heq, List.cons_append]
  exact skipWs_cons_false hws

theorem dump_ne_nil (v : JVal) : dumpJ v ≠ [] := by
  obtain ⟨c, cs, heq, _⟩ := dump_head_not_ws v
  rw [heq]
  simp

theorem sizeJvList_le (xs : List JVal)
    (h : ∀ v ∈ xs, sizeJv v ≤ (dumpJ v).length) :
    sizeJvList xs ≤ (dumpElems xs).length + 1 := by
  induction xs with
  | nil => simp [sizeJvList, dumpElems]
  | cons v rest ih =>
    cases rest with
    | nil =>
      have hv := h v (by simp)
      simp only [sizeJvList, dumpElems]
      omega
    | cons w t =>
      have hv := h v (by simp)
      have hrest := ih (fun u hu => h u (List.mem_cons_of_mem _ hu))
      simp only [sizeJvList] at hrest ⊢
      rw [show dumpElems (v :: w :: t) = dumpJ v ++ ',' :: dumpElems (w :: t) from by
        simp [dumpElems]]
      simp only [List.length_append, List.length_cons]
      omega

theorem sizeJvFields_le (kvs : List (String × JVal))
    (h : ∀ kv ∈ kvs, sizeJv kv.2 ≤ (dumpJ kv.2).length) :
    sizeJvFields kvs ≤ (dumpMembers kvs).length + 1 := by
  induction kvs with
  | nil => simp [sizeJvFields, dumpMembers]
  | cons kv rest ih =>
    obtain ⟨k, v⟩ := kv
    cases rest with
    | nil =>
      have hv := h (k, v) (by simp)
      simp only [sizeJvFields, dumpMembers, List.length_cons, List.length_append]
      simp at hv
      omega
    | cons kw t =>
      have hv := h (k, v) (by simp)
      have hrest := ih (fun u hu => h u (List.mem_cons_of_mem _ hu))
      simp only [sizeJvFields] at hrest ⊢
      rw [show dumpMembers ((k, v) :: kw :: t) =
          '"' :: k.data ++ '"' :: ':' :: dumpJ v ++ ',' :: dumpMembers (kw :: t) from by
        simp [dumpMembers]]
      simp only [List.length_append, List.length_cons]
      simp at hv
      omega

theorem sizeJv_le_dump : ∀ v, sizeJv v ≤ (dumpJ v).length := by
  intro v
  induction v using JVal.indStrong with
  | hnull => simp [sizeJv, dumpJ]
  | hbool b => cases b <;> simp [sizeJv, dumpJ]
  | hnum n =>
    obtain ⟨c, cs, heq, _⟩ := dump_head_not_ws (.num n)
    rw [show sizeJv (.num n) = 1 from by simp [sizeJv], heq]
    simp
  | hstr s =>
    simp only [sizeJv, dumpJ, List.length_cons, List.length_append]
    omega
  | harr xs ih =>
    have := sizeJvList_le xs ih
    simp only [sizeJv, dumpJ, List.length_cons, List.length_append]
    omega
  | hobj kvs ih =>
    have := sizeJvFields_le kvs ih
    simp only [sizeJv, dumpJ, List.length_cons, List.length_append]
    omega

theorem stringMk_data (s : String) : String.mk s.data = s := rfl

theorem numOkB_cons (v : JVal) {c : Char} (h : isDig c = false) (rest : List Char) :
    numOkB v (c :: rest) = true := by
  cases v <;> simp [numOkB, headSafe, h]

theorem dump_head_shape (v : JVal) :
    ∃ c cs, dumpJ v = c :: cs ∧
      (c = 'n' ∨ c = 't' ∨ c = 'f' ∨ c = '"' ∨ c = '{' ∨ c = '[' ∨ c = '-' ∨
        isDig c = true) := by
  cases v with
  | null => exact ⟨'n', ['u', 'l', 'l'], by simp [dumpJ], by decide⟩
  | bool b =>
    cases b with
    | true => exact ⟨'t', ['r', 'u', 'e'], by simp [dumpJ], by decide⟩
    | false => exact ⟨'f', ['a', 'l', 's', 'e'], by simp [dumpJ], by decide⟩
  | num n =>
    by_cases hneg : n < 0
    · exact ⟨'-', natChars (n.natAbs + 1) n.natAbs,
        by simp [dumpJ, intChars, hneg], by decide⟩
    · have hne := natChars_ne_nil (n.toNat + 1) n.toNat (by omega)
      have hall := natChars_all_dig (n.toNat + 1) n.toNat (by omega)
      cases hsh : natChars (n.toNat + 1) n.toNat with
      | nil => exact absurd hsh hne
      | cons c cs =>
        refine ⟨c, cs, by simp [dumpJ, intChars, hneg, hsh], ?_⟩
        rw [hsh] at hall
        simp only [List.all_cons, Bool.and_eq_true] at hall
        tauto
  | str s => exact ⟨'"', s.data ++ ['"'], by simp [dumpJ], by decide⟩
  | arr xs => exact ⟨'[', dumpElems xs ++ [']'], by simp [dumpJ], by decide⟩
  | obj kvs => exact ⟨'{', dumpMembers kvs ++ ['}'], by simp [dumpJ], by decide⟩

theorem dump_head_delim (v : JVal) :
    ∃ c cs, dumpJ v = c :: cs ∧ c ≠ ']' ∧ c ≠ '}' ∧ c ≠ ',' ∧ wsJson c = false := by
  obtain ⟨c, cs, heq, hs⟩ := dump_head_shape v
  refine ⟨c, cs, heq, ?_, ?_, ?_, ?_⟩ <;>
    rcases hs with h | h | h | h | h | h | h | h <;>
    first
      | (subst h; decide)
      | exact isDig_not_ws h
      | (intro he; subst he; exact absurd h (by decide))

theorem dumpMembers_cons (kv : String × JVal) (t : List (String × JVal)) :
    ∃ tl, dumpMembers (kv :: t) = '"' :: tl := by
  obtain ⟨k, v⟩ := kv
  cases t with
  | nil => exact ⟨k.data ++ '"' :: ':' :: dumpJ v, by simp [dumpMembers]⟩
  | cons kw tw =>
    exact ⟨k.data ++ '"' :: ':' :: dumpJ v ++ ',' :: dumpMembers (kw :: tw),
      by simp [dumpMembers]⟩

theorem parseMembers_dump (kvs : List (String × JVal))
    (ih : ∀ kv ∈ kvs, ∀ f rest, sizeJv kv.2 ≤ f → numOkB kv.2 rest = true →
      parseVal f (dumpJ kv.2 ++ rest) = some (kv.2, rest)) :
    kvs ≠ [] → wfFields kvs = true →
    ∀ f rest, sizeJvFields kvs ≤ f →
      parseMembers f (dumpMembers kvs ++ '}' :: rest) = some (kvs, rest) := by
  induction kvs with
  | nil => intro hne; exact absurd rfl hne
  | cons kv t ihm =>
    intro _ hwf f rest hf
    obtain ⟨k, v⟩ := kv
    unfold wfFields at hwf
    simp only [Bool.and_eq_true] at hwf
    have hkok : strOkChars k.data = true := by tauto
    have hvwf : wfJ v = true := by tauto
    have htwf : wfFields t = true := by tauto
    have hf1 : 1 + sizeJv v + sizeJvFields t ≤ f := by
      simpa [sizeJvFields] using hf
    cases f with
    | zero => omega
    | succ f =>
      have hvf : sizeJv v ≤ f := by omega
      cases t with
      | nil =>
        rw [show dumpMembers [(k, v)] ++ '}' :: rest =
            '"' :: (k.data ++ '"' :: (':' :: (dumpJ v ++ '}' :: rest))) from by
          simp [dumpMembers]]
        unfold parseMembers
        rw [if_pos rfl]
        rw [parseStrBody_append _ hkok]
        dsimp only
        rw [skipWs_cons_false (by decide)]
        dsimp only
        rw [if_pos rfl]
        rw [skipWs_dump_append]
        rw [ih (k, v) (by simp) f ('}' :: rest) hvf (numOkB_cons v (by decide) rest)]
        dsimp only
        rw [skipWs_cons_false (by decide)]
        dsimp only
        rw [if_neg (by decide), if_pos rfl]
      | cons kw tw =>
        rw [show dumpMembers ((k, v) :: kw :: tw) ++ '}' :: rest =
            '"' :: (k.data ++ '"' :: (':' :: (dumpJ v ++
              ',' :: (dumpMembers (kw :: tw) ++ '}' :: rest)))) from by
          simp [dumpMembers]]
        unfold parseMembers
        rw [if_pos rfl]
        rw [parseStrBody_append _ hkok]
        dsimp only
        rw [skipWs_cons_false (by decide)]
        dsimp only
        rw [if_pos rfl]
        rw [skipWs_dump_append]
        rw [ih (k, v) (by simp) f _ hvf (numOkB_cons v (by decide) _)]
        dsimp only
        rw [skipWs_cons_false (by decide)]
        dsimp only
        rw [if_pos rfl]
        obtain ⟨tl, htl⟩ := dumpMembers_cons kw tw
        rw [htl, List.cons_append, skipWs_cons_false (by decide), ← List.cons_append,
          ← htl]
        rw [ihm (fun u hu => ih u (List.mem_cons_of_mem _ hu)) (by simp) htwf f rest
          (by simp [sizeJvFields] at hf1 ⊢; omega)]

theorem parseElems_dump (xs : List JVal)
    (ih : ∀ v ∈ xs, ∀ f rest, sizeJv v ≤ f → numOkB v rest = true →
      parseVal f (dumpJ v ++ rest) = some (v, rest)) :
    xs ≠ [] → wfList xs = true →
    ∀ f rest, sizeJvList xs ≤ f →
      parseElems f (dumpElems xs ++ ']' :: rest) = some (xs, rest) := by
  induction xs with
  | nil => intro hne; exact absurd rfl hne
  | cons v t ihm =>
    intro _ hwf f rest hf
    unfold wfList at hwf
    simp only [Bool.and_eq_true] at hwf
    have hvwf : wfJ v = true := hwf.1
    have htwf : wfList t = true := hwf.2
    have hf1 : 1 + sizeJv v + sizeJvList t ≤ f := by
      simpa [sizeJvList] using hf
    cases f with
    | zero => omega
    | succ f =>
      have hvf : sizeJv v ≤ f := by omega
      cases t with
      | nil =>
        rw [show dumpElems [v] ++ ']' :: rest = dumpJ v ++ ']' :: rest from by
          simp [dumpElems]]
        unfold parseElems
        rw [ih v (by simp) f (']' :: rest) hvf (numOkB_cons v (by decide) rest)]
        dsimp only
        rw [skipWs_cons_false (by decide)]
        dsimp only
        rw [if_neg (by decide), if_pos rfl]
      | cons w tw =>
        rw [show dumpElems (v :: w :: tw) ++ ']' :: rest =
            dumpJ v ++ ',' :: (dumpElems (w :: tw) ++ ']' :: rest) from by
          simp [dumpElems]]
        unfold parseElems
        rw [ih v (by simp) f _ hvf (numOkB_cons v (by decide) _)]
        dsimp only
        rw [skipWs_cons_false (by decide)]
        dsimp only
        rw [if_pos rfl]
        obtain ⟨c, cs, hdh, _, _, _, hws⟩ := dump_head_delim w
        have hhead : ∃ tl, dumpElems (w :: tw) = c :: tl := by
          cases tw with
          | nil => exact ⟨cs, by simp [dumpElems, hdh]⟩
          | cons u tu => exact ⟨cs ++ ',' :: dumpElems (u :: tu), by simp [dumpElems, hdh]⟩
        obtain ⟨tl, htl⟩ := hhead
        rw [htl, List.cons_append, skipWs_cons_false hws, ← List.cons_append, ← htl]
        rw [ihm (fun u hu => ih u (List.mem_cons_of_mem _ hu)) (by simp) htwf f rest
          (by simp [sizeJvList] at hf1 ⊢; omega)]

theorem wfList_mem {xs : List JVal} (h : wfList xs = true) :
    ∀ v ∈ xs, wfJ v = true := by
  induction xs with
  | nil => simp
  | cons a b ih =>
    intro v hv
    unfold wfList at h
    simp only [Bool.and_eq_true] at h
    rcases List.mem_cons.mp hv with h1 | h2
    · subst h1
      exact h.1
    · exact ih h.2 v h2

theorem wfFields_mem {kvs : List (String × JVal)} (h : wfFields kvs = true) :
    ∀ kv ∈ kvs, wfJ kv.2 = true := by
  induction kvs with
  | nil => simp
  | cons a b ih =>
    intro kv hkv
    obtain ⟨ka, va⟩ := a
    unfold wfFields at h
    simp only [Bool.and_eq_true] at h
    rcases List.mem_cons.mp hkv with h1 | h2
    · subst h1
      tauto
    · exact ih (by tauto) kv h2

/-- Parser-serializer roundtrip: the incremental decoder, given enough fuel,
decodes exactly one serialized well-formed value at the head of the input and
stops precisely at its end. -/
theorem parseVal_dump : ∀ v, wfJ v = true → ∀ f rest, sizeJv v ≤ f →
    numOkB v rest = true → parseVal f (dumpJ v ++ rest) = some (v, rest) := by
  intro v
  induction v using JVal.indStrong with
  | hnull =>
    intro _ f rest hf _
    cases f with
    | zero => simp [sizeJv] at hf
    | succ f =>
      rw [show dumpJ .null ++ rest = 'n' :: 'u' :: 'l' :: 'l' :: rest from by
        simp [dumpJ]]
      unfold parseVal
      rw [if_pos rfl]
      rfl
  | hbool b =>
    intro _ f rest hf _
    cases f with
    | zero => simp [sizeJv] at hf
    | succ f =>
      cases b with
      | true =>
        rw [show dumpJ (.bool true) ++ rest = 't' :: 'r' :: 'u' :: 'e' :: rest from by
          simp [dumpJ]]
        unfold parseVal
        rw [if_neg (by decide), if_pos rfl]
        rfl
      | false =>
        rw [show dumpJ (.bool false) ++ rest =
            'f' :: 'a' :: 'l' :: 's' :: 'e' :: rest from by simp [dumpJ]]
        unfold parseVal
        rw [if_neg (by decide), if_neg (by decide), if_pos rfl]
        rfl
  | hnum n =>
    intro _ f rest hf hnok
    cases f with
    | zero => simp [sizeJv] at hf
    | succ f =>
      have hrest : headSafe rest = true := by simpa [numOkB] using hnok
      rw [show dumpJ (.num n) = intChars n from by simp [dumpJ]]
      by_cases hneg : n < 0
      · rw [show intChars n = '-' :: natChars (n.natAbs + 1) n.natAbs from by
          simp [intChars, hneg]]
        rw [List.cons_append]
        unfold parseVal
        rw [if_neg (by decide), if_neg (by decide), if_neg (by decide),
          if_neg (by decide), if_neg (by decide), if_neg (by decide), if_pos rfl]
        rw [← List.cons_append,
          show '-' :: natChars (n.natAbs + 1) n.natAbs = intChars n from by
            simp [intChars, hneg]]
        exact parseNum_intChars n rest hrest
      · have hne := natChars_ne_nil (n.toNat + 1) n.toNat (by omega)
        have hall := natChars_all_dig (n.toNat + 1) n.toNat (by omega)
        rw [show intChars n = natChars (n.toNat + 1) n.toNat from by
          simp [intChars, hneg]]
        cases hsh : natChars (n.toNat + 1) n.toNat with
        | nil => exact absurd hsh hne
        | cons c cs =>
          have hcdig : isDig c = true := by
            rw [hsh] at hall
            simp only [List.all_cons, Bool.and_eq_true] at hall
            exact hall.1
          rw [List.cons_append]
          unfold parseVal
          rw [if_neg (fun he => by subst he; exact absurd hcdig (by decide)),
            if_neg (fun he => by subst he; exact absurd hcdig (by decide)),
            if_neg (fun he => by subst he; exact absurd hcdig (by decide)),
            if_neg (fun he => by subst he; exact absurd hcdig (by decide)),
            if_neg (fun he => by subst he; exact absurd hcdig (by decide)),
            if_neg (fun he => by subst he; exact absurd hcdig (by decide)),
            if_neg (fun he => by subst he; exact absurd hcdig (by decide)),
            if_pos hcdig]
          rw [← List.cons_append, ← hsh,
            show natChars (n.toNat + 1) n.toNat = intChars n from by
              simp [intChars, hneg]]
          exact parseNum_intChars n rest hrest
  | hstr s =>
    intro hwf f rest hf _
    cases f with
    | zero => simp [sizeJv] at hf
    | succ f =>
      rw [show dumpJ (.str s) ++ rest = '"' :: (s.data ++ '"' :: rest) from by
        simp [dumpJ]]
      unfold parseVal
      rw [if_neg (by decide), if_neg (by decide), if_neg (by decide), if_pos rfl]
      rw [parseStrBody_append _ (by simpa [wfJ] using hwf)]
      simp only [Option.map]
  | harr xs ihe =>
    intro hwf f rest hf _
    have hwl : wfList xs = true := by simpa [wfJ] using hwf
    have hf1 : 1 + sizeJvList xs ≤ f := by simpa [sizeJv] using hf
    cases f with
    | zero => omega
    | succ f =>
      rw [show dumpJ (.arr xs) ++ rest = '[' :: (dumpElems xs ++ ']' :: rest) from by
        simp [dumpJ]]
      unfold parseVal
      rw [if_neg (by decide), if_neg (by decide), if_neg (by decide),
        if_neg (by decide), if_neg (by decide), if_pos rfl]
      cases xs with
      | nil =>
        rw [show dumpElems ([] : List JVal) ++ ']' :: rest = ']' :: rest from by
          simp [dumpElems]]
        rw [skipWs_cons_false (by decide)]
        dsimp only
        rw [if_pos rfl]
      | cons x t =>
        obtain ⟨c, cs, hdh, hne1, _, _, hws⟩ := dump_head_delim x
        have hhead : ∃ tl, dumpElems (x :: t) = c :: tl := by
          cases t with
          | nil => exact ⟨cs, by simp [dumpElems, hdh]⟩
          | cons u tu => exact ⟨cs ++ ',' :: dumpElems (u :: tu), by simp [dumpElems, hdh]⟩
        obtain ⟨tl, htl⟩ := hhead
        rw [htl, List.cons_append, skipWs_cons_false hws]
        dsimp only
        rw [if_neg hne1, ← List.cons_append, ← htl]
        rw [parseElems_dump (x :: t)
          (fun u hu f2 r2 hf2 hn2 => ihe u hu (wfList_mem hwl u hu) f2 r2 hf2 hn2)
          (by simp) hwl f rest (by omega)]
        rfl
  | hobj kvs ihe =>
    intro hwf f rest hf _
    have hwl : wfFields kvs = true := by simpa [wfJ] using hwf
    have hf1 : 1 + sizeJvFields kvs ≤ f := by simpa [sizeJv] using hf
    cases f with
    | zero => omega
    | succ f =>
      rw [show dumpJ (.obj kvs) ++ rest = '{' :: (dumpMembers kvs ++ '}' :: rest) from by
        simp [dumpJ]]
      unfold parseVal
      rw [if_neg (by decide), if_neg (by decide), if_neg (by decide),
        if_neg (by decide), if_pos rfl]
      cases kvs with
      | nil =>
        rw [show dumpMembers ([] : List (String × JVal)) ++ '}' :: rest =
            '}' :: rest from by simp [dumpMembers]]
        rw [skipWs_cons_false (by decide)]
        dsimp only
        rw [if_pos rfl]
      | cons kv t =>
        obtain ⟨tl, htl⟩ := dumpMembers_cons kv t
        rw [htl, List.cons_append, skipWs_cons_false (by decide)]
        dsimp only
        rw [if_neg (by decide), ← List.cons_append, ← htl]
        rw [parseMembers_dump (kv :: t)
          (fun u hu f2 r2 hf2 hn2 => ihe u hu (wfFields_mem hwl u hu) f2 r2 hf2 hn2)
          (by simp) hwl f rest (by omega)]
        rfl

theorem glueChars_append (segs : List (List Char × List (String × JVal)))
    (tailp : List Char) : glueChars segs tailp = glueChars segs [] ++ tailp := by
  induction segs with
  | nil => simp [glueChars]
  | cons sg rest ih =>
    obtain ⟨p, o⟩ := sg
    simp [glueChars, ih, List.append_assoc]

theorem dumpJ_obj_eq (o : List (String × JVal)) :
    dumpJ (.obj o) = '{' :: (dumpMembers o ++ ['}']) := by
  simp [dumpJ]

theorem dumpJ_obj_len (o : List (String × JVal)) : 2 ≤ (dumpJ (.obj o)).length := by
  rw [dumpJ_obj_eq]
  simp

/-- Core behavior of the extractor scan on an interleaving of brace-free
prose and serialized objects: every serialized object is decoded in place and
emitted, in order, and the prose around each one is skipped. -/
theorem scanStep_glue :
    ∀ (segs : List (List Char × List (String × JVal))) (tailp : List Char) (f : Nat),
    (∀ sg ∈ segs, noBraces sg.1 = true ∧ wfFields sg.2 = true) →
    noBraces tailp = true →
    (glueChars segs tailp).length + 1 ≤ f →
    scanStep f (glueChars segs tailp) = segs.map (fun sg => JVal.obj sg.2) := by
  intro segs
  induction segs with
  | nil =>
    intro tailp f _ htail hf
    cases f with
    | zero => omega
    | succ f =>
      unfold scanStep
      rw [show glueChars [] tailp = tailp from rfl]
      rw [dropWhile_nil_of_all (by simpa [noBraces] using htail)]
      rfl
  | cons sg rest ih =>
    intro tailp f hsegs htail hf
    obtain ⟨p, o⟩ := sg
    have hp : noBraces p = true := (hsegs (p, o) (by simp)).1
    have ho : wfFields o = true := (hsegs (p, o) (by simp)).2
    have hg : glueChars ((p, o) :: rest) tailp =
        p ++ (dumpJ (.obj o) ++ glueChars rest tailp) := by
      simp [glueChars]
    cases f with
    | zero => omega
    | succ f =>
      unfold scanStep
      rw [hg]
      rw [dropWhile_append_of_all (by simpa [noBraces] using hp)]
      rw [dumpJ_obj_eq, List.cons_append,
        dropWhile_cons_false (by decide : notBrace '{' = false)]
      dsimp only
      rw [← List.cons_append, ← dumpJ_obj_eq]
      have hfuel : sizeJv (.obj o) ≤ (dumpJ (.obj o) ++ glueChars rest tailp).length + 1 := by
        have h1 := sizeJv_le_dump (.obj o)
        simp only [List.length_append]
        omega
      rw [parseVal_dump (.obj o) (by simpa [wfJ] using ho) _ (glueChars rest tailp)
        hfuel (by simp [numOkB])]
      dsimp only
      have hfl : (glueChars rest tailp).length + 1 ≤ f := by
        rw [hg] at hf
        have h2 := dumpJ_obj_len o
        simp only [List.length_append] at hf
        omega
      rw [ih tailp f (fun u hu => hsegs u (List.mem_cons_of_mem _ hu)) htail hfl]
      simp [dictsOf]

theorem isDig_not_pyWs {c : Char} (h : isDig c = true) : pyWs c = false := by
  unfold isDig at h
  simp only [Bool.and_eq_true, decide_eq_true_eq] at h
  unfold pyWs
  have h1 : (c == ' ') = false := by
    rw [beq_eq_false_iff_ne]
    intro he
    subst he
    exact absurd h (by decide)
  have h2 : (c == '\t') = false := by
    rw [beq_eq_false_iff_ne]
    intro he
    subst he
    exact absurd h (by decide)
  have h3 : (c == '\n') = false := by
    rw [beq_eq_false_iff_ne]
    intro he
    subst he
    exact absurd h (by decide)
  have h4 : (c == '\r') = false := by
    rw [beq_eq_false_iff_ne]
    intro he
    subst he
    exact absurd h (by decide)
  have h5 : (c == '\x0b') = false := by
    rw [beq_eq_false_iff_ne]
    intro he
    subst he
    exact absurd h (by decide)
  have h6 : (c == '\x0c') = false := by
    rw [beq_eq_false_iff_ne]
    intro he
    subst he
    exact absurd h (by decide)
  simp [h1, h2, h3, h4, h5, h6]

theorem dump_head_not_pyWs (v : JVal) :
    ∃ c cs, dumpJ v = c :: cs ∧ pyWs c = false := by
  obtain ⟨c, cs, heq, hs⟩ := dump_head_shape v
  refine ⟨c, cs, heq, ?_⟩
  rcases hs with h | h | h | h | h | h | h | h
  · subst h; decide
  · subst h; decide
  · subst h; decide
  · subst h; decide
  · subst h; decide
  · subst h; decide
  · subst h; decide
  · exact isDig_not_pyWs h

theorem glue_ends_brace :
    ∀ (segs : List (List Char × List (String × JVal))) (sg : List Char × List (String × JVal)),
      ∃ zs, glueChars (sg :: segs) [] = zs ++ ['}'] := by
  intro segs
  induction segs with
  | nil =>
    intro sg
    obtain ⟨p, o⟩ := sg
    exact ⟨p ++ '{' :: dumpMembers o, by simp [glueChars, dumpJ_obj_eq]⟩
  | cons sg2 rest ih =>
    intro sg
    obtain ⟨p, o⟩ := sg
    obtain ⟨zs, hz⟩ := ih sg2
    refine ⟨p ++ dumpJ (.obj o) ++ zs, ?_⟩
    rw [show glueChars ((p, o) :: sg2 :: rest) [] =
        p ++ dumpJ (.obj o) ++ glueChars (sg2 :: rest) [] from by
      simp [glueChars]]
    rw [hz]
    simp [List.append_assoc]

theorem stripEnd_glue (segs : List (List Char × List (String × JVal)))
    (sg : List Char × List (String × JVal)) (tailp : List Char) :
    stripEnd (glueChars (sg :: segs) tailp) = glueChars (sg :: segs) (stripEnd tailp) := by
  obtain ⟨zs, hz⟩ := glue_ends_brace segs sg
  rw [glueChars_append _ tailp, glueChars_append _ (stripEnd tailp), hz]
  unfold stripEnd
  rw [show ((zs ++ ['}']) ++ tailp).reverse = tailp.reverse ++ ('}' :: zs.reverse) from by
    simp]
  rw [dropWhile_keep_append tailp.reverse (dropWhile_cons_false (by decide))]
  simp

theorem stripL_glue (p : List Char) (o : List (String × JVal))
    (rest : List (List Char × List (String × JVal))) (tailp : List Char) :
    (glueChars ((p, o) :: rest) tailp).dropWhile pyWs =
      glueChars ((p.dropWhile pyWs, o) :: rest) tailp := by
  rw [show glueChars ((p, o) :: rest) tailp =
      p ++ (dumpJ (.obj o) ++ glueChars rest tailp) from by simp [glueChars]]
  obtain ⟨c, cs, hdh, hnw⟩ := dump_head_not_pyWs (.obj o)
  have hx : (dumpJ (.obj o) ++ glueChars rest tailp).dropWhile pyWs =
      dumpJ (.obj o) ++ glueChars rest tailp := by
    rw [hdh, List.cons_append]
    exact dropWhile_cons_false hnw
  rw [dropWhile_keep_append p hx]
  simp [glueChars]

theorem pyStripChars_glue (p : List Char) (o : List (String × JVal))
    (rest : List (List Char × List (String × JVal))) (tailp : List Char) :
    pyStripChars (glueChars ((p, o) :: rest) tailp) =
      glueChars ((p.dropWhile pyWs, o) :: rest) (stripEnd tailp) := by
  unfold pyStripChars
  rw [stripL_glue]
  exact stripEnd_glue rest _ tailp

theorem extract_of_nojson (text : String) (h : noBraces text.data = true) :
    extractJsonObjects text = [] := by
  unfold extractJsonObjects
  have hs : noBraces (pyStripChars text.data) = true := by
    unfold pyStripChars
    exact all_stripEnd (all_dropWhile h)
  cases hss : pyStripChars text.data with
  | nil => rfl
  | cons c tl =>
    rw [hss] at hs
    have hsfull := hs
    unfold noBraces at hs
    simp only [List.all_cons, Bool.and_eq_true] at hs
    have hc : ¬ (c = '[') := by
      intro he
      subst he
      simp [notBrace] at hs
    dsimp only
    rw [if_neg hc]
    have hsc := scanStep_glue [] (c :: tl) ((c :: tl).length + 1) (by simp)
      hsfull (by simp [glueChars])
    simpa [glueChars] using hsc

/-- Interleaving of prose strings and objects followed by trailing prose, at
the string level: the texts over which the extraction claim quantifies. -/
def glueText (segs : List (String × List (String × JVal))) (tailp : String) : String :=
  String.mk (glueChars (segs.map fun sg => (sg.1.data, sg.2)) tailp.data)

theorem extract_of_glue (segs : List (String × List (String × JVal))) (tailp : String)
    (hsegs : ∀ sg ∈ segs, noBraces sg.1.data = true ∧ wfFields sg.2 = true)
    (htail : noBraces tailp.data = true) :
    extractJsonObjects (glueText segs tailp) = segs.map (fun sg => JVal.obj sg.2) := by
  cases segs with
  | nil => exact extract_of_nojson tailp htail
  | cons sg rest =>
    obtain ⟨sp, o⟩ := sg
    have ho : wfFields o = true := (hsegs (sp, o) (by simp)).2
    have hp : noBraces sp.data = true := (hsegs (sp, o) (by simp)).1
    have hrest : ∀ u ∈ rest.map (fun sg => (sg.1.data, sg.2)),
        noBraces u.1 = true ∧ wfFields u.2 = true := by
      intro u hu
      rw [List.mem_map] at hu
      obtain ⟨w, hw, hwe⟩ := hu
      subst hwe
      exact hsegs w (List.mem_cons_of_mem _ hw)
    unfold extractJsonObjects
    rw [show (glueText ((sp, o) :: rest) tailp).data =
        glueChars ((sp.data, o) :: rest.map (fun sg => (sg.1.data, sg.2))) tailp.data
        from rfl]
    rw [pyStripChars_glue]
    have hp2 : noBraces (sp.data.dropWhile pyWs) = true := all_dropWhile hp
    have htail2 : noBraces (stripEnd tailp.data) = true := all_stripEnd htail
    have hmapgoal :
        JVal.obj o :: (rest.map (fun sg => (sg.1.data, sg.2))).map
            (fun sg => JVal.obj sg.2) =
          ((sp, o) :: rest).map (fun sg => JVal.obj sg.2) := by
      simp [List.map_map]
    cases hp' : sp.data.dropWhile pyWs with
    | nil =>
      have hs2 : glueChars (([], o) :: rest.map (fun sg => (sg.1.data, sg.2)))
          (stripEnd tailp.data) =
          '{' :: (dumpMembers o ++ ['}'] ++
            glueChars (rest.map (fun sg => (sg.1.data, sg.2))) (stripEnd tailp.data)) := by
        simp [glueChars, dumpJ_obj_eq]
      rw [hs2]
      dsimp only
      rw [if_neg (by decide : ¬ ('{' = '['))]
      rw [← hs2]
      rw [scanStep_glue (([], o) :: rest.map (fun sg => (sg.1.data, sg.2)))
        (stripEnd tailp.data) _
        (by
          intro u hu
          rcases List.mem_cons.mp hu with h1 | h2
          · subst h1
            exact ⟨by simp [noBraces], ho⟩
          · exact hrest u h2)
        htail2 (le_refl _)]
      exact hmapgoal
    | cons q qt =>
      rw [hp'] at hp2
      unfold noBraces at hp2
      simp only [List.all_cons, Bool.and_eq_true] at hp2
      have hq : ¬ (q = '[') := by
        intro he
        subst he
        simp [notBrace] at hp2
      have hs2 : glueChars ((q :: qt, o) :: rest.map (fun sg => (sg.1.data, sg.2)))
          (stripEnd tailp.data) =
          q :: (qt ++ dumpJ (.obj o) ++
            glueChars (rest.map (fun sg => (sg.1.data, sg.2))) (stripEnd tailp.data)) := by
        simp [glueChars, List.append_assoc]
      rw [hs2]
      dsimp only
      rw [if_neg hq]
      rw [← hs2]
      rw [scanStep_glue ((q :: qt, o) :: rest.map (fun sg => (sg.1.data, sg.2)))
        (stripEnd tailp.data) _
        (by
          intro u hu
          rcases List.mem_cons.mp hu with h1 | h2
          · subst h1
            refine ⟨?_, ho⟩
            unfold noBraces
            simp only [List.all_cons, Bool.and_eq_true]
            tauto
          · exact hrest u h2)
        htail2 (le_refl _)]
      exact hmapgoal

theorem lookAssoc_setAssoc_self {α : Type} (m : List (String × α)) (k : String) (v : α) :
    lookAssoc (setAssoc m k v) k = some v := by
  induction m with
  | nil => simp [setAssoc, lookAssoc]
  | cons kv rest ih =>
    obtain ⟨k1, v1⟩ := kv
    by_cases hk : k1 = k
    · simp [setAssoc, hk, lookAssoc]
    · simp [setAssoc, hk, lookAssoc, ih]

theorem lookAssoc_setAssoc_ne {α : Type} (m : List (String × α)) {k k' : String}
    (h : k' ≠ k) (v : α) : lookAssoc (setAssoc m k v) k' = lookAssoc m k' := by
  have h2 : ¬ (k = k') := fun he => h he.symm
  induction m with
  | nil => simp [setAssoc, lookAssoc, h2]
  | cons kv rest ih =>
    obtain ⟨k1, v1⟩ := kv
    by_cases hk : k1 = k
    · subst hk
      simp [setAssoc, lookAssoc, h2]
    · by_cases hk2 : k1 = k'
      · simp [setAssoc, hk, lookAssoc, hk2, h]
      · simp [setAssoc, hk, lookAssoc, hk2, ih]

theorem setAssoc_len_mem {α : Type} {w : α} (m : List (String × α)) (k : String) (v : α)
    (h : lookAssoc m k = some w) : (setAssoc m k v).length = m.length := by
  induction m with
  | nil => simp [lookAssoc] at h
  | cons kv rest ih =>
    obtain ⟨k1, v1⟩ := kv
    by_cases hk : k1 = k
    · simp [setAssoc, hk]
    · rw [lookAssoc] at h
      simp only [hk, if_false] at h
      simp [setAssoc, hk, ih h]

theorem length_dropWhile_le2 {α : Type} (p : α → Bool) (l : List α) :
    (l.dropWhile p).length ≤ l.length := by
  induction l with
  | nil => simp
  | cons c t ih =>
    rw [List.dropWhile_cons]
    cases hc : p c with
    | true =>
      simp only [if_true]
      simp
      omega
    | false => simp

theorem dropWhile_idem {p : Char → Bool} (l : List Char) :
    (l.dropWhile p).dropWhile p = l.dropWhile p := by
  induction l with
  | nil => rfl
  | cons c t ih =>
    cases hc : p c with
    | true => simp [List.dropWhile_cons, hc, ih]
    | false => simp [List.dropWhile_cons, hc]

theorem stripEnd_cons_head {c : Char} (t : List Char) (hc : pyWs c = false) :
    stripEnd (c :: t) = c :: stripEnd t := by
  unfold stripEnd
  rw [List.reverse_cons]
  rw [dropWhile_keep_append t.reverse (dropWhile_cons_false hc)]
  simp

theorem stripEnd_idem (l : List Char) : stripEnd (stripEnd l) = stripEnd l := by
  unfold stripEnd
  rw [List.reverse_reverse, dropWhile_idem]

theorem dropWhile_stripEnd_fix {x : List Char} (h : x.dropWhile pyWs = x) :
    (stripEnd x).dropWhile pyWs = stripEnd x := by
  cases x with
  | nil => rfl
  | cons c t =>
    cases hc : pyWs c with
    | true =>
      rw [List.dropWhile_cons, hc] at h
      simp only [if_true] at h
      have := length_dropWhile_le2 pyWs t
      rw [h] at this
      simp at this
    | false =>
      rw [stripEnd_cons_head t hc]
      exact dropWhile_cons_false hc

theorem pyStripChars_idem (l : List Char) :
    pyStripChars (pyStripChars l) = pyStripChars l := by
  unfold pyStripChars
  rw [show (stripEnd (l.dropWhile pyWs)).dropWhile pyWs = stripEnd (l.dropWhile pyWs) from
    dropWhile_stripEnd_fix (dropWhile_idem l)]
  exact stripEnd_idem _

theorem pyStrip_idem (s : String) : pyStrip (pyStrip s) = pyStrip s := by
  unfold pyStrip
  rw [show (String.mk (pyStripChars s.data)).data = pyStripChars s.data from rfl]
  rw [pyStripChars_idem]

/-- Layout-document well-shapedness sufficient for the layout actions to run
without raising: a dict whose `tabs` key holds a list, each of whose dict
elements has a list-valued `panels` field when it has one at all. -/
def tabPanelsOk (t : JVal) : Bool :=
  match t with
  | .obj kvs =>
    match lookAssoc kvs "panels" with
    | some (.arr _) => true
    | some _ => false
    | none => true
  | _ => true

/-- Well-shapedness of a parsed layout document (see `tabPanelsOk`). -/
def layoutDocOk (j : JVal) : Bool :=
  match j with
  | .obj kvs =>
    match lookAssoc kvs "tabs" with
    | some (.arr ts) => ts.all tabPanelsOk
    | _ => false
  | _ => false

/-- Well-shapedness of the persisted layout file: absent, or parsed and
well-shaped. -/
def layoutStateOk : Option FileJson → Bool
  | none => true
  | some .malformed => false
  | some (.json j) => layoutDocOk j

/-- The per-tab shape invariant of validated documents: a dict with a
non-empty already-trimmed string name and list-valued filters and panels. -/
def tabShapeOk (t : JVal) : Bool :=
  match t with
  | .obj kvs =>
    (match lookAssoc kvs "name" with
     | some (.str s) => (s != "") && (pyStrip s == s)
     | _ => false) &&
    (match lookAssoc kvs "filters" with
     | some (.arr _) => true
     | _ => false) &&
    (match lookAssoc kvs "panels" with
     | some (.arr _) => true
     | _ => false)
  | _ => false

/-- The document shape invariant guaranteed at save time: `tabs` is a
non-empty list of well-shaped tabs and `sidebar` is a dict. -/
def shapeInvB (j : JVal) : Bool :=
  match j with
  | .obj kvs =>
    (match lookAssoc kvs "tabs" with
     | some (.arr ts) => (!ts.isEmpty) && ts.all tabShapeOk
     | _ => false) &&
    (match lookAssoc kvs "sidebar" with
     | some (.obj _) => true
     | _ => false)
  | _ => false

theorem pyStrip_ne_empty_of {s : String} (h : (pyStrip s).data.isEmpty = false) :
    (pyStrip s != "") = true := by
  rw [bne_iff_ne]
  intro he
  rw [he] at h
  simp at h

theorem validateTab_shape {t t2 : JVal} (h : validateTab t = some t2) :
    tabShapeOk t2 = true := by
  unfold validateTab at h
  cases t with
  | obj kvs =>
    dsimp only at h
    cases hname : lookAssoc kvs "name" with
    | none => rw [hname] at h; simp at h
    | some nv =>
      rw [hname] at h
      cases nv with
      | str s =>
        dsimp only at h
        by_cases hb : (pyStrip s).data.isEmpty = true
        · rw [if_pos hb] at h
          simp at h
        · rw [if_neg hb] at h
          simp only [Option.some.injEq] at h
          subst h
          unfold tabShapeOk
          have h1 := pyStrip_ne_empty_of (by simpa using hb)
          have h2 : (pyStrip (pyStrip s) == pyStrip s) = true := by
            rw [beq_iff_eq]
            exact pyStrip_idem s
          cases hfl : (lookAssoc kvs "filters").getD (.arr []) <;>
            cases hpl : (lookAssoc kvs "panels").getD (.arr []) <;>
            simp [lookAssoc, h1, h2]
      | null => simp at h
      | bool b => simp at h
      | num n => simp at h
      | arr xs => simp at h
      | obj kv2 => simp at h
  | null => simp at h
  | bool b => simp at h
  | num n => simp at h
  | str s => simp at h
  | arr xs => simp at h

theorem overviewTab_shape : tabShapeOk overviewTab = true := by decide

theorem validate_shape {kvs : List (String × JVal)} {v : JVal}
    (h : validateLayout (.obj kvs) = .ok v) : shapeInvB v = true := by
  unfold validateLayout at h
  simp only [bind, Except.bind, pyGetD, pySetIndex] at h
  cases hit : pyIter ((lookAssoc kvs "tabs").getD (.arr [])) with
  | error e =>
    rw [hit] at h
    simp at h
  | ok items =>
    rw [hit] at h
    simp only [Except.ok.injEq] at h
    subst h
    unfold shapeInvB
    dsimp only
    rw [lookAssoc_setAssoc_ne _ (by decide) _, lookAssoc_setAssoc_self,
      lookAssoc_setAssoc_self]
    have hsb : ∃ kvs2, (match (lookAssoc (setAssoc kvs "tabs"
        (.arr (if (items.filterMap validateTab).isEmpty then [overviewTab]
          else items.filterMap validateTab))) "sidebar").getD (.obj []) with
        | JVal.obj kvs2 => JVal.obj kvs2
        | _ => JVal.obj []) = JVal.obj kvs2 := by
      cases (lookAssoc (setAssoc kvs "tabs" _) "sidebar").getD (.obj []) with
      | obj kvs2 => exact ⟨kvs2, rfl⟩
      | null => exact ⟨[], rfl⟩
      | bool b => exact ⟨[], rfl⟩
      | num n => exact ⟨[], rfl⟩
      | str s => exact ⟨[], rfl⟩
      | arr xs => exact ⟨[], rfl⟩
    obtain ⟨kvs2, hsb2⟩ := hsb
    rw [hsb2]
    simp only [Bool.and_eq_true]
    constructor
    · by_cases he : (items.filterMap validateTab).isEmpty = true
      · simp only [he, if_true]
        simp [overviewTab_shape]
      · rw [if_neg he]
        constructor
        · simp only [Bool.not_eq_true']
          simpa using he
        · rw [List.all_eq_true]
          intro t2 ht2
          rw [List.mem_filterMap] at ht2
          obtain ⟨t, _, hvt⟩ := ht2
          exact validateTab_shape hvt
    · trivial

theorem backupLayoutSt_layout (ts : String) (st : St) :
    (backupLayoutSt ts st).layout = st.layout := by
  unfold backupLayoutSt
  cases hl : st.layout with
  | none => exact hl
  | some c => rfl

theorem backupLayoutSt_files (ts : String) (st : St) :
    (backupLayoutSt ts st).files = st.files := by
  unfold backupLayoutSt
  cases hl : st.layout with
  | none => rfl
  | some c => rfl

theorem validate_ok_of_tabs_arr {kvs : List (String × JVal)} {ts : List JVal}
    (h : lookAssoc kvs "tabs" = some (.arr ts)) :
    ∃ v, validateLayout (.obj kvs) = .ok v := by
  unfold validateLayout
  simp only [bind, Except.bind, pyGetD, pySetIndex, h]
  exact ⟨_, rfl⟩

/-- State-transition summary shared by the layout actions on a well-shaped
document: the action returns a result (never raises), leaves backups and
project files alone, and either leaves the layout file untouched or writes a
validated (shape-invariant) document. -/
def actSafe (e : Except String (JVal × St)) (st : St) : Prop :=
  ∃ r st2, e = .ok (r, st2) ∧
    (st2.layout = st.layout ∨ ∃ v, st2.layout = some (.json v) ∧ shapeInvB v = true) ∧
    st2.backups = st.backups ∧ st2.files = st.files

theorem actSafe_same (e : Except String (JVal × St)) (st : St) (r : JVal)
    (h : e = .ok (r, st)) : actSafe e st :=
  ⟨r, st, h, Or.inl rfl, rfl, rfl⟩

theorem saveLayoutSt_actSafe {kvs : List (String × JVal)} {ts2 : List JVal} (st : St)
    (h : lookAssoc kvs "tabs" = some (.arr ts2)) :
    ∃ st2, saveLayoutSt (.obj kvs) st = .ok st2 ∧
      (∃ v, st2.layout = some (.json v) ∧ shapeInvB v = true) ∧
      st2.backups = st.backups ∧ st2.files = st.files := by
  obtain ⟨v, hv⟩ := validate_ok_of_tabs_arr h
  refine ⟨{ st with layout := some (.json v) }, ?_, ⟨v, rfl, validate_shape hv⟩, rfl, rfl⟩
  unfold saveLayoutSt
  simp [bind, Except.bind, hv]

theorem save_tail_safe (m : List (String × JVal)) (ts2 : List JVal) (res : JVal)
    (st : St) :
    actSafe (match saveLayoutSt (.obj (setAssoc m "tabs" (.arr ts2))) st with
             | .error err => .error err
             | .ok st2 => .ok (res, st2)) st := by
  obtain ⟨st2, hsv, hsh, hbk, hfl⟩ := saveLayoutSt_actSafe st
    (lookAssoc_setAssoc_self m "tabs" (.arr ts2))
  rw [hsv]
  exact ⟨res, st2, rfl, Or.inr hsh, hbk, hfl⟩

theorem layoutDocOk_parts {kvs0 : List (String × JVal)}
    (h : layoutDocOk (.obj kvs0) = true) :
    ∃ ts, lookAssoc kvs0 "tabs" = some (.arr ts) ∧ ts.all tabPanelsOk = true := by
  unfold layoutDocOk at h
  dsimp only at h
  cases htv : lookAssoc kvs0 "tabs" with
  | none => rw [htv] at h; simp at h
  | some tv =>
    rw [htv] at h
    cases tv with
    | arr ts => exact ⟨ts, rfl, h⟩
    | null => simp at h
    | bool b => simp at h
    | num n => simp at h
    | str s => simp at h
    | obj kv2 => simp at h

theorem findTabIdx_arr {kvs0 : List (String × JVal)} {ts : List JVal}
    (h : lookAssoc kvs0 "tabs" = some (.arr ts)) (name : String) :
    findTabIdx (.obj kvs0) name =
      .ok (ts, findIdxA (fun t => tabMatches t name) 0 ts) := by
  unfold findTabIdx
  simp [bind, Except.bind, pyGetD, pyIter, h]

theorem actAddTab_safe (kvs : List (String × JVal)) {layout : JVal} (st : St)
    (h : layoutDocOk layout = true) : actSafe (actAddTab kvs layout st) st := by
  unfold actAddTab
  cases hn : lookAssoc kvs "name" with
  | none => exact actSafe_same _ _ _ rfl
  | some nv =>
    cases nv with
    | str n =>
      dsimp only
      by_cases hb : (pyStrip n).data.isEmpty = true
      · rw [if_pos hb]
        exact actSafe_same _ _ _ rfl
      · rw [if_neg hb]
        cases layout with
        | obj kvs0 =>
          obtain ⟨ts, hts, _⟩ := layoutDocOk_parts h
          rw [findTabIdx_arr hts]
          simp only [bind, Except.bind]
          cases hfi : findIdxA (fun t => tabMatches t (pyStrip n)) 0 ts with
          | some it => exact actSafe_same _ _ _ rfl
          | none =>
            rw [show pyIndex (.obj kvs0) "tabs" = .ok (.arr ts) from by
              simp [pyIndex, hts]]
            dsimp only
            obtain ⟨st2, hsv, hsh, hbk, hfl⟩ := saveLayoutSt_actSafe st
              (lookAssoc_setAssoc_self kvs0 "tabs" _)
            rw [show pySetIndex (.obj kvs0) "tabs"
                (.arr (ts ++ [JVal.obj [("name", .str (pyStrip n)),
                  ("filters", .arr []), ("panels", .arr [])]])) =
                .ok (.obj (setAssoc kvs0 "tabs"
                  (.arr (ts ++ [JVal.obj [("name", .str (pyStrip n)),
                    ("filters", .arr []), ("panels", .arr [])]])))) from rfl]
            dsimp only
            rw [hsv]
            exact ⟨_, st2, rfl, Or.inr hsh, hbk, hfl⟩
        | null => simp [layoutDocOk] at h
        | bool b => simp [layoutDocOk] at h
        | num n2 => simp [layoutDocOk] at h
        | str s => simp [layoutDocOk] at h
        | arr xs => simp [layoutDocOk] at h
    | null => exact actSafe_same _ _ _ rfl
    | bool b => exact actSafe_same _ _ _ rfl
    | num n2 => exact actSafe_same _ _ _ rfl
    | arr xs => exact actSafe_same _ _ _ rfl
    | obj kv2 => exact actSafe_same _ _ _ rfl

theorem findIdxA_found {p : JVal → Bool} :
    ∀ (i : Nat) (l : List JVal) (j : Nat) (t : JVal),
      findIdxA p i l = some (j, t) → p t = true ∧ t ∈ l := by
  intro i l
  induction l generalizing i with
  | nil => intro j t h; simp [findIdxA] at h
  | cons a rest ih =>
    intro j t h
    unfold findIdxA at h
    by_cases ha : p a = true
    · rw [if_pos ha] at h
      simp only [Option.some.injEq, Prod.mk.injEq] at h
      obtain ⟨_, h2⟩ := h
      subst h2
      exact ⟨ha, by simp⟩
    · rw [if_neg ha] at h
      obtain ⟨hp, hm⟩ := ih (i + 1) j t h
      exact ⟨hp, List.mem_cons_of_mem _ hm⟩

theorem tabMatches_obj {t : JVal} {name : String} (h : tabMatches t name = true) :
    ∃ tkvs, t = .obj tkvs := by
  cases t with
  | obj tkvs => exact ⟨tkvs, rfl⟩
  | null => simp [tabMatches] at h
  | bool b => simp [tabMatches] at h
  | num n => simp [tabMatches] at h
  | str s => simp [tabMatches] at h
  | arr xs => simp [tabMatches] at h

theorem actDeleteTab_safe (kvs : List (String × JVal)) {layout : JVal} (st : St)
    (h : layoutDocOk layout = true) : actSafe (actDeleteTab kvs layout st) st := by
  unfold actDeleteTab
  cases hn : lookAssoc kvs "name" with
  | none => exact actSafe_same _ _ _ rfl
  | some nv =>
    cases nv with
    | str n =>
      dsimp only
      by_cases hb : (pyStrip n).data.isEmpty = true
      · rw [if_pos hb]
        exact actSafe_same _ _ _ rfl
      · rw [if_neg hb]
        cases layout with
        | obj kvs0 =>
          obtain ⟨ts, hts, _⟩ := layoutDocOk_parts h
          simp only [bind, Except.bind, pyGetD, pyIter, pySetIndex, hts]
          dsimp only [Option.getD]
          obtain ⟨st2, hsv, hsh, hbk, hfl⟩ := saveLayoutSt_actSafe st
            (lookAssoc_setAssoc_self kvs0 "tabs"
              (.arr (ts.filter fun t => !tabMatches t (pyStrip n))))
          rw [hsv]
          exact ⟨_, st2, rfl, Or.inr hsh, hbk, hfl⟩
        | null => simp [layoutDocOk] at h
        | bool b => simp [layoutDocOk] at h
        | num n2 => simp [layoutDocOk] at h
        | str s => simp [layoutDocOk] at h
        | arr xs => simp [layoutDocOk] at h
    | null => exact actSafe_same _ _ _ rfl
    | bool b => exact actSafe_same _ _ _ rfl
    | num n2 => exact actSafe_same _ _ _ rfl
    | arr xs => exact actSafe_same _ _ _ rfl
    | obj kv2 => exact actSafe_same _ _ _ rfl

theorem actKeepOnly_safe (kvs : List (String × JVal)) {layout : JVal} (st : St)
    (h : layoutDocOk layout = true) : actSafe (actKeepOnly kvs layout st) st := by
  unfold actKeepOnly
  cases hn : lookAssoc kvs "name" with
  | none => exact actSafe_same _ _ _ rfl
  | some nv =>
    cases nv with
    | str n =>
      dsimp only
      by_cases hb : (pyStrip n).data.isEmpty = true
      · rw [if_pos hb]
        exact actSafe_same _ _ _ rfl
      · rw [if_neg hb]
        cases layout with
        | obj kvs0 =>
          obtain ⟨ts, hts, _⟩ := layoutDocOk_parts h
          rw [findTabIdx_arr hts]
          simp only [bind, Except.bind]
          cases hfi : findIdxA (fun t => tabMatches t (pyStrip n)) 0 ts with
          | none => exact actSafe_same _ _ _ rfl
          | some it =>
            obtain ⟨i, t⟩ := it
            dsimp only
            rw [show pySetIndex (.obj kvs0) "tabs" (.arr [t]) =
                .ok (.obj (setAssoc kvs0 "tabs" (.arr [t]))) from rfl]
            dsimp only
            obtain ⟨st2, hsv, hsh, hbk, hfl⟩ := saveLayoutSt_actSafe st
              (lookAssoc_setAssoc_self kvs0 "tabs" (.arr [t]))
            rw [hsv]
            exact ⟨_, st2, rfl, Or.inr hsh, hbk, hfl⟩
        | null => simp [layoutDocOk] at h
        | bool b => simp [layoutDocOk] at h
        | num n2 => simp [layoutDocOk] at h
        | str s => simp [layoutDocOk] at h
        | arr xs => simp [layoutDocOk] at h
    | null => exact actSafe_same _ _ _ rfl
    | bool b => exact actSafe_same _ _ _ rfl
    | num n2 => exact actSafe_same _ _ _ rfl
    | arr xs => exact actSafe_same _ _ _ rfl
    | obj kv2 => exact actSafe_same _ _ _ rfl

theorem actClearPanels_safe (kvs : List (String × JVal)) {layout : JVal} (st : St)
    (h : layoutDocOk layout = true) : actSafe (actClearPanels kvs layout st) st := by
  unfold actClearPanels
  cases hn : lookAssoc kvs "tab_name" with
  | none => exact actSafe_same _ _ _ rfl
  | some nv =>
    cases nv with
    | str n =>
      dsimp only
      by_cases hb : (pyStrip n).data.isEmpty = true
      · rw [if_pos hb]
        exact actSafe_same _ _ _ rfl
      · rw [if_neg hb]
        cases layout with
        | obj kvs0 =>
          obtain ⟨ts, hts, _⟩ := layoutDocOk_parts h
          rw [findTabIdx_arr hts]
          simp only [bind, Except.bind]
          cases hfi : findIdxA (fun t => tabMatches t (pyStrip n)) 0 ts with
          | none => exact actSafe_same _ _ _ rfl
          | some it =>
            obtain ⟨i, t⟩ := it
            obtain ⟨hmt, _⟩ := findIdxA_found 0 ts i t hfi
            obtain ⟨tkvs, ht⟩ := tabMatches_obj hmt
            subst ht
            dsimp only
            rw [show pySetIndex (.obj kvs0) "tabs"
                (.arr (ts.set i (.obj (setAssoc tkvs "panels" (.arr []))))) =
                .ok (.obj (setAssoc kvs0 "tabs"
                  (.arr (ts.set i (.obj (setAssoc tkvs "panels" (.arr []))))))) from rfl]
            dsimp only
            obtain ⟨st2, hsv, hsh, hbk, hfl⟩ := saveLayoutSt_actSafe st
              (lookAssoc_setAssoc_self kvs0 "tabs"
                (.arr (ts.set i (.obj (setAssoc tkvs "panels" (.arr []))))))
            rw [hsv]
            exact ⟨_, st2, rfl, Or.inr hsh, hbk, hfl⟩
        | null => simp [layoutDocOk] at h
        | bool b => simp [layoutDocOk] at h
        | num n2 => simp [layoutDocOk] at h
        | str s => simp [layoutDocOk] at h
        | arr xs => simp [layoutDocOk] at h
    | null => exact actSafe_same _ _ _ rfl
    | bool b => exact actSafe_same _ _ _ rfl
    | num n2 => exact actSafe_same _ _ _ rfl
    | arr xs => exact actSafe_same _ _ _ rfl
    | obj kv2 => exact actSafe_same _ _ _ rfl

theorem actAddPanel_safe (kvs : List (String × JVal)) (columns : List String)
    {layout : JVal} (st : St) (h : layoutDocOk layout = true) :
    actSafe (actAddPanel kvs columns layout st) st := by
  unfold actAddPanel
  cases hn : lookAssoc kvs "tab_name" with
  | none => exact actSafe_same _ _ _ rfl
  | some nv =>
    cases nv with
    | str tn =>
      dsimp only
      by_cases hb : (pyStrip tn).data.isEmpty = true
      · rw [if_pos hb]
        exact actSafe_same _ _ _ rfl
      · rw [if_neg hb]
        cases hpv : lookAssoc kvs "panel" with
        | none => exact actSafe_same _ _ _ rfl
        | some pv =>
          cases pv with
          | obj pkvs =>
            dsimp only
            cases layout with
            | obj kvs0 =>
              obtain ⟨ts, hts, hpan⟩ := layoutDocOk_parts h
              rw [findTabIdx_arr hts]
              simp only [bind, Except.bind]
              cases hfi : findIdxA (fun t => tabMatches t (pyStrip tn)) 0 ts with
              | some it =>
                obtain ⟨i, t⟩ := it
                obtain ⟨hmt, hmem⟩ := findIdxA_found 0 ts i t hfi
                obtain ⟨tkvs, ht⟩ := tabMatches_obj hmt
                subst ht
                have hpok : tabPanelsOk (.obj tkvs) = true := by
                  rw [List.all_eq_true] at hpan
                  exact hpan _ hmem
                dsimp only
                cases htp : lookAssoc pkvs "type" with
                | none => exact actSafe_same _ _ _ rfl
                | some tv =>
                  cases tv with
                  | str pt =>
                    dsimp only
                    by_cases hptb : (pyStrip pt).data.isEmpty = true
                    · rw [if_pos hptb]
                      exact actSafe_same _ _ _ rfl
                    · rw [if_neg hptb]
                      cases hbad : firstBadSingle columns singleColKeys
                          (setAssoc pkvs "type" (.str (pyStrip pt))) with
                      | some bad =>
                        obtain ⟨bk, bc⟩ := bad
                        exact actSafe_same _ _ _ rfl
                      | none =>
                        dsimp only
                        by_cases hm : (badMulti (setAssoc pkvs "type" (.str (pyStrip pt)))
                            "metrics" columns).isEmpty = true
                        · rw [show (!(badMulti (setAssoc pkvs "type" (.str (pyStrip pt)))
                              "metrics" columns).isEmpty) = false from by simp [hm]]
                          rw [if_neg (by decide : ¬ (false = true))]
                          by_cases hc : (badMulti (setAssoc pkvs "type" (.str (pyStrip pt)))
                              "cols" columns).isEmpty = true
                          · rw [show (!(badMulti (setAssoc pkvs "type" (.str (pyStrip pt)))
                                "cols" columns).isEmpty) = false from by simp [hc]]
                            rw [if_neg (by decide : ¬ (false = true))]
                            cases hpl : lookAssoc tkvs "panels" with
                            | none =>
                              dsimp only [pySetIndex]
                              generalize (ts.set i (JVal.obj (setAssoc tkvs "panels"
                                (JVal.arr [JVal.obj (setAssoc pkvs "type"
                                  (JVal.str (pyStrip pt)))])))) = V
                              obtain ⟨st2, hsv, hsh, hbk, hfl⟩ := saveLayoutSt_actSafe st
                                (lookAssoc_setAssoc_self kvs0 "tabs" (.arr V))
                              rw [hsv]
                              exact ⟨_, st2, rfl, Or.inr hsh, hbk, hfl⟩
                            | some plv =>
                              cases plv with
                              | arr ps =>
                                dsimp only [pySetIndex]
                                generalize (ts.set i (JVal.obj (setAssoc tkvs "panels"
                                  (JVal.arr (ps ++ [JVal.obj (setAssoc pkvs "type"
                                    (JVal.str (pyStrip pt)))]))))) = V
                                obtain ⟨st2, hsv, hsh, hbk, hfl⟩ := saveLayoutSt_actSafe st
                                  (lookAssoc_setAssoc_self kvs0 "tabs" (.arr V))
                                rw [hsv]
                                exact ⟨_, st2, rfl, Or.inr hsh, hbk, hfl⟩
                              | null => simp [tabPanelsOk, hpl] at hpok
                              | bool b2 => simp [tabPanelsOk, hpl] at hpok
                              | num n2 => simp [tabPanelsOk, hpl] at hpok
                              | str s2 => simp [tabPanelsOk, hpl] at hpok
                              | obj o2 => simp [tabPanelsOk, hpl] at hpok
                          · rw [show (!(badMulti (setAssoc pkvs "type" (.str (pyStrip pt)))
                                "cols" columns).isEmpty) = true from by simp [hc]]
                            rw [if_pos (show (true : Bool) = true from rfl)]
                            exact actSafe_same _ _ _ rfl
                        · rw [show (!(badMulti (setAssoc pkvs "type" (.str (pyStrip pt)))
                              "metrics" columns).isEmpty) = true from by simp [hm]]
                          rw [if_pos (show (true : Bool) = true from rfl)]
                          exact actSafe_same _ _ _ rfl
                  | null => exact actSafe_same _ _ _ rfl
                  | bool b2 => exact actSafe_same _ _ _ rfl
                  | num n2 => exact actSafe_same _ _ _ rfl
                  | arr xs2 => exact actSafe_same _ _ _ rfl
                  | obj o2 => exact actSafe_same _ _ _ rfl
              | none =>
                rw [show pyIndex (.obj kvs0) "tabs" = .ok (.arr ts) from by
                  simp [pyIndex, hts]]
                dsimp only
                rw [show pySetIndex (.obj kvs0) "tabs"
                    (.arr (ts ++ [JVal.obj [("name", .str (pyStrip tn)),
                      ("filters", .arr []), ("panels", .arr [])]])) =
                    .ok (.obj (setAssoc kvs0 "tabs"
                      (.arr (ts ++ [JVal.obj [("name", .str (pyStrip tn)),
                        ("filters", .arr []), ("panels", .arr [])]])))) from rfl]
                dsimp only
                cases htp : lookAssoc pkvs "type" with
                | none => exact actSafe_same _ _ _ rfl
                | some tv =>
                  cases tv with
                  | str pt =>
                    dsimp only
                    by_cases hptb : (pyStrip pt).data.isEmpty = true
                    · rw [if_pos hptb]
                      exact actSafe_same _ _ _ rfl
                    · rw [if_neg hptb]
                      cases hbad : firstBadSingle columns singleColKeys
                          (setAssoc pkvs "type" (.str (pyStrip pt))) with
                      | some bad =>
                        obtain ⟨bk, bc⟩ := bad
                        exact actSafe_same _ _ _ rfl
                      | none =>
                        dsimp only
                        by_cases hm : (badMulti (setAssoc pkvs "type" (.str (pyStrip pt)))
                            "metrics" columns).isEmpty = true
                        · rw [show (!(badMulti (setAssoc pkvs "type" (.str (pyStrip pt)))
                              "metrics" columns).isEmpty) = false from by simp [hm]]
                          rw [if_neg (by decide : ¬ (false = true))]
                          by_cases hc : (badMulti (setAssoc pkvs "type" (.str (pyStrip pt)))
                              "cols" columns).isEmpty = true
                          · rw [show (!(badMulti (setAssoc pkvs "type" (.str (pyStrip pt)))
                                "cols" columns).isEmpty) = false from by simp [hc]]
                            rw [if_neg (by decide : ¬ (false = true))]
                            rw [show lookAssoc [("name", JVal.str (pyStrip tn)),
                                ("filters", JVal.arr []), ("panels", JVal.arr [])]
                                "panels" = some (JVal.arr []) from rfl]
                            dsimp only [pySetIndex]
                            generalize ((ts ++ [JVal.obj [("name", JVal.str (pyStrip tn)),
                              ("filters", JVal.arr []), ("panels", JVal.arr [])]]).set
                              ts.length (JVal.obj (setAssoc [("name",
                                JVal.str (pyStrip tn)), ("filters", JVal.arr []),
                                ("panels", JVal.arr [])] "panels"
                                (JVal.arr ([] ++ [JVal.obj (setAssoc pkvs "type"
                                  (JVal.str (pyStrip pt)))]))))) = W
                            generalize (setAssoc kvs0 "tabs"
                              (JVal.arr (ts ++ [JVal.obj [("name",
                                JVal.str (pyStrip tn)), ("filters", JVal.arr []),
                                ("panels", JVal.arr [])]]))) = M
                            obtain ⟨st2, hsv, hsh, hbk, hfl⟩ := saveLayoutSt_actSafe st
                              (lookAssoc_setAssoc_self M "tabs" (.arr W))
                            rw [hsv]
                            exact ⟨_, st2, rfl, Or.inr hsh, hbk, hfl⟩
                          · rw [show (!(badMulti (setAssoc pkvs "type" (.str (pyStrip pt)))
                                "cols" columns).isEmpty) = true from by simp [hc]]
                            rw [if_pos (show (true : Bool) = true from rfl)]
                            exact actSafe_same _ _ _ rfl
                        · rw [show (!(badMulti (setAssoc pkvs "type" (.str (pyStrip pt)))
                              "metrics" columns).isEmpty) = true from by simp [hm]]
                          rw [if_pos (show (true : Bool) = true from rfl)]
                          exact actSafe_same _ _ _ rfl
                  | null => exact actSafe_same _ _ _ rfl
                  | bool b2 => exact actSafe_same _ _ _ rfl
                  | num n2 => exact actSafe_same _ _ _ rfl
                  | arr xs2 => exact actSafe_same _ _ _ rfl
                  | obj o2 => exact actSafe_same _ _ _ rfl
            | null => simp [layoutDocOk] at h
            | bool b => simp [layoutDocOk] at h
            | num n2 => simp [layoutDocOk] at h
            | str s => simp [layoutDocOk] at h
            | arr xs => simp [layoutDocOk] at h
          | null => exact actSafe_same _ _ _ rfl
          | bool b => exact actSafe_same _ _ _ rfl
          | num n2 => exact actSafe_same _ _ _ rfl
          | str s => exact actSafe_same _ _ _ rfl
          | arr xs => exact actSafe_same _ _ _ rfl
    | null => exact actSafe_same _ _ _ rfl
    | bool b => exact actSafe_same _ _ _ rfl
    | num n2 => exact actSafe_same _ _ _ rfl
    | arr xs => exact actSafe_same _ _ _ rfl
    | obj kv2 => exact actSafe_same _ _ _ rfl

theorem layoutDispatch_safe (kvs : List (String × JVal)) (cols : List String)
    (a : String) {layout : JVal} (st1 : St) (h : layoutDocOk layout = true) :
    actSafe (layoutDispatch kvs cols a layout st1) st1 := by
  unfold layoutDispatch
  by_cases h1 : a = "add_tab"
  · rw [if_pos h1]
    exact actAddTab_safe kvs st1 h
  · rw [if_neg h1]
    by_cases h2 : a = "delete_tab"
    · rw [if_pos h2]
      exact actDeleteTab_safe kvs st1 h
    · rw [if_neg h2]
      by_cases h3 : a = "keep_only_tab"
      · rw [if_pos h3]
        exact actKeepOnly_safe kvs st1 h
      · rw [if_neg h3]
        by_cases h4 : a = "clear_panels"
        · rw [if_pos h4]
          exact actClearPanels_safe kvs st1 h
        · rw [if_neg h4]
          by_cases h5 : a = "add_panel"
          · rw [if_pos h5]
            exact actAddPanel_safe kvs cols st1 h
          · rw [if_neg h5]
            exact actSafe_same _ _ _ rfl

theorem string_data_isEmpty_false {a : String} (h : a ≠ "") : a.data.isEmpty = false := by
  cases hd : a.data with
  | nil =>
    exact absurd (by rw [← stringMk_data a, hd]) h
  | cons c t => rfl

/-- Spine of `apply_command` for every action outside the six specially
dispatched ones: the unconditional backup, the load, and the layout-action
dispatch. -/
theorem applyCommand_layout_eq (insp : String → Int → String → Int → JVal)
    (kvs : List (String × JVal)) (cols : List String) (ts : String) (st : St)
    (a : String) (ha : lookAssoc kvs "action" = some (.str a))
    (h1 : a ≠ "") (h2 : a ≠ "list_tabs") (h3 : a ≠ "inspect_column")
    (h4 : a ≠ "create_file") (h5 : a ≠ "patch_file") (h6 : a ≠ "rollback_layout") :
    applyCommand insp (.obj kvs) cols ts st =
      (match loadLayout (backupLayoutSt ts st).layout with
       | .error e => ⟨.error e, backupLayoutSt ts st, [.backup, .load]⟩
       | .ok layout =>
         wrapLE (layoutDispatch kvs cols a layout (backupLayoutSt ts st))
           (backupLayoutSt ts st)) := by
  unfold applyCommand
  dsimp only
  rw [ha]
  dsimp only
  rw [string_data_isEmpty_false h1]
  rw [if_neg (by decide : ¬ (false = true)), if_neg h2, if_neg h3, if_neg h4,
    if_neg h5, if_neg h6]

theorem applyCommand_create_ok (insp : String → Int → String → Int → JVal)
    (kvs : List (String × JVal)) (cols : List String) (ts : String) (st : St)
    (ha : lookAssoc kvs "action" = some (.str "create_file")) :
    ∃ r, (applyCommand insp (.obj kvs) cols ts st).res = .ok r := by
  unfold applyCommand
  dsimp only
  rw [ha]
  dsimp only
  rw [if_neg (by decide : ¬ (("create_file" : String).data.isEmpty = true)),
    if_neg (by decide : ¬ (("create_file" : String) = "list_tabs")),
    if_neg (by decide : ¬ (("create_file" : String) = "inspect_column")),
    if_pos rfl]
  cases hrp : (lookAssoc kvs "relative_path").getD .null with
  | str rp =>
    dsimp only
    cases hct : (lookAssoc kvs "content").getD (.str "") with
    | str content =>
      dsimp only
      cases hw : writeFileOp rp content
          (jvalEqStr ((lookAssoc kvs "mode").getD (.str "write")) "append") st with
      | ok p2 =>
        obtain ⟨p, st2⟩ := p2
        exact ⟨_, rfl⟩
      | error e => exact ⟨_, rfl⟩
    | null => exact ⟨_, rfl⟩
    | bool b => exact ⟨_, rfl⟩
    | num n => exact ⟨_, rfl⟩
    | arr xs => exact ⟨_, rfl⟩
    | obj o => exact ⟨_, rfl⟩
  | null => exact ⟨_, rfl⟩
  | bool b => exact ⟨_, rfl⟩
  | num n => exact ⟨_, rfl⟩
  | arr xs => exact ⟨_, rfl⟩
  | obj o => exact ⟨_, rfl⟩

theorem applyCommand_patch_ok (insp : String → Int → String → Int → JVal)
    (kvs : List (String × JVal)) (cols : List String) (ts : String) (st : St)
    (ha : lookAssoc kvs "action" = some (.str "patch_file")) :
    ∃ r, (applyCommand insp (.obj kvs) cols ts st).res = .ok r := by
  unfold applyCommand
  dsimp only
  rw [ha]
  dsimp only
  rw [if_neg (by decide : ¬ (("patch_file" : String).data.isEmpty = true)),
    if_neg (by decide : ¬ (("patch_file" : String) = "list_tabs")),
    if_neg (by decide : ¬ (("patch_file" : String) = "inspect_column")),
    if_neg (by decide : ¬ (("patch_file" : String) = "create_file")),
    if_pos rfl]
  cases hrp : (lookAssoc kvs "relative_path").getD .null with
  | str rp =>
    cases hpt : (lookAssoc kvs "pattern").getD .null with
    | str pat =>
      cases hrep : (lookAssoc kvs "replacement").getD (.str "") with
      | str rep =>
        dsimp only
        cases hw : patchFileOp rp pat rep st with
        | ok p2 =>
          obtain ⟨p, st2⟩ := p2
          exact ⟨_, rfl⟩
        | error e => exact ⟨_, rfl⟩
      | null => exact ⟨_, rfl⟩
      | bool b => exact ⟨_, rfl⟩
      | num n => exact ⟨_, rfl⟩
      | arr xs => exact ⟨_, rfl⟩
      | obj o => exact ⟨_, rfl⟩
    | null => exact ⟨_, rfl⟩
    | bool b => exact ⟨_, rfl⟩
    | num n => exact ⟨_, rfl⟩
    | arr xs => exact ⟨_, rfl⟩
    | obj o => exact ⟨_, rfl⟩
  | null => exact ⟨_, rfl⟩
  | bool b => exact ⟨_, rfl⟩
  | num n => exact ⟨_, rfl⟩
  | arr xs => exact ⟨_, rfl⟩
  | obj o => exact ⟨_, rfl⟩

theorem applyCommand_rollback_ok (insp : String → Int → String → Int → JVal)
    (kvs : List (String × JVal)) (cols : List String) (ts : String) (st : St)
    (ha : lookAssoc kvs "action" = some (.str "rollback_layout")) :
    ∃ r, (applyCommand insp (.obj kvs) cols ts st).res = .ok r := by
  unfold applyCommand
  dsimp only
  rw [ha]
  dsimp only
  rw [if_neg (by decide : ¬ (("rollback_layout" : String).data.isEmpty = true)),
    if_neg (by decide : ¬ (("rollback_layout" : String) = "list_tabs")),
    if_neg (by decide : ¬ (("rollback_layout" : String) = "inspect_column")),
    if_neg (by decide : ¬ (("rollback_layout" : String) = "create_file")),
    if_neg (by decide : ¬ (("rollback_layout" : String) = "patch_file")),
    if_pos rfl]
  exact ⟨_, rfl⟩

theorem applyCommand_list_tabs_ok (insp : String → Int → String → Int → JVal)
    (kvs : List (String × JVal)) (cols : List String) (ts : String) (st : St)
    (ha : lookAssoc kvs "action" = some (.str "list_tabs"))
    (hst : layoutStateOk st.layout = true) :
    ∃ r, (applyCommand insp (.obj kvs) cols ts st).res = .ok r := by
  unfold applyCommand
  dsimp only
  rw [ha]
  dsimp only
  rw [if_neg (by decide : ¬ (("list_tabs" : String).data.isEmpty = true)),
    if_pos rfl]
  cases hl : st.layout with
  | none =>
    rw [show loadLayout none = .ok defaultLayoutDoc from rfl]
    exact ⟨_, rfl⟩
  | some c =>
    cases c with
    | malformed =>
      rw [hl] at hst
      simp [layoutStateOk] at hst
    | json j =>
      rw [hl] at hst
      cases j with
      | obj kvs0 =>
        obtain ⟨ts2, hts, _⟩ := layoutDocOk_parts (by simpa [layoutStateOk] using hst)
        rw [show loadLayout (some (.json (.obj kvs0))) = .ok (.obj kvs0) from rfl]
        simp only [bind, Except.bind, listTabsNames, pyGetD, pyIter, hts]
        dsimp only [Option.getD]
        exact ⟨_, rfl⟩
      | null => simp [layoutStateOk, layoutDocOk] at hst
      | bool b => simp [layoutStateOk, layoutDocOk] at hst
      | num n => simp [layoutStateOk, layoutDocOk] at hst
      | str s => simp [layoutStateOk, layoutDocOk] at hst
      | arr xs => simp [layoutStateOk, layoutDocOk] at hst

/-- Number of tabs carrying the given name. -/
def countTabs (ts : List JVal) (name : String) : Nat :=
  (ts.filter fun t => tabMatches t name).length

theorem findIdxA_none {p : JVal → Bool} :
    ∀ (i : Nat) (l : List JVal), findIdxA p i l = none → ∀ t ∈ l, p t = false := by
  intro i l
  induction l generalizing i with
  | nil => intro _ t ht; simp at ht
  | cons a rest ih =>
    intro h t ht
    unfold findIdxA at h
    by_cases ha : p a = true
    · rw [if_pos ha] at h
      simp at h
    · rw [if_neg ha] at h
      rcases List.mem_cons.mp ht with h1 | h2
      · subst h1
        simpa using ha
      · exact ih (i + 1) h t h2

theorem findIdxA_some_of_mem {p : JVal → Bool} {l : List JVal} {t : JVal}
    (ht : t ∈ l) (hp : p t = true) : ∀ i, findIdxA p i l ≠ none := by
  intro i h
  have := findIdxA_none i l h t ht
  rw [hp] at this
  exact Bool.true_eq_false.mp this

theorem countTabs_zero_iff (ts : List JVal) (name : String) :
    countTabs ts name = 0 ↔ ∀ t ∈ ts, tabMatches t name = false := by
  unfold countTabs
  rw [List.length_eq_zero, List.filter_eq_nil_iff]
  constructor
  · intro h t ht
    simpa using h t ht
  · intro h t ht
    simpa using h t ht

theorem tabShapeOk_parts {t : JVal} (h : tabShapeOk t = true) :
    ∃ tkvs s fl pl, t = .obj tkvs ∧
      lookAssoc tkvs "name" = some (.str s) ∧ (s != "") = true ∧ pyStrip s = s ∧
      lookAssoc tkvs "filters" = some (.arr fl) ∧
      lookAssoc tkvs "panels" = some (.arr pl) := by
  cases t with
  | obj tkvs =>
    unfold tabShapeOk at h
    dsimp only at h
    cases hn : lookAssoc tkvs "name" with
    | none => rw [hn] at h; simp at h
    | some nv =>
      rw [hn] at h
      cases nv with
      | str s =>
        cases hf : lookAssoc tkvs "filters" with
        | none => rw [hf] at h; simp at h
        | some fv =>
          rw [hf] at h
          cases fv with
          | arr fl =>
            cases hp : lookAssoc tkvs "panels" with
            | none => rw [hp] at h; simp at h
            | some pv =>
              rw [hp] at h
              cases pv with
              | arr pl =>
                simp only [Bool.and_eq_true, beq_iff_eq] at h
                exact ⟨tkvs, s, fl, pl, rfl, hn, by tauto, by tauto, hf, hp⟩
              | null => simp at h
              | bool b => simp at h
              | num n => simp at h
              | str s2 => simp at h
              | obj o => simp at h
          | null => simp at h
          | bool b => simp at h
          | num n => simp at h
          | str s2 => simp at h
          | obj o => simp at h
      | null => simp at h
      | bool b => simp at h
      | num n => simp at h
      | arr xs => simp at h
      | obj o => simp at h
  | null => simp [tabShapeOk] at h
  | bool b => simp [tabShapeOk] at h
  | num n => simp [tabShapeOk] at h
  | str s => simp [tabShapeOk] at h
  | arr xs => simp [tabShapeOk] at h

theorem validateTab_shaped {t : JVal} (h : tabShapeOk t = true) :
    ∃ t2, validateTab t = some t2 ∧ tabShapeOk t2 = true ∧
      ∀ nm, tabMatches t2 nm = tabMatches t nm := by
  obtain ⟨tkvs, s, fl, pl, ht, hn, hne, hstr, hf, hp⟩ := tabShapeOk_parts h
  subst ht
  have hnemp : (pyStrip s).data.isEmpty = false := by
    rw [hstr]
    exact string_data_isEmpty_false (bne_iff_ne.mp hne)
  refine ⟨.obj [("name", .str (pyStrip s)), ("filters", .arr fl), ("panels", .arr pl)],
    ?_, ?_, ?_⟩
  · unfold validateTab
    dsimp only
    rw [hn]
    dsimp only
    rw [hnemp]
    rw [if_neg (by decide : ¬ (false = true))]
    rw [hf, hp]
    rfl
  · unfold tabShapeOk
    dsimp only
    rw [show lookAssoc [("name", JVal.str (pyStrip s)), ("filters", JVal.arr fl),
        ("panels", JVal.arr pl)] "name" = some (JVal.str (pyStrip s)) from rfl]
    rw [show lookAssoc [("name", JVal.str (pyStrip s)), ("filters", JVal.arr fl),
        ("panels", JVal.arr pl)] "filters" = some (JVal.arr fl) from rfl]
    rw [show lookAssoc [("name", JVal.str (pyStrip s)), ("filters", JVal.arr fl),
        ("panels", JVal.arr pl)] "panels" = some (JVal.arr pl) from rfl]
    dsimp only
    rw [hstr]
    simp [hne, hstr]
  · intro nm
    unfold tabMatches
    dsimp only
    rw [hn]
    rw [show lookAssoc [("name", JVal.str (pyStrip s)), ("filters", JVal.arr fl),
        ("panels", JVal.arr pl)] "name" = some (JVal.str (pyStrip s)) from rfl]
    dsimp only
    rw [hstr]

theorem countTabs_filterMap_validate {ts : List JVal} (h : ts.all tabShapeOk = true)
    (nm : String) :
    countTabs (ts.filterMap validateTab) nm = countTabs ts nm ∧
    (ts.filterMap validateTab).all tabShapeOk = true := by
  induction ts with
  | nil => exact ⟨rfl, rfl⟩
  | cons t rest ih =>
    simp only [List.all_cons, Bool.and_eq_true] at h
    obtain ⟨ht, hrest⟩ := h
    obtain ⟨ihc, iha⟩ := ih hrest
    obtain ⟨t2, hv, hsh2, hm⟩ := validateTab_shaped ht
    rw [show (t :: rest).filterMap validateTab = t2 :: rest.filterMap validateTab from by
      simp [List.filterMap_cons, hv]]
    constructor
    · unfold countTabs
      rw [List.filter_cons, List.filter_cons, hm nm]
      cases hmt : tabMatches t nm with
      | true =>
        simp only [if_true]
        unfold countTabs at ihc
        simp [ihc]
      | false =>
        simp only [Bool.false_eq_true, if_false]
        exact ihc
    · simp [List.all_cons, hsh2, iha]

/-- A submitted panel that carries a rejectable column reference: a non-empty
unknown string in a single-column field, or an unknown string entry in
`metrics` or `cols`. -/
def panelBad (pkvs : List (String × JVal)) (cols : List String) : Prop :=
  (∃ k, k ∈ singleColKeys ∧ ∃ c, lookAssoc pkvs k = some (.str c) ∧
    (c != "" && !cols.contains c) = true) ∨
  (∃ ms c, lookAssoc pkvs "metrics" = some (.arr ms) ∧ JVal.str c ∈ ms ∧
    cols.contains c = false) ∨
  (∃ ms c, lookAssoc pkvs "cols" = some (.arr ms) ∧ JVal.str c ∈ ms ∧
    cols.contains c = false)

theorem firstBadSingle_some {cols : List String} {pkvs : List (String × JVal)} :
    ∀ keys : List String,
    (∃ k, k ∈ keys ∧ ∃ c, lookAssoc pkvs k = some (.str c) ∧
      (c != "" && !cols.contains c) = true) →
    firstBadSingle cols keys pkvs ≠ none := by
  intro keys
  induction keys with
  | nil =>
    rintro ⟨k, hk, _⟩ _
    simp at hk
  | cons k0 ks ih =>
    rintro ⟨k, hk, c, hc, hcb⟩ hnone
    unfold firstBadSingle at hnone
    rcases List.mem_cons.mp hk with he | hm
    · subst he
      rw [hc] at hnone
      dsimp only at hnone
      rw [hcb] at hnone
      rw [if_pos (show (true : Bool) = true from rfl)] at hnone
      simp at hnone
    · cases hl : lookAssoc pkvs k0 with
      | none =>
        rw [hl] at hnone
        exact ih ⟨k, hm, c, hc, hcb⟩ hnone
      | some v =>
        rw [hl] at hnone
        cases v with
        | str c0 =>
          dsimp only at hnone
          by_cases hcond : (c0 != "" && !cols.contains c0) = true
          · rw [if_pos hcond] at hnone
            simp at hnone
          · rw [if_neg hcond] at hnone
            exact ih ⟨k, hm, c, hc, hcb⟩ hnone
        | null => exact ih ⟨k, hm, c, hc, hcb⟩ hnone
        | bool b => exact ih ⟨k, hm, c, hc, hcb⟩ hnone
        | num n => exact ih ⟨k, hm, c, hc, hcb⟩ hnone
        | arr xs => exact ih ⟨k, hm, c, hc, hcb⟩ hnone
        | obj o => exact ih ⟨k, hm, c, hc, hcb⟩ hnone

theorem badMulti_isEmpty_false {pkvs : List (String × JVal)} {key : String}
    {cols : List String} {ms : List JVal} {c : String}
    (hms : lookAssoc pkvs key = some (.arr ms)) (hmem : JVal.str c ∈ ms)
    (hnc : cols.contains c = false) : (badMulti pkvs key cols).isEmpty = false := by
  have hcm : c ∈ badMulti pkvs key cols := by
    unfold badMulti
    rw [hms]
    dsimp only
    apply List.mem_filterMap.mpr
    refine ⟨.str c, hmem, ?_⟩
    dsimp only
    rw [hnc]
    rfl
  cases hb : badMulti pkvs key cols with
  | nil =>
    rw [hb] at hcm
    simp at hcm
  | cons x xs => rfl

theorem mem_singleColKeys_ne_type {k : String} (hk : k ∈ singleColKeys) :
    k ≠ "type" := by
  intro he
  subst he
  revert hk
  decide

theorem actAddPanel_bad (kvs : List (String × JVal)) {pkvs : List (String × JVal)}
    (columns : List String) {layout : JVal} (st : St)
    (h : layoutDocOk layout = true)
    (hpv : lookAssoc kvs "panel" = some (.obj pkvs))
    (hbad : panelBad pkvs columns) :
    ∃ msg, actAddPanel kvs columns layout st = .ok (failRes msg, st) := by
  unfold actAddPanel
  cases hn : lookAssoc kvs "tab_name" with
  | none => exact ⟨_, rfl⟩
  | some nv =>
    cases nv with
    | str tn =>
      dsimp only
      by_cases hb : (pyStrip tn).data.isEmpty = true
      · rw [if_pos hb]
        exact ⟨_, rfl⟩
      · rw [if_neg hb]
        rw [hpv]
        dsimp only
        cases layout with
        | obj kvs0 =>
          obtain ⟨ts, hts, hpan⟩ := layoutDocOk_parts h
          rw [findTabIdx_arr hts]
          simp only [bind, Except.bind]
          cases hfi : findIdxA (fun t => tabMatches t (pyStrip tn)) 0 ts with
          | some it =>
            obtain ⟨i, t⟩ := it
            dsimp only
            cases htp : lookAssoc pkvs "type" with
            | none => exact ⟨_, rfl⟩
            | some tv =>
              cases tv with
              | str pt =>
                dsimp only
                by_cases hptb : (pyStrip pt).data.isEmpty = true
                · rw [if_pos hptb]
                  exact ⟨_, rfl⟩
                · rw [if_neg hptb]
                  cases hbad0 : firstBadSingle columns singleColKeys
                      (setAssoc pkvs "type" (.str (pyStrip pt))) with
                  | some bad =>
                    obtain ⟨bk, bc⟩ := bad
                    exact ⟨_, rfl⟩
                  | none =>
                    dsimp only
                    by_cases hm : (badMulti (setAssoc pkvs "type" (.str (pyStrip pt)))
                        "metrics" columns).isEmpty = true
                    · rw [show (!(badMulti (setAssoc pkvs "type" (.str (pyStrip pt)))
                          "metrics" columns).isEmpty) = false from by simp [hm]]
                      rw [if_neg (by decide : ¬ (false = true))]
                      by_cases hc : (badMulti (setAssoc pkvs "type" (.str (pyStrip pt)))
                          "cols" columns).isEmpty = true
                      · exfalso
                        rcases hbad with ⟨k, hk, c, hc0, hcb⟩ |
                            ⟨ms, c, hm0, hmem, hnc⟩ | ⟨ms, c, hm0, hmem, hnc⟩
                        · exact firstBadSingle_some singleColKeys
                            ⟨k, hk, c, by
                              rw [lookAssoc_setAssoc_ne pkvs
                                (mem_singleColKeys_ne_type hk) _]
                              exact hc0, hcb⟩ hbad0
                        · have hfa := badMulti_isEmpty_false
                            (show lookAssoc (setAssoc pkvs "type"
                                (.str (pyStrip pt))) "metrics" = some (.arr ms) from by
                              rw [lookAssoc_setAssoc_ne pkvs (by decide) _]
                              exact hm0) hmem hnc
                          rw [hfa] at hm
                          exact absurd hm (by decide)
                        · have hfa := badMulti_isEmpty_false
                            (show lookAssoc (setAssoc pkvs "type"
                                (.str (pyStrip pt))) "cols" = some (.arr ms) from by
                              rw [lookAssoc_setAssoc_ne pkvs (by decide) _]
                              exact hm0) hmem hnc
                          rw [hfa] at hc
                          exact absurd hc (by decide)
                      · rw [show (!(badMulti (setAssoc pkvs "type" (.str (pyStrip pt)))
                            "cols" columns).isEmpty) = true from by simp [hc]]
                        rw [if_pos (show (true : Bool) = true from rfl)]
                        exact ⟨_, rfl⟩
                    · rw [show (!(badMulti (setAssoc pkvs "type" (.str (pyStrip pt)))
                          "metrics" columns).isEmpty) = true from by simp [hm]]
                      rw [if_pos (show (true : Bool) = true from rfl)]
                      exact ⟨_, rfl⟩
              | null => exact ⟨_, rfl⟩
              | bool b2 => exact ⟨_, rfl⟩
              | num n2 => exact ⟨_, rfl⟩
              | arr xs2 => exact ⟨_, rfl⟩
              | obj o2 => exact ⟨_, rfl⟩
          | none =>
            rw [show pyIndex (.obj kvs0) "tabs" = .ok (.arr ts) from by
              simp [pyIndex, hts]]
            dsimp only
            rw [show pySetIndex (.obj kvs0) "tabs"
                (.arr (ts ++ [JVal.obj [("name", .str (pyStrip tn)),
                  ("filters", .arr []), ("panels", .arr [])]])) =
                .ok (.obj (setAssoc kvs0 "tabs"
                  (.arr (ts ++ [JVal.obj [("name", .str (pyStrip tn)),
                    ("filters", .arr []), ("panels", .arr [])]])))) from rfl]
            dsimp only
            cases htp : lookAssoc pkvs "type" with
            | none => exact ⟨_, rfl⟩
            | some tv =>
              cases tv with
              | str pt =>
                dsimp only
                by_cases hptb : (pyStrip pt).data.isEmpty = true
                · rw [if_pos hptb]
                  exact ⟨_, rfl⟩
                · rw [if_neg hptb]
                  cases hbad0 : firstBadSingle columns singleColKeys
                      (setAssoc pkvs "type" (.str (pyStrip pt))) with
                  | some bad =>
                    obtain ⟨bk, bc⟩ := bad
                    exact ⟨_, rfl⟩
                  | none =>
                    dsimp only
                    by_cases hm : (badMulti (setAssoc pkvs "type" (.str (pyStrip pt)))
                        "metrics" columns).isEmpty = true
                    · rw [show (!(badMulti (setAssoc pkvs "type" (.str (pyStrip pt)))
                          "metrics" columns).isEmpty) = false from by simp [hm]]
                      rw [if_neg (by decide : ¬ (false = true))]
                      by_cases hc : (badMulti (setAssoc pkvs "type" (.str (pyStrip pt)))
                          "cols" columns).isEmpty = true
                      · exfalso
                        rcases hbad with ⟨k, hk, c, hc0, hcb⟩ |
                            ⟨ms, c, hm0, hmem, hnc⟩ | ⟨ms, c, hm0, hmem, hnc⟩
                        · exact firstBadSingle_some singleColKeys
                            ⟨k, hk, c, by
                              rw [lookAssoc_setAssoc_ne pkvs
                                (mem_singleColKeys_ne_type hk) _]
                              exact hc0, hcb⟩ hbad0
                        · have hfa := badMulti_isEmpty_false
                            (show lookAssoc (setAssoc pkvs "type"
                                (.str (pyStrip pt))) "metrics" = some (.arr ms) from by
                              rw [lookAssoc_setAssoc_ne pkvs (by decide) _]
                              exact hm0) hmem hnc
                          rw [hfa] at hm
                          exact absurd hm (by decide)
                        · have hfa := badMulti_isEmpty_false
                            (show lookAssoc (setAssoc pkvs "type"
                                (.str (pyStrip pt))) "cols" = some (.arr ms) from by
                              rw [lookAssoc_setAssoc_ne pkvs (by decide) _]
                              exact hm0) hmem hnc
                          rw [hfa] at hc
                          exact absurd hc (by decide)
                      · rw [show (!(badMulti (setAssoc pkvs "type" (.str (pyStrip pt)))
                            "cols" columns).isEmpty) = true from by simp [hc]]
                        rw [if_pos (show (true : Bool) = true from rfl)]
                        exact ⟨_, rfl⟩
                    · rw [show (!(badMulti (setAssoc pkvs "type" (.str (pyStrip pt)))
                          "metrics" columns).isEmpty) = true from by simp [hm]]
                      rw [if_pos (show (true : Bool) = true from rfl)]
                      exact ⟨_, rfl⟩
              | null => exact ⟨_, rfl⟩
              | bool b2 => exact ⟨_, rfl⟩
              | num n2 => exact ⟨_, rfl⟩
              | arr xs2 => exact ⟨_, rfl⟩
              | obj o2 => exact ⟨_, rfl⟩
        | null => simp [layoutDocOk] at h
        | bool b => simp [layoutDocOk] at h
        | num n2 => simp [layoutDocOk] at h
        | str s => simp [layoutDocOk] at h
        | arr xs => simp [layoutDocOk] at h
    | null => exact ⟨_, rfl⟩
    | bool b => exact ⟨_, rfl⟩
    | num n2 => exact ⟨_, rfl⟩
    | arr xs => exact ⟨_, rfl⟩
    | obj kv2 => exact ⟨_, rfl⟩

/-- The stripped, slash-normalized form of a submitted relative path. -/
def relNorm (rp : String) : List Char := slashNorm (pyStripChars rp.data)

/-- The rejection condition of the `create_file` write path: blank, leading
slash or tilde after normalization, a `..` segment, a disallowed extension,
or resolution outside the project root. -/
def badWritePath (rp : String) : Bool :=
  (pyStripChars rp.data).isEmpty ||
  (match relNorm rp with
   | '/' :: _ => true
   | '~' :: _ => true
   | _ => false) ||
  (splitSeg '/' (relNorm rp)).any (fun seg => seg == ['.', '.']) ||
  !(allowedExts.contains (lowerStr (extOf (String.mk (relNorm rp))))) ||
  !(underRoot (absPath (String.mk (relNorm rp))))

/-- The rejection condition of the `patch_file` path (no extension clause:
the source performs no extension check when patching). -/
def badPatchPath (rp : String) : Bool :=
  (pyStripChars rp.data).isEmpty ||
  (match relNorm rp with
   | '/' :: _ => true
   | '~' :: _ => true
   | _ => false) ||
  (splitSeg '/' (relNorm rp)).any (fun seg => seg == ['.', '.']) ||
  !(underRoot (absPath (String.mk (relNorm rp))))

theorem safeRelpath_ok_parts {rp p : String} (h : safeRelpath rp = .ok p) :
    p = String.mk (relNorm rp) ∧
    (pyStripChars rp.data).isEmpty = false ∧
    (match relNorm rp with
     | '/' :: _ => true
     | '~' :: _ => true
     | _ => false) = false ∧
    (splitSeg '/' (relNorm rp)).any (fun seg => seg == ['.', '.']) = false := by
  unfold safeRelpath at h
  by_cases h1 : (pyStripChars rp.data).isEmpty = true
  · rw [if_pos h1] at h
    simp at h
  · rw [if_neg h1] at h
    by_cases h2 : (match slashNorm (pyStripChars rp.data) with
        | '/' :: _ => true
        | '~' :: _ => true
        | _ => false) = true
    · rw [if_pos h2] at h
      simp at h
    · rw [if_neg h2] at h
      by_cases h3 : (splitSeg '/' (slashNorm (pyStripChars rp.data))).any
          (fun seg => seg == ['.', '.']) = true
      · rw [if_pos h3] at h
        simp at h
      · rw [if_neg h3] at h
        simp only [Except.ok.injEq] at h
        exact ⟨h.symm, Bool.eq_false_iff.mpr h1,
          Bool.eq_false_iff.mpr h2, Bool.eq_false_iff.mpr h3⟩

theorem writeFileOp_bad {rp : String} (hbad : badWritePath rp = true)
    (content : String) (append : Bool) (st : St) :
    ∃ e, writeFileOp rp content append st = .error e := by
  unfold writeFileOp
  simp only [bind, Except.bind]
  cases hsr : safeRelpath rp with
  | error e => exact ⟨e, rfl⟩
  | ok p =>
    obtain ⟨hp, h1, h2, h3⟩ := safeRelpath_ok_parts hsr
    subst hp
    dsimp only
    simp only [badWritePath, Bool.or_eq_true, Bool.not_eq_eq_eq_not, Bool.not_true] at hbad
    rcases hbad with ((((hb | hb) | hb) | hb) | hb)
    · rw [hb] at h1
      exact absurd h1 (by decide)
    · rw [hb] at h2
      exact absurd h2 (by decide)
    · rw [hb] at h3
      exact absurd h3 (by decide)
    · rw [if_pos (by
        rw [hb]
        exact fun hfalse => absurd hfalse (by decide))]
      exact ⟨_, rfl⟩
    · by_cases hext : allowedExts.contains
          (lowerStr (extOf (String.mk (relNorm rp)))) = true
      · rw [if_neg (by rw [hext]; exact fun hne => hne rfl)]
        rw [if_pos (by
          rw [hb]
          exact fun hfalse => absurd hfalse (by decide))]
        exact ⟨_, rfl⟩
      · rw [if_pos (by
          rw [Bool.eq_false_iff.mpr hext]
          exact fun hfalse => absurd hfalse (by decide))]
        exact ⟨_, rfl⟩

theorem patchFileOp_bad {rp : String} (hbad : badPatchPath rp = true)
    (pat rep : String) (st : St) :
    ∃ e, patchFileOp rp pat rep st = .error e := by
  unfold patchFileOp
  simp only [bind, Except.bind]
  cases hsr : safeRelpath rp with
  | error e => exact ⟨e, rfl⟩
  | ok p =>
    obtain ⟨hp, h1, h2, h3⟩ := safeRelpath_ok_parts hsr
    subst hp
    dsimp only
    simp only [badPatchPath, Bool.or_eq_true, Bool.not_eq_eq_eq_not, Bool.not_true] at hbad
    rcases hbad with (((hb | hb) | hb) | hb)
    · rw [hb] at h1
      exact absurd h1 (by decide)
    · rw [hb] at h2
      exact absurd h2 (by decide)
    · rw [hb] at h3
      exact absurd h3 (by decide)
    · rw [if_pos (by
        rw [hb]
        exact fun hfalse => absurd hfalse (by decide))]
      exact ⟨_, rfl⟩

theorem patchFileOp_notfound {rp : String} {p : String}
    (hsr : safeRelpath rp = .ok p)
    (hroot : underRoot (absPath p) = true) {st : St}
    (hnf : lookAssoc st.files (absPath p) = none) (pat rep : String) :
    patchFileOp rp pat rep st = .error ("File not found: " ++ p) := by
  unfold patchFileOp
  simp only [bind, Except.bind]
  rw [hsr]
  dsimp only
  rw [if_neg (by rw [hroot]; exact fun hne => hne rfl)]
  rw [hnf]

theorem validateLayout_tabs_eq {kvs0 : List (String × JVal)} {items : List JVal}
    (hts : lookAssoc kvs0 "tabs" = some (.arr items)) :
    ∃ kvs2, validateLayout (.obj kvs0) = .ok (.obj kvs2) ∧
      lookAssoc kvs2 "tabs" = some (.arr
        (if (items.filterMap validateTab).isEmpty then [overviewTab]
         else items.filterMap validateTab)) := by
  unfold validateLayout
  simp only [bind, Except.bind, pyGetD, pySetIndex, hts, Option.getD_some, pyIter]
  refine ⟨_, rfl, ?_⟩
  rw [lookAssoc_setAssoc_ne _ (by decide) _, lookAssoc_setAssoc_self]

theorem saveLayoutSt_tabs_eq {kvs0 : List (String × JVal)} {items : List JVal} (st : St)
    (hts : lookAssoc kvs0 "tabs" = some (.arr items)) :
    ∃ kvs2, saveLayoutSt (.obj kvs0) st =
        .ok { st with layout := some (.json (.obj kvs2)) } ∧
      lookAssoc kvs2 "tabs" = some (.arr
        (if (items.filterMap validateTab).isEmpty then [overviewTab]
         else items.filterMap validateTab)) ∧
      shapeInvB (.obj kvs2) = true := by
  obtain ⟨kvs2, hv, hl⟩ := validateLayout_tabs_eq hts
  refine ⟨kvs2, ?_, hl, validate_shape hv⟩
  unfold saveLayoutSt
  simp [bind, Except.bind, hv]

theorem validateTab_fresh (m : String) (hm : m.data.isEmpty = false)
    (hms : pyStrip m = m) :
    validateTab (.obj [("name", .str m), ("filters", .arr []), ("panels", .arr [])]) =
      some (.obj [("name", .str m), ("filters", .arr []), ("panels", .arr [])]) := by
  unfold validateTab
  dsimp only
  rw [show lookAssoc [("name", JVal.str m), ("filters", JVal.arr []),
      ("panels", JVal.arr [])] "name" = some (JVal.str m) from rfl]
  dsimp only
  rw [hms, hm]
  rw [if_neg (by decide : ¬ (false = true))]
  rfl

theorem isEmpty_append_singleton {α : Type} (l : List α) (x : α) :
    (l ++ [x]).isEmpty = false := by
  cases l <;> rfl

theorem countTabs_append (A B : List JVal) (nm : String) :
    countTabs (A ++ B) nm = countTabs A nm + countTabs B nm := by
  unfold countTabs
  rw [List.filter_append, List.length_append]

theorem countTabs_pos_of_found {ts : List JVal} {nm : String} {i : Nat} {t : JVal}
    (hfi : findIdxA (fun t => tabMatches t nm) 0 ts = some (i, t)) :
    1 ≤ countTabs ts nm := by
  obtain ⟨hp, hmem⟩ := findIdxA_found 0 ts i t hfi
  unfold countTabs
  have : t ∈ ts.filter fun t => tabMatches t nm := List.mem_filter.mpr ⟨hmem, hp⟩
  exact List.length_pos.mpr (List.ne_nil_of_mem this)

theorem applyCommand_addTab_found (insp : String → Int → String → Int → JVal)
    (kvs : List (String × JVal)) {kvs0 : List (String × JVal)} (cols : List String)
    (t1 : String) (st : St) {n : String} {ts : List JVal} {it : Nat × JVal}
    (hact : lookAssoc kvs "action" = some (.str "add_tab"))
    (hn : lookAssoc kvs "name" = some (.str n))
    (hne : (pyStrip n).data.isEmpty = false)
    (hlay : st.layout = some (.json (.obj kvs0)))
    (hts : lookAssoc kvs0 "tabs" = some (.arr ts))
    (hfi : findIdxA (fun t => tabMatches t (pyStrip n)) 0 ts = some it) :
    applyCommand insp (.obj kvs) cols t1 st =
      ⟨.ok (okResW [("message", .str "Tab already exists."), ("tab", .str (pyStrip n))]),
        backupLayoutSt t1 st, [.backup, .load]⟩ := by
  rw [applyCommand_layout_eq insp kvs cols t1 st "add_tab" hact (by decide) (by decide)
    (by decide) (by decide) (by decide) (by decide)]
  rw [backupLayoutSt_layout, hlay]
  dsimp only [loadLayout]
  unfold layoutDispatch
  rw [if_pos rfl]
  unfold actAddTab
  rw [hn]
  dsimp only
  rw [hne]
  rw [if_neg (by decide : ¬ (false = true))]
  rw [findTabIdx_arr hts]
  simp only [bind, Except.bind]
  rw [hfi]
  rfl

theorem applyCommand_addTab_fresh (insp : String → Int → String → Int → JVal)
    (kvs : List (String × JVal)) {kvs0 : List (String × JVal)} (cols : List String)
    (t1 : String) (st : St) {n : String} {ts : List JVal}
    (hact : lookAssoc kvs "action" = some (.str "add_tab"))
    (hn : lookAssoc kvs "name" = some (.str n))
    (hne : (pyStrip n).data.isEmpty = false)
    (hlay : st.layout = some (.json (.obj kvs0)))
    (hts : lookAssoc kvs0 "tabs" = some (.arr ts))
    (hfi : findIdxA (fun t => tabMatches t (pyStrip n)) 0 ts = none) :
    ∃ kvs2,
      applyCommand insp (.obj kvs) cols t1 st =
        ⟨.ok (okResW [("added_tab", .str (pyStrip n))]),
          { backupLayoutSt t1 st with layout := some (.json (.obj kvs2)) },
          [.backup, .load]⟩ ∧
      lookAssoc kvs2 "tabs" = some (.arr
        (if ((ts ++ [JVal.obj [("name", .str (pyStrip n)), ("filters", .arr []),
            ("panels", .arr [])]]).filterMap validateTab).isEmpty then [overviewTab]
         else (ts ++ [JVal.obj [("name", .str (pyStrip n)), ("filters", .arr []),
            ("panels", .arr [])]]).filterMap validateTab)) ∧
      shapeInvB (.obj kvs2) = true := by
  obtain ⟨kvs2, hsv, hl, hshp⟩ := saveLayoutSt_tabs_eq (backupLayoutSt t1 st)
    (lookAssoc_setAssoc_self kvs0 "tabs" (.arr (ts ++
      [JVal.obj [("name", .str (pyStrip n)), ("filters", .arr []),
        ("panels", .arr [])]])))
  refine ⟨kvs2, ?_, hl, hshp⟩
  rw [applyCommand_layout_eq insp kvs cols t1 st "add_tab" hact (by decide) (by decide)
    (by decide) (by decide) (by decide) (by decide)]
  rw [backupLayoutSt_layout, hlay]
  dsimp only [loadLayout]
  unfold layoutDispatch
  rw [if_pos rfl]
  unfold actAddTab
  rw [hn]
  dsimp only
  rw [hne]
  rw [if_neg (by decide : ¬ (false = true))]
  rw [findTabIdx_arr hts]
  simp only [bind, Except.bind]
  rw [hfi]
  dsimp only
  rw [show pyIndex (.obj kvs0) "tabs" = .ok (.arr ts) from by simp [pyIndex, hts]]
  dsimp only [pySetIndex]
  rw [hsv]
  rfl

/-- A trivial external column inspector, used to instantiate the reducer at
concrete inputs. -/
def inspNull : String → Int → String → Int → JVal := fun _ _ _ _ => .null

/-- C1: `apply_command` never raises for malformed command shapes (a
non-object command and a missing or non-string `action` map to the
corresponding failure results), and on a well-shaped persisted layout state
every action other than `inspect_column` returns a result record; but an
internal failure of `load_layout` is NOT converted: with a malformed
persisted layout file, `list_tabs` and each of the five layout-mutating
actions propagate the JSON decode exception out of `apply_command` (the
original claim that every internal failure becomes a failure result is
refuted by the last conjunct). -/
theorem c1_apply_command_total :
    (∀ (insp : String → Int → String → Int → JVal) (cols : List String)
        (ts : String) (st : St) (v : JVal), (∀ kvs, v ≠ .obj kvs) →
      applyCommand insp v cols ts st =
        ⟨.ok (failRes "Command must be an object."), st, []⟩) ∧
    (∀ (insp : String → Int → String → Int → JVal) (cols : List String)
        (ts : String) (st : St) (kvs : List (String × JVal)),
      (lookAssoc kvs "action" = none ∨
        ∃ v, lookAssoc kvs "action" = some v ∧ ∀ s, v ≠ JVal.str s) →
      applyCommand insp (.obj kvs) cols ts st =
        ⟨.ok (failRes "Missing action."), st, []⟩) ∧
    (∀ (insp : String → Int → String → Int → JVal) (cols : List String)
        (ts : String) (st : St) (kvs : List (String × JVal)) (a : String),
      lookAssoc kvs "action" = some (.str a) → a ≠ "inspect_column" →
      layoutStateOk st.layout = true →
      ∃ r, (applyCommand insp (.obj kvs) cols ts st).res = .ok r) ∧
    (∀ (insp : String → Int → String → Int → JVal) (cols : List String)
        (ts : String) (st : St) (kvs : List (String × JVal)) (a : String),
      lookAssoc kvs "action" = some (.str a) →
      (a = "list_tabs" ∨ a = "add_tab" ∨ a = "delete_tab" ∨
        a = "keep_only_tab" ∨ a = "clear_panels" ∨ a = "add_panel") →
      st.layout = some .malformed →
      (applyCommand insp (.obj kvs) cols ts st).res =
        .error "json.decoder.JSONDecodeError") := by
  refine ⟨?_, ?_, ?_, ?_⟩
  · intro insp cols ts st v hv
    cases v with
    | obj kvs => exact absurd rfl (hv kvs)
    | null => rfl
    | bool b => rfl
    | num n => rfl
    | str s => rfl
    | arr xs => rfl
  · intro insp cols ts st kvs hact
    unfold applyCommand
    dsimp only
    rcases hact with hact | ⟨v, hact, hv⟩
    · rw [hact]
    · rw [hact]
      cases v with
      | str s => exact absurd rfl (hv s)
      | null => rfl
      | bool b => rfl
      | num n => rfl
      | arr xs => rfl
      | obj o => rfl
  · intro insp cols ts st kvs a hact hni hok
    by_cases h0 : a.data.isEmpty = true
    · unfold applyCommand
      dsimp only
      rw [hact]
      dsimp only
      rw [h0]
      rw [if_pos (show (true : Bool) = true from rfl)]
      exact ⟨_, rfl⟩
    · by_cases h1 : a = "list_tabs"
      · subst h1
        exact applyCommand_list_tabs_ok insp kvs cols ts st hact hok
      · by_cases h4 : a = "create_file"
        · subst h4
          exact applyCommand_create_ok insp kvs cols ts st hact
        · by_cases h5 : a = "patch_file"
          · subst h5
            exact applyCommand_patch_ok insp kvs cols ts st hact
          · by_cases h6 : a = "rollback_layout"
            · subst h6
              exact applyCommand_rollback_ok insp kvs cols ts st hact
            · rw [applyCommand_layout_eq insp kvs cols ts st a hact
                (fun he => h0 (by subst he; rfl)) h1 hni h4 h5 h6]
              rw [backupLayoutSt_layout]
              cases hl : st.layout with
              | none =>
                dsimp only [loadLayout]
                obtain ⟨r, st2, heq, hsh, hbk, hfl⟩ := layoutDispatch_safe kvs cols a
                  (backupLayoutSt ts st) (show layoutDocOk defaultLayoutDoc = true by decide)
                rw [heq]
                exact ⟨r, rfl⟩
              | some fj =>
                cases fj with
                | malformed =>
                  rw [hl] at hok
                  simp [layoutStateOk] at hok
                | json j =>
                  dsimp only [loadLayout]
                  have hdoc : layoutDocOk j = true := by
                    rw [hl] at hok
                    simpa [layoutStateOk] using hok
                  obtain ⟨r, st2, heq, hsh, hbk, hfl⟩ := layoutDispatch_safe kvs cols a
                    (backupLayoutSt ts st) hdoc
                  rw [heq]
                  exact ⟨r, rfl⟩
  · intro insp cols ts st kvs a hact hmem hmal
    rcases hmem with h | hmem5
    · subst h
      unfold applyCommand
      dsimp only
      rw [hact]
      dsimp only
      rw [if_neg (by decide : ¬ (("list_tabs" : String).data.isEmpty = true)),
        if_pos rfl]
      simp only [bind, Except.bind]
      rw [hmal]
      rfl
    · have h1 : a ≠ "" := by
        rcases hmem5 with h | h | h | h | h <;> subst h <;> decide
      have h2 : a ≠ "list_tabs" := by
        rcases hmem5 with h | h | h | h | h <;> subst h <;> decide
      have h3 : a ≠ "inspect_column" := by
        rcases hmem5 with h | h | h | h | h <;> subst h <;> decide
      have h4 : a ≠ "create_file" := by
        rcases hmem5 with h | h | h | h | h <;> subst h <;> decide
      have h5 : a ≠ "patch_file" := by
        rcases hmem5 with h | h | h | h | h <;> subst h <;> decide
      have h6 : a ≠ "rollback_layout" := by
        rcases hmem5 with h | h | h | h | h <;> subst h <;> decide
      rw [applyCommand_layout_eq insp kvs cols ts st a hact h1 h2 h3 h4 h5 h6]
      rw [backupLayoutSt_layout, hmal]
      rfl

/-- C1 witness: the theorem applied at concrete inputs — a numeric command
is answered with the object-shape failure record, a numeric `action` value
with the missing-action failure record, an `add_tab` command on an absent
layout file returns a result, and a `delete_tab` on a malformed layout file
propagates the decode exception. -/
theorem c1_apply_command_total_witness :
    applyCommand inspNull (.num 3) [] "t" ⟨none, [], []⟩ =
      ⟨.ok (failRes "Command must be an object."), ⟨none, [], []⟩, []⟩ ∧
    applyCommand inspNull (.obj [("action", .num 5)]) [] "t" ⟨none, [], []⟩ =
      ⟨.ok (failRes "Missing action."), ⟨none, [], []⟩, []⟩ ∧
    (∃ r, (applyCommand inspNull
      (.obj [("action", .str "add_tab"), ("name", .str "A")])
      [] "t" ⟨none, [], []⟩).res = .ok r) ∧
    (applyCommand inspNull (.obj [("action", .str "delete_tab"),
      ("name", .str "A")]) [] "t" ⟨some .malformed, [], []⟩).res =
      .error "json.decoder.JSONDecodeError" :=
  ⟨c1_apply_command_total.1 inspNull [] "t" ⟨none, [], []⟩ (.num 3)
      (fun kvs h => JVal.noConfusion h),
    c1_apply_command_total.2.1 inspNull [] "t" ⟨none, [], []⟩
      [("action", .num 5)]
      (Or.inr ⟨.num 5, rfl, fun s h => JVal.noConfusion h⟩),
    c1_apply_command_total.2.2.1 inspNull [] "t" ⟨none, [], []⟩
      [("action", .str "add_tab"), ("name", .str "A")] "add_tab" rfl
      (by decide) rfl,
    c1_apply_command_total.2.2.2 inspNull [] "t" ⟨some .malformed, [], []⟩
      [("action", .str "delete_tab"), ("name", .str "A")] "delete_tab" rfl
      (Or.inr (Or.inr (Or.inl rfl))) rfl⟩

/-- C1 counterexample: with a malformed persisted layout file, a `list_tabs`
command makes `apply_command` propagate the JSON decode exception instead of
returning a failure result — refuting the claim that every internal failure
of a recognized action is converted into a failure result. -/
theorem c1_malformed_layout_raises :
    (applyCommand inspNull (.obj [("action", .str "list_tabs")]) []
      "20260101_000000" ⟨some .malformed, [], []⟩).res =
      .error "json.decoder.JSONDecodeError" := rfl

/-- C2 (corrected): for the five layout-mutating actions (`add_tab`,
`delete_tab`, `keep_only_tab`, `clear_panels`, `add_panel`) the store-call
trace of `apply_command` is exactly a `backup_layout` invocation followed by
the `load_layout` for mutation — the snapshot precedes the load even when the
edit is a no-op or fails.  (The original claim extends this to `create_file`
and `patch_file`, which is refuted by the counterexample: those actions
return before any backup.) -/
theorem c2_backup_before_load (insp : String → Int → String → Int → JVal)
    (kvs : List (String × JVal)) (cols : List String) (ts : String) (st : St)
    (a : String) (hact : lookAssoc kvs "action" = some (.str a))
    (hmem : a = "add_tab" ∨ a = "delete_tab" ∨ a = "keep_only_tab" ∨
      a = "clear_panels" ∨ a = "add_panel") :
    (applyCommand insp (.obj kvs) cols ts st).evs = [Ev.backup, Ev.load] := by
  have h1 : a ≠ "" := by rcases hmem with h | h | h | h | h <;> subst h <;> decide
  have h2 : a ≠ "list_tabs" := by
    rcases hmem with h | h | h | h | h <;> subst h <;> decide
  have h3 : a ≠ "inspect_column" := by
    rcases hmem with h | h | h | h | h <;> subst h <;> decide
  have h4 : a ≠ "create_file" := by
    rcases hmem with h | h | h | h | h <;> subst h <;> decide
  have h5 : a ≠ "patch_file" := by
    rcases hmem with h | h | h | h | h <;> subst h <;> decide
  have h6 : a ≠ "rollback_layout" := by
    rcases hmem with h | h | h | h | h <;> subst h <;> decide
  rw [applyCommand_layout_eq insp kvs cols ts st a hact h1 h2 h3 h4 h5 h6]
  cases hld : loadLayout (backupLayoutSt ts st).layout with
  | error e => rfl
  | ok layout =>
    dsimp only
    unfold wrapLE
    cases hdp : layoutDispatch kvs cols a layout (backupLayoutSt ts st) with
    | error e => rfl
    | ok p =>
      obtain ⟨r, st2⟩ := p
      rfl

/-- C2 witness: the theorem applied to a concrete `add_tab` command on an
existing layout file. -/
theorem c2_backup_before_load_witness :
    (applyCommand inspNull (.obj [("action", .str "add_tab"), ("name", .str "A")])
      [] "20260101_000000" ⟨some (.json defaultLayoutDoc), [], []⟩).evs =
      [Ev.backup, Ev.load] :=
  c2_backup_before_load inspNull
    [("action", .str "add_tab"), ("name", .str "A")] [] "20260101_000000"
    ⟨some (.json defaultLayoutDoc), [], []⟩ "add_tab" rfl (Or.inl rfl)

/-- C2 counterexample: a `create_file` command — even with the layout file
present, so a backup would be possible — performs no store calls at all: its
trace is empty, so no `backup_layout` invocation precedes anything, refuting
the claim that `create_file` and `patch_file` are preceded by a snapshot. -/
theorem c2_create_file_no_backup :
    (applyCommand inspNull (.obj [("action", .str "create_file"),
        ("relative_path", .str "a.py"), ("content", .str "x")]) []
      "20260101_000000" ⟨some (.json defaultLayoutDoc), [], []⟩).evs = [] ∧
    Ev.backup ∉ ([] : List Ev) :=
  ⟨rfl, List.not_mem_nil Ev.backup⟩

/-- C3 (corrected): an `add_panel` command whose panel carries, in any
single-column field, a non-empty string not in the valid-column set, or, in a
multi-column field (`metrics`, `cols`), a STRING entry not in that set, is
answered with a failure result and the layout file is unchanged.  (The
original claim covers every entry of a multi-column field; the counterexample
shows a non-string entry is not validated at all.) -/
theorem c3_add_panel_unknown_column_rejected
    (insp : String → Int → String → Int → JVal)
    (kvs : List (String × JVal)) {pkvs : List (String × JVal)}
    (cols : List String) (ts : String) (st : St)
    (hact : lookAssoc kvs "action" = some (.str "add_panel"))
    (hp : lookAssoc kvs "panel" = some (.obj pkvs))
    (hok : layoutStateOk st.layout = true)
    (hbad : panelBad pkvs cols) :
    ∃ msg, (applyCommand insp (.obj kvs) cols ts st).res = .ok (failRes msg) ∧
      (applyCommand insp (.obj kvs) cols ts st).st.layout = st.layout := by
  rw [applyCommand_layout_eq insp kvs cols ts st "add_panel" hact (by decide)
    (by decide) (by decide) (by decide) (by decide) (by decide)]
  rw [backupLayoutSt_layout]
  cases hl : st.layout with
  | none =>
    dsimp only [loadLayout]
    unfold layoutDispatch
    rw [if_neg (by decide : ¬ (("add_panel" : String) = "add_tab")),
      if_neg (by decide : ¬ (("add_panel" : String) = "delete_tab")),
      if_neg (by decide : ¬ (("add_panel" : String) = "keep_only_tab")),
      if_neg (by decide : ¬ (("add_panel" : String) = "clear_panels")),
      if_pos rfl]
    obtain ⟨msg, hmsg⟩ := actAddPanel_bad kvs cols (backupLayoutSt ts st)
      (show layoutDocOk defaultLayoutDoc = true by decide) hp hbad
    rw [hmsg]
    exact ⟨msg, rfl, by dsimp only [wrapLE]; rw [backupLayoutSt_layout, hl]⟩
  | some fj =>
    cases fj with
    | malformed =>
      rw [hl] at hok
      simp [layoutStateOk] at hok
    | json j =>
      dsimp only [loadLayout]
      have hdoc : layoutDocOk j = true := by
        rw [hl] at hok
        simpa [layoutStateOk] using hok
      unfold layoutDispatch
      rw [if_neg (by decide : ¬ (("add_panel" : String) = "add_tab")),
        if_neg (by decide : ¬ (("add_panel" : String) = "delete_tab")),
        if_neg (by decide : ¬ (("add_panel" : String) = "keep_only_tab")),
        if_neg (by decide : ¬ (("add_panel" : String) = "clear_panels")),
        if_pos rfl]
      obtain ⟨msg, hmsg⟩ := actAddPanel_bad kvs cols (backupLayoutSt ts st) hdoc hp hbad
      rw [hmsg]
      exact ⟨msg, rfl, by dsimp only [wrapLE]; rw [backupLayoutSt_layout, hl]⟩

/-- C3 witness: the theorem applied to a concrete `add_panel` command whose
panel references the unknown single column `bogus`. -/
theorem c3_add_panel_unknown_column_rejected_witness :
    ∃ msg, (applyCommand inspNull (.obj [("action", .str "add_panel"),
        ("tab_name", .str "T"),
        ("panel", .obj [("type", .str "bar"), ("x", .str "bogus")])])
      ["a"] "t" ⟨some (.json defaultLayoutDoc), [], []⟩).res = .ok (failRes msg) ∧
      (applyCommand inspNull (.obj [("action", .str "add_panel"),
        ("tab_name", .str "T"),
        ("panel", .obj [("type", .str "bar"), ("x", .str "bogus")])])
      ["a"] "t" ⟨some (.json defaultLayoutDoc), [], []⟩).st.layout =
        (⟨some (.json defaultLayoutDoc), [], []⟩ : St).layout :=
  c3_add_panel_unknown_column_rejected inspNull
    [("action", .str "add_panel"), ("tab_name", .str "T"),
      ("panel", .obj [("type", .str "bar"), ("x", .str "bogus")])]
    ["a"] "t" ⟨some (.json defaultLayoutDoc), [], []⟩ rfl rfl (by decide)
    (Or.inl ⟨"x", by decide, "bogus", rfl, by decide⟩)

/-- C3 counterexample: an `add_panel` command whose `metrics` field holds the
numeric entry `42`, which is not in the (empty) valid-column set, is
nevertheless accepted: the command reports success and the panel is persisted
to the layout file — refuting the claim for non-string multi-column
entries. -/
theorem c3_numeric_metric_entry_accepted :
    (applyCommand inspNull (.obj [("action", .str "add_panel"),
        ("tab_name", .str "T"),
        ("panel", .obj [("type", .str "bar"), ("metrics", .arr [.num 42])])])
      [] "t" ⟨some (.json defaultLayoutDoc), [], []⟩).res =
      .ok (okResW [("added_panel", .str "bar"), ("tab", .str "T")]) ∧
    (applyCommand inspNull (.obj [("action", .str "add_panel"),
        ("tab_name", .str "T"),
        ("panel", .obj [("type", .str "bar"), ("metrics", .arr [.num 42])])])
      [] "t" ⟨some (.json defaultLayoutDoc), [], []⟩).st.layout =
      some (.json (.obj [("tabs", .arr [overviewTab,
        .obj [("name", .str "T"), ("filters", .arr []),
          ("panels", .arr [.obj [("type", .str "bar"),
            ("metrics", .arr [.num 42])]])]]),
        ("sidebar", .obj [])])) :=
  ⟨rfl, rfl⟩

theorem setAssoc_setAssoc {α : Type} (m : List (String × α)) (k : String) (v w : α) :
    setAssoc (setAssoc m k v) k w = setAssoc m k w := by
  induction m with
  | nil => simp [setAssoc]
  | cons kv rest ih =>
    obtain ⟨k1, v1⟩ := kv
    by_cases hk : k1 = k
    · subst hk
      simp [setAssoc]
    · simp [setAssoc, hk, ih]

/-- C4 (corrected): `load_layout` performs no normalization — an existing
persisted document is returned verbatim, so a document persisted with
`tabs: []` is loaded with its empty tab list intact; only a missing file
yields the synthesized default document (and loading writes nothing, being a
pure read of the state).  The single-default-tab normalization described by
the claim lives in `_validate`, which runs at save time: validating a
document whose `tabs` is `[]` or absent yields exactly
`tabs = [overviewTab]`. -/
theorem c4_load_verbatim_validate_normalizes :
    (∀ v : JVal, loadLayout (some (.json v)) = .ok v) ∧
    loadLayout none = .ok defaultLayoutDoc ∧
    (∀ kvs0 : List (String × JVal),
      (lookAssoc kvs0 "tabs" = some (.arr []) ∨ lookAssoc kvs0 "tabs" = none) →
      ∃ kvs2, validateLayout (.obj kvs0) = .ok (.obj kvs2) ∧
        lookAssoc kvs2 "tabs" = some (.arr [overviewTab])) := by
  refine ⟨fun v => rfl, rfl, ?_⟩
  intro kvs0 hts
  rcases hts with hts | hts
  · obtain ⟨kvs2, hv, hl⟩ := validateLayout_tabs_eq hts
    exact ⟨kvs2, hv, hl⟩
  · unfold validateLayout
    simp only [bind, Except.bind, pyGetD, pySetIndex, hts, Option.getD_none, pyIter]
    refine ⟨_, rfl, ?_⟩
    rw [lookAssoc_setAssoc_ne _ (by decide) _, lookAssoc_setAssoc_self]
    rfl

/-- C4 witness: the theorem applied to the concrete document with an empty
tab list and to a concrete verbatim load. -/
theorem c4_load_verbatim_validate_normalizes_witness :
    loadLayout (some (.json (.obj [("tabs", .arr [])]))) =
      .ok (.obj [("tabs", .arr [])]) ∧
    ∃ kvs2, validateLayout (.obj [("tabs", .arr [])]) = .ok (.obj kvs2) ∧
      lookAssoc kvs2 "tabs" = some (.arr [overviewTab]) :=
  ⟨c4_load_verbatim_validate_normalizes.1 (.obj [("tabs", .arr [])]),
    c4_load_verbatim_validate_normalizes.2.2 [("tabs", .arr [])] (Or.inl rfl)⟩

/-- C4 counterexample: loading a persisted document whose `tabs` is the empty
list returns that document verbatim — its `tabs` value is `[]`, not the
single default tab the claim promises. -/
theorem c4_load_returns_empty_tabs_verbatim :
    loadLayout (some (.json (.obj [("tabs", .arr [])]))) =
      .ok (.obj [("tabs", .arr [])]) ∧
    lookAssoc [("tabs", JVal.arr [])] "tabs" = some (.arr []) ∧
    JVal.arr [] ≠ JVal.arr [overviewTab] := by
  refine ⟨rfl, rfl, ?_⟩
  intro h
  injection h with h1
  exact List.noConfusion h1

/-- The file operations `save_layout` performs on the layout file: the
`open(path, "w")` truncation, then the write of the serialized validated
document by `json.dump`. -/
def saveLayoutOps (path : String) (v : JVal) : List FOp :=
  [.trunc path, .fwrite path (String.mk (dumpJ v))]

/-- C5 (corrected): `save_layout` does not use a temp-file-plus-rename
strategy — its operation trace holds no rename at all: it truncates the
layout file in place and then writes the new serialization into it, so a
concurrent reader can observe the intermediate truncated file (content `""`),
which is a half-written state rather than the complete old or new
document. -/
theorem c5_save_truncates_in_place (path : String) (v : JVal)
    (fs : List (String × String)) :
    ((saveLayoutOps path v).all fun op => !(isRename op)) = true ∧
    statesDuring fs (saveLayoutOps path v) =
      [fs, setAssoc fs path "", setAssoc fs path (String.mk (dumpJ v))] ∧
    lookAssoc (setAssoc fs path "") path = some "" := by
  refine ⟨rfl, ?_, lookAssoc_setAssoc_self fs path ""⟩
  unfold saveLayoutOps statesDuring
  unfold statesDuring
  unfold statesDuring
  dsimp only [runFOp]
  rw [lookAssoc_setAssoc_self]
  rw [setAssoc_setAssoc]
  rfl

/-- C5 counterexample: saving the document `null` over an existing layout
file containing `OLD` exposes, between the truncation and the write, a state
in which the layout file reads as the empty string — neither the complete old
document (`OLD`) nor the complete new one (`null`). -/
theorem c5_reader_sees_truncated_file :
    statesDuring [("layout.json", "OLD")] (saveLayoutOps "layout.json" .null) =
      [[("layout.json", "OLD")], [("layout.json", "")], [("layout.json", "null")]] ∧
    ("" : String) ≠ "OLD" ∧ ("" : String) ≠ "null" := by
  refine ⟨?_, by decide, by decide⟩
  simp [statesDuring, saveLayoutOps, runFOp, setAssoc, lookAssoc, dumpJ]

theorem string_data_append (a b : String) : (a ++ b).data = a.data ++ b.data := by
  cases a
  cases b
  rfl

theorem backupName_inj {ts1 ts2 : String} (h : backupName ts1 = backupName ts2) :
    ts1 = ts2 := by
  unfold backupName at h
  have h3 := congrArg String.data h
  rw [string_data_append, string_data_append, string_data_append,
    string_data_append] at h3
  rw [List.append_assoc, List.append_assoc] at h3
  have h4 := List.append_cancel_left h3
  have h5 := List.append_cancel_right h4
  cases ts1
  cases ts2
  exact congrArg String.mk (by simpa using h5)

/-- C6 (corrected): two `backup_layout` calls carrying DISTINCT second-
resolution timestamps never collide: the second call leaves the record
created by the first intact and adds its own, so both snapshots are
retrievable afterwards.  (The original claim extends this to two calls within
the same second; the counterexample refutes that: the backup name is built
from the second-resolution timestamp alone, and an equal name silently
overwrites the earlier backup contents.) -/
theorem c6_distinct_timestamp_backups_accumulate
    (ts1 ts2 : String) (hne : ts1 ≠ ts2) (st st1m : St) (c1 c2 : FileJson)
    (h1 : st.layout = some c1)
    (hbk : st1m.backups = (backupLayoutSt ts1 st).backups)
    (h2 : st1m.layout = some c2) :
    lookAssoc (backupLayoutSt ts2 st1m).backups (backupName ts1) = some c1 ∧
    lookAssoc (backupLayoutSt ts2 st1m).backups (backupName ts2) = some c2 := by
  have hb1 : (backupLayoutSt ts1 st).backups = setAssoc st.backups (backupName ts1) c1 := by
    unfold backupLayoutSt
    rw [h1]
  have hb2 : (backupLayoutSt ts2 st1m).backups =
      setAssoc st1m.backups (backupName ts2) c2 := by
    unfold backupLayoutSt
    rw [h2]
  rw [hb2]
  constructor
  · rw [lookAssoc_setAssoc_ne _ (fun he => hne (backupName_inj he)) _]
    rw [hbk, hb1]
    exact lookAssoc_setAssoc_self _ _ _
  · exact lookAssoc_setAssoc_self _ _ _

/-- C6 witness: the theorem applied to two concrete backups one second
apart over an existing layout file. -/
theorem c6_distinct_timestamp_backups_accumulate_witness :
    lookAssoc (backupLayoutSt "20260101_000001" (backupLayoutSt "20260101_000000"
        ⟨some (.json defaultLayoutDoc), [], []⟩)).backups
      (backupName "20260101_000000") = some (.json defaultLayoutDoc) ∧
    lookAssoc (backupLayoutSt "20260101_000001" (backupLayoutSt "20260101_000000"
        ⟨some (.json defaultLayoutDoc), [], []⟩)).backups
      (backupName "20260101_000001") = some (.json defaultLayoutDoc) :=
  c6_distinct_timestamp_backups_accumulate "20260101_000000" "20260101_000001"
    (by decide) ⟨some (.json defaultLayoutDoc), [], []⟩ _
    (.json defaultLayoutDoc) (.json defaultLayoutDoc) rfl rfl rfl

/-- C6 counterexample: a second `backup_layout` call within the same second
(equal timestamp string) reuses the same backup name and silently overwrites
the earlier backup record contents, so backups do not grow monotonically
within a second — refuting the same-second half of the claim. -/
theorem c6_same_second_backup_overwrites :
    (backupLayoutSt "20260101_000000"
      ⟨some (.json defaultLayoutDoc),
        [(backupName "20260101_000000", .json .null)], []⟩).backups =
      [(backupName "20260101_000000", .json defaultLayoutDoc)] ∧
    FileJson.json .null ≠ FileJson.json defaultLayoutDoc := by
  refine ⟨rfl, ?_⟩
  intro h
  injection h with h1
  exact JVal.noConfusion h1

/-- C7: for every text interleaving N well-formed, separately-delimited JSON
objects with arbitrary brace-free prose (before, between, and after them),
`extract_json_objects` returns exactly those N objects in source order; and
every input containing no JSON (no brace at all — in particular the empty
string) yields the empty list rather than an error. -/
theorem c7_extractor_complete :
    (∀ (segs : List (String × List (String × JVal))) (tailp : String),
      (∀ sg ∈ segs, noBraces sg.1.data = true ∧ wfFields sg.2 = true) →
      noBraces tailp.data = true →
      extractJsonObjects (glueText segs tailp) =
        segs.map fun sg => JVal.obj sg.2) ∧
    (∀ text : String, noBraces text.data = true → extractJsonObjects text = []) ∧
    extractJsonObjects "" = [] :=
  ⟨extract_of_glue, extract_of_nojson, rfl⟩

/-- C7 witness: the theorem applied to a concrete two-object prose-wrapped
input and to a concrete prose-only input. -/
theorem c7_extractor_complete_witness :
    extractJsonObjects (glueText [("Here: ", [("a", .num 1)]),
      (" and ", [("b", .str "x")])] " end") =
      [.obj [("a", .num 1)], .obj [("b", .str "x")]] ∧
    extractJsonObjects "no json here" = [] :=
  ⟨c7_extractor_complete.1 [("Here: ", [("a", .num 1)]), (" and ", [("b", .str "x")])]
      " end"
      (by
        intro sg hsg
        simp only [List.mem_cons, List.not_mem_nil, or_false] at hsg
        rcases hsg with rfl | rfl
        · exact ⟨by decide, by simp [wfFields, wfJ, strOkChars]⟩
        · exact ⟨by decide, by simp [wfFields, wfJ, strOkChars]⟩)
      (by decide),
    c7_extractor_complete.2.1 "no json here" (by decide)⟩

/-- C8 (corrected): for `create_file`, every rejection condition of the
path-safety algorithm — blank path, leading `/` or `~` after backslash
normalization, a `..` segment, an extension outside the allow-list, or
resolution outside the project root — aborts the command with a failure
result and no state change (in particular no write); each single failing
check alone suffices.  For `patch_file` the same holds for the blank,
absolute, traversal, and outside-root conditions and for a missing target
file, but NOT for the extension condition: `_patch_file` performs no
extension check (refuted by the counterexample). -/
theorem c8_path_safety_aborts :
    (∀ (insp : String → Int → String → Int → JVal) (cols : List String)
        (ts : String) (st : St) (kvs : List (String × JVal)) (rp : String),
      lookAssoc kvs "action" = some (.str "create_file") →
      lookAssoc kvs "relative_path" = some (.str rp) →
      badWritePath rp = true →
      ∃ msg, applyCommand insp (.obj kvs) cols ts st =
        ⟨.ok (failRes msg), st, []⟩) ∧
    (∀ (insp : String → Int → String → Int → JVal) (cols : List String)
        (ts : String) (st : St) (kvs : List (String × JVal)) (rp : String),
      lookAssoc kvs "action" = some (.str "patch_file") →
      lookAssoc kvs "relative_path" = some (.str rp) →
      badPatchPath rp = true →
      ∃ msg, applyCommand insp (.obj kvs) cols ts st =
        ⟨.ok (failRes msg), st, []⟩) ∧
    (∀ (insp : String → Int → String → Int → JVal) (cols : List String)
        (ts : String) (st : St) (kvs : List (String × JVal)) (rp p : String),
      lookAssoc kvs "action" = some (.str "patch_file") →
      lookAssoc kvs "relative_path" = some (.str rp) →
      safeRelpath rp = .ok p → underRoot (absPath p) = true →
      lookAssoc st.files (absPath p) = none →
      ∃ msg, applyCommand insp (.obj kvs) cols ts st =
        ⟨.ok (failRes msg), st, []⟩) := by
  refine ⟨?_, ?_, ?_⟩
  · intro insp cols ts st kvs rp hact hrp hbad
    unfold applyCommand
    dsimp only
    rw [hact]
    dsimp only
    rw [if_neg (by decide : ¬ (("create_file" : String).data.isEmpty = true)),
      if_neg (by decide : ¬ (("create_file" : String) = "list_tabs")),
      if_neg (by decide : ¬ (("create_file" : String) = "inspect_column")),
      if_pos rfl]
    rw [hrp, Option.getD_some]
    cases hcv : (lookAssoc kvs "content").getD (.str "") with
    | str content =>
      obtain ⟨e, hw⟩ := writeFileOp_bad hbad content
        (jvalEqStr ((lookAssoc kvs "mode").getD (.str "write")) "append") st
      exact ⟨e, by dsimp only; rw [hw]⟩
    | null => exact ⟨_, rfl⟩
    | bool b => exact ⟨_, rfl⟩
    | num n => exact ⟨_, rfl⟩
    | arr xs => exact ⟨_, rfl⟩
    | obj o => exact ⟨_, rfl⟩
  · intro insp cols ts st kvs rp hact hrp hbad
    unfold applyCommand
    dsimp only
    rw [hact]
    dsimp only
    rw [if_neg (by decide : ¬ (("patch_file" : String).data.isEmpty = true)),
      if_neg (by decide : ¬ (("patch_file" : String) = "list_tabs")),
      if_neg (by decide : ¬ (("patch_file" : String) = "inspect_column")),
      if_neg (by decide : ¬ (("patch_file" : String) = "create_file")),
      if_pos rfl]
    rw [hrp, Option.getD_some]
    cases hpv : (lookAssoc kvs "pattern").getD .null with
    | str pat =>
      cases hrv : (lookAssoc kvs "replacement").getD (.str "") with
      | str rep =>
        obtain ⟨e, hw⟩ := patchFileOp_bad hbad pat rep st
        exact ⟨e, by dsimp only; rw [hw]⟩
      | null => exact ⟨_, rfl⟩
      | bool b => exact ⟨_, rfl⟩
      | num n => exact ⟨_, rfl⟩
      | arr xs => exact ⟨_, rfl⟩
      | obj o => exact ⟨_, rfl⟩
    | null => exact ⟨_, rfl⟩
    | bool b => exact ⟨_, rfl⟩
    | num n => exact ⟨_, rfl⟩
    | arr xs => exact ⟨_, rfl⟩
    | obj o => exact ⟨_, rfl⟩
  · intro insp cols ts st kvs rp p hact hrp hsr hroot hnf
    unfold applyCommand
    dsimp only
    rw [hact]
    dsimp only
    rw [if_neg (by decide : ¬ (("patch_file" : String).data.isEmpty = true)),
      if_neg (by decide : ¬ (("patch_file" : String) = "list_tabs")),
      if_neg (by decide : ¬ (("patch_file" : String) = "inspect_column")),
      if_neg (by decide : ¬ (("patch_file" : String) = "create_file")),
      if_pos rfl]
    rw [hrp, Option.getD_some]
    cases hpv : (lookAssoc kvs "pattern").getD .null with
    | str pat =>
      cases hrv : (lookAssoc kvs "replacement").getD (.str "") with
      | str rep =>
        have hw := patchFileOp_notfound hsr hroot hnf pat rep
        exact ⟨_, by dsimp only; rw [hw]⟩
      | null => exact ⟨_, rfl⟩
      | bool b => exact ⟨_, rfl⟩
      | num n => exact ⟨_, rfl⟩
      | arr xs => exact ⟨_, rfl⟩
      | obj o => exact ⟨_, rfl⟩
    | null => exact ⟨_, rfl⟩
    | bool b => exact ⟨_, rfl⟩
    | num n => exact ⟨_, rfl⟩
    | arr xs => exact ⟨_, rfl⟩
    | obj o => exact ⟨_, rfl⟩

/-- C8 witness: the theorem applied to a concrete traversal path for
`create_file`, a concrete absolute path for `patch_file`, and a concrete
missing target file for `patch_file`. -/
theorem c8_path_safety_aborts_witness :
    (∃ msg, applyCommand inspNull (.obj [("action", .str "create_file"),
        ("relative_path", .str "../x.py"), ("content", .str "hi")]) [] "t"
      ⟨none, [], []⟩ = ⟨.ok (failRes msg), ⟨none, [], []⟩, []⟩) ∧
    (∃ msg, applyCommand inspNull (.obj [("action", .str "patch_file"),
        ("relative_path", .str "/etc/passwd"), ("pattern", .str "a"),
        ("replacement", .str "b")]) [] "t" ⟨none, [], []⟩ =
        ⟨.ok (failRes msg), ⟨none, [], []⟩, []⟩) ∧
    (∃ msg, applyCommand inspNull (.obj [("action", .str "patch_file"),
        ("relative_path", .str "a.md"), ("pattern", .str "a"),
        ("replacement", .str "b")]) [] "t" ⟨none, [], []⟩ =
        ⟨.ok (failRes msg), ⟨none, [], []⟩, []⟩) :=
  ⟨c8_path_safety_aborts.1 inspNull [] "t" ⟨none, [], []⟩
      [("action", .str "create_file"), ("relative_path", .str "../x.py"),
        ("content", .str "hi")] "../x.py" rfl rfl (by decide),
    c8_path_safety_aborts.2.1 inspNull [] "t" ⟨none, [], []⟩
      [("action", .str "patch_file"), ("relative_path", .str "/etc/passwd"),
        ("pattern", .str "a"), ("replacement", .str "b")] "/etc/passwd" rfl rfl
      (by decide),
    c8_path_safety_aborts.2.2 inspNull [] "t" ⟨none, [], []⟩
      [("action", .str "patch_file"), ("relative_path", .str "a.md"),
        ("pattern", .str "a"), ("replacement", .str "b")] "a.md" "a.md" rfl rfl
      rfl rfl rfl⟩

/-- C8 counterexample: a `patch_file` command on `a.exe` — an extension far
outside the allow-list — succeeds and writes the patched contents, because
`_patch_file` never consults the extension allow-list; this refutes the
extension clause of the claim for `patch_file`. -/
theorem c8_patch_file_extension_unchecked :
    (applyCommand inspNull (.obj [("action", .str "patch_file"),
        ("relative_path", .str "a.exe"), ("pattern", .str "a"),
        ("replacement", .str "x")]) [] "t"
      ⟨none, [], [("/project/a.exe", "abc")]⟩).res =
      .ok (okResW [("patched", .str "a.exe")]) ∧
    (applyCommand inspNull (.obj [("action", .str "patch_file"),
        ("relative_path", .str "a.exe"), ("pattern", .str "a"),
        ("replacement", .str "x")]) [] "t"
      ⟨none, [], [("/project/a.exe", "abc")]⟩).st.files =
      [("/project/a.exe", "xbc")] ∧
    lowerStr (extOf "a.exe") ∉ allowedExts := by
  refine ⟨rfl, rfl, by decide⟩

/-- C9 (corrected): on a layout state whose tabs are well-shaped and already
carry AT MOST ONE tab with the target trimmed name, `add_tab` is idempotent
by name: applying the command twice leaves exactly one tab with that name and
both calls report success (the second is a no-op).  The data model permits
duplicate names, and on a state already carrying duplicates `add_tab` leaves
them all in place (see the counterexample), so the original unconditional
claim fails. -/
theorem c9_add_tab_idempotent
    (insp : String → Int → String → Int → JVal)
    (kvs : List (String × JVal)) {kvs0 : List (String × JVal)}
    (cols : List String) (t1 t2 : String) (st : St) {n : String} {ts : List JVal}
    (hact : lookAssoc kvs "action" = some (.str "add_tab"))
    (hn : lookAssoc kvs "name" = some (.str n))
    (hne : (pyStrip n).data.isEmpty = false)
    (hlay : st.layout = some (.json (.obj kvs0)))
    (hts : lookAssoc kvs0 "tabs" = some (.arr ts))
    (hsh : ts.all tabShapeOk = true)
    (hcount : countTabs ts (pyStrip n) ≤ 1) :
    (∃ fields, (applyCommand insp (.obj kvs) cols t1 st).res = .ok (.obj fields) ∧
      lookAssoc fields "ok" = some (.bool true)) ∧
    (∃ fields, (applyCommand insp (.obj kvs) cols t2
        (applyCommand insp (.obj kvs) cols t1 st).st).res = .ok (.obj fields) ∧
      lookAssoc fields "ok" = some (.bool true)) ∧
    (∃ kvs2 ts2, (applyCommand insp (.obj kvs) cols t2
        (applyCommand insp (.obj kvs) cols t1 st).st).st.layout =
        some (.json (.obj kvs2)) ∧
      lookAssoc kvs2 "tabs" = some (.arr ts2) ∧
      countTabs ts2 (pyStrip n) = 1) := by
  cases hfi : findIdxA (fun t => tabMatches t (pyStrip n)) 0 ts with
  | some it =>
    obtain ⟨i, t⟩ := it
    have hc1 : countTabs ts (pyStrip n) = 1 :=
      Nat.le_antisymm hcount (countTabs_pos_of_found hfi)
    have h1 := applyCommand_addTab_found insp kvs cols t1 st hact hn hne hlay hts hfi
    have h2 := applyCommand_addTab_found insp kvs cols t2 (backupLayoutSt t1 st)
      hact hn hne (by rw [backupLayoutSt_layout, hlay]) hts hfi
    refine ⟨?_, ?_, ?_⟩
    · rw [h1]
      exact ⟨_, rfl, rfl⟩
    · rw [h1]
      dsimp only
      rw [h2]
      exact ⟨_, rfl, rfl⟩
    · rw [h1]
      dsimp only
      rw [h2]
      dsimp only
      rw [backupLayoutSt_layout, backupLayoutSt_layout, hlay]
      exact ⟨kvs0, ts, rfl, hts, hc1⟩
  | none =>
    have hc0 : countTabs ts (pyStrip n) = 0 :=
      (countTabs_zero_iff ts (pyStrip n)).mpr (findIdxA_none 0 ts hfi)
    obtain ⟨kvs2, h1, hl2, hshp2⟩ :=
      applyCommand_addTab_fresh insp kvs cols t1 st hact hn hne hlay hts hfi
    have hven : validateTab (.obj [("name", .str (pyStrip n)), ("filters", .arr []),
        ("panels", .arr [])]) = some (.obj [("name", .str (pyStrip n)),
        ("filters", .arr []), ("panels", .arr [])]) :=
      validateTab_fresh (pyStrip n) hne (pyStrip_idem n)
    have hfm : (ts ++ [JVal.obj [("name", .str (pyStrip n)), ("filters", .arr []),
        ("panels", .arr [])]]).filterMap validateTab =
        ts.filterMap validateTab ++ [JVal.obj [("name", .str (pyStrip n)),
          ("filters", .arr []), ("panels", .arr [])]] := by
      rw [List.filterMap_append]
      rw [show [JVal.obj [("name", JVal.str (pyStrip n)), ("filters", JVal.arr []),
          ("panels", JVal.arr [])]].filterMap validateTab =
          [JVal.obj [("name", JVal.str (pyStrip n)), ("filters", JVal.arr []),
            ("panels", JVal.arr [])]] from by
        simp [List.filterMap_cons, hven]]
    rw [hfm] at hl2
    rw [isEmpty_append_singleton] at hl2
    rw [if_neg (by decide : ¬ (false = true))] at hl2
    obtain ⟨hcEq, hAll⟩ := countTabs_filterMap_validate hsh (pyStrip n)
    have hmatch : tabMatches (JVal.obj [("name", .str (pyStrip n)),
        ("filters", .arr []), ("panels", .arr [])]) (pyStrip n) = true := by
      simp [tabMatches, lookAssoc]
    have hcnew : countTabs (ts.filterMap validateTab ++
        [JVal.obj [("name", .str (pyStrip n)), ("filters", .arr []),
          ("panels", .arr [])]]) (pyStrip n) = 1 := by
      rw [countTabs_append, hcEq, hc0]
      simp [countTabs, List.filter_cons, hmatch]
    have hmemnew : JVal.obj [("name", .str (pyStrip n)), ("filters", .arr []),
        ("panels", .arr [])] ∈ ts.filterMap validateTab ++
        [JVal.obj [("name", .str (pyStrip n)), ("filters", .arr []),
          ("panels", .arr [])]] :=
      List.mem_append_right _ (List.mem_singleton.mpr rfl)
    cases hfi2 : findIdxA (fun t => tabMatches t (pyStrip n)) 0
        (ts.filterMap validateTab ++ [JVal.obj [("name", .str (pyStrip n)),
          ("filters", .arr []), ("panels", .arr [])]]) with
    | none => exact absurd hfi2 (findIdxA_some_of_mem hmemnew hmatch 0)
    | some it2 =>
      have h2 := applyCommand_addTab_found insp kvs cols t2
        { backupLayoutSt t1 st with layout := some (.json (.obj kvs2)) }
        hact hn hne rfl hl2 hfi2
      refine ⟨?_, ?_, ?_⟩
      · rw [h1]
        exact ⟨_, rfl, rfl⟩
      · rw [h1]
        dsimp only
        rw [h2]
        exact ⟨_, rfl, rfl⟩
      · rw [h1]
        dsimp only
        rw [h2]
        dsimp only
        rw [backupLayoutSt_layout]
        exact ⟨kvs2, _, rfl, hl2, hcnew⟩

/-- C9 witness: the theorem applied to a concrete double `add_tab "A"` on the
default single-tab layout. -/
theorem c9_add_tab_idempotent_witness :
    (∃ fields, (applyCommand inspNull (.obj [("action", .str "add_tab"),
        ("name", .str "A")]) [] "t1"
        ⟨some (.json defaultLayoutDoc), [], []⟩).res = .ok (.obj fields) ∧
      lookAssoc fields "ok" = some (.bool true)) ∧
    (∃ fields, (applyCommand inspNull (.obj [("action", .str "add_tab"),
        ("name", .str "A")]) [] "t2"
        (applyCommand inspNull (.obj [("action", .str "add_tab"),
          ("name", .str "A")]) [] "t1"
          ⟨some (.json defaultLayoutDoc), [], []⟩).st).res = .ok (.obj fields) ∧
      lookAssoc fields "ok" = some (.bool true)) ∧
    (∃ kvs2 ts2, (applyCommand inspNull (.obj [("action", .str "add_tab"),
        ("name", .str "A")]) [] "t2"
        (applyCommand inspNull (.obj [("action", .str "add_tab"),
          ("name", .str "A")]) [] "t1"
          ⟨some (.json defaultLayoutDoc), [], []⟩).st).st.layout =
        some (.json (.obj kvs2)) ∧
      lookAssoc kvs2 "tabs" = some (.arr ts2) ∧
      countTabs ts2 (pyStrip "A") = 1) :=
  c9_add_tab_idempotent inspNull [("action", .str "add_tab"), ("name", .str "A")]
    [] "t1" "t2" ⟨some (.json defaultLayoutDoc), [], []⟩
    rfl rfl (by decide) rfl rfl (by decide) (by decide)

/-- C9 counterexample: on a layout state that already carries two tabs named
`A` (permitted by the data model), applying `add_tab "A"` twice leaves BOTH
duplicates in place — the final layout carries two tabs with the name, not
exactly one, refuting the unconditional claim. -/
theorem c9_duplicate_tabs_persist :
    (applyCommand inspNull (.obj [("action", .str "add_tab"), ("name", .str "A")])
      [] "t2"
      (applyCommand inspNull (.obj [("action", .str "add_tab"), ("name", .str "A")])
        [] "t1"
        ⟨some (.json (.obj [("tabs", .arr
          [.obj [("name", .str "A"), ("filters", .arr []), ("panels", .arr [])],
            .obj [("name", .str "A"), ("filters", .arr []), ("panels", .arr [])]]),
          ("sidebar", .obj [])])), [], []⟩).st).st.layout =
      some (.json (.obj [("tabs", .arr
        [.obj [("name", .str "A"), ("filters", .arr []), ("panels", .arr [])],
          .obj [("name", .str "A"), ("filters", .arr []), ("panels", .arr [])]]),
        ("sidebar", .obj [])])) ∧
    countTabs
      [.obj [("name", .str "A"), ("filters", .arr []), ("panels", .arr [])],
        .obj [("name", .str "A"), ("filters", .arr []), ("panels", .arr [])]]
      "A" = 2 :=
  ⟨rfl, rfl⟩

/-- C10: every layout-mutating command (`add_tab`, `delete_tab`,
`keep_only_tab`, `clear_panels`, `add_panel`) run on a well-shaped persisted
layout leaves the layout file either untouched or holding a document
satisfying the save-time shape invariant — `tabs` a non-empty list whose
every element has a non-empty trimmed string name and list-valued `filters`
and `panels`, and `sidebar` a dict; and a `delete_tab` whose filter removes
every tab writes the single default `Overview` tab rather than an empty tab
list. -/
theorem c10_save_shape_invariant :
    (∀ (insp : String → Int → String → Int → JVal) (cols : List String)
        (ts : String) (st : St) (kvs : List (String × JVal)) (a : String),
      lookAssoc kvs "action" = some (.str a) →
      (a = "add_tab" ∨ a = "delete_tab" ∨ a = "keep_only_tab" ∨
        a = "clear_panels" ∨ a = "add_panel") →
      layoutStateOk st.layout = true →
      ((applyCommand insp (.obj kvs) cols ts st).st.layout = st.layout ∨
        ∃ v, (applyCommand insp (.obj kvs) cols ts st).st.layout =
          some (.json v) ∧ shapeInvB v = true)) ∧
    (∀ (insp : String → Int → String → Int → JVal) (cols : List String)
        (ts : String) (st : St) (kvs : List (String × JVal))
        (kvs0 : List (String × JVal)) (nm : String) (tabs : List JVal),
      lookAssoc kvs "action" = some (.str "delete_tab") →
      lookAssoc kvs "name" = some (.str nm) →
      (pyStrip nm).data.isEmpty = false →
      st.layout = some (.json (.obj kvs0)) →
      lookAssoc kvs0 "tabs" = some (.arr tabs) →
      (tabs.filter fun t => !tabMatches t (pyStrip nm)) = [] →
      ∃ kvs2, (applyCommand insp (.obj kvs) cols ts st).st.layout =
        some (.json (.obj kvs2)) ∧
        lookAssoc kvs2 "tabs" = some (.arr [overviewTab])) := by
  constructor
  · intro insp cols ts st kvs a hact hmem hst
    have h1 : a ≠ "" := by rcases hmem with h | h | h | h | h <;> subst h <;> decide
    have h2 : a ≠ "list_tabs" := by
      rcases hmem with h | h | h | h | h <;> subst h <;> decide
    have h3 : a ≠ "inspect_column" := by
      rcases hmem with h | h | h | h | h <;> subst h <;> decide
    have h4 : a ≠ "create_file" := by
      rcases hmem with h | h | h | h | h <;> subst h <;> decide
    have h5 : a ≠ "patch_file" := by
      rcases hmem with h | h | h | h | h <;> subst h <;> decide
    have h6 : a ≠ "rollback_layout" := by
      rcases hmem with h | h | h | h | h <;> subst h <;> decide
    rw [applyCommand_layout_eq insp kvs cols ts st a hact h1 h2 h3 h4 h5 h6]
    rw [backupLayoutSt_layout]
    cases hl : st.layout with
    | none =>
      dsimp only [loadLayout]
      obtain ⟨r, st2, heq, hsh, hbk, hfl⟩ := layoutDispatch_safe kvs cols a
        (backupLayoutSt ts st) (show layoutDocOk defaultLayoutDoc = true by decide)
      rw [heq]
      dsimp only [wrapLE]
      rcases hsh with hsame | hval
      · exact Or.inl (by rw [hsame, backupLayoutSt_layout, hl])
      · exact Or.inr hval
    | some fj =>
      cases fj with
      | malformed =>
        rw [hl] at hst
        simp [layoutStateOk] at hst
      | json j =>
        dsimp only [loadLayout]
        have hdoc : layoutDocOk j = true := by
          rw [hl] at hst
          simpa [layoutStateOk] using hst
        obtain ⟨r, st2, heq, hsh, hbk, hfl⟩ := layoutDispatch_safe kvs cols a
          (backupLayoutSt ts st) hdoc
        rw [heq]
        dsimp only [wrapLE]
        rcases hsh with hsame | hval
        · exact Or.inl (by rw [hsame, backupLayoutSt_layout, hl])
        · exact Or.inr hval
  · intro insp cols ts st kvs kvs0 nm tabs hact hnm hnme hlay hts hfilt
    rw [applyCommand_layout_eq insp kvs cols ts st "delete_tab" hact (by decide)
      (by decide) (by decide) (by decide) (by decide) (by decide)]
    rw [backupLayoutSt_layout, hlay]
    dsimp only [loadLayout]
    unfold layoutDispatch
    rw [if_neg (by decide : ¬ (("delete_tab" : String) = "add_tab")), if_pos rfl]
    unfold actDeleteTab
    rw [hnm]
    dsimp only
    rw [hnme]
    rw [if_neg (by decide : ¬ (false = true))]
    simp only [bind, Except.bind, pyGetD, pySetIndex, hts, Option.getD_some, pyIter]
    rw [hfilt]
    obtain ⟨kvs2, hsv, hl2, hshp⟩ := saveLayoutSt_tabs_eq (backupLayoutSt ts st)
      (lookAssoc_setAssoc_self kvs0 "tabs" (.arr []))
    rw [hsv]
    exact ⟨kvs2, rfl, hl2⟩

/-- C10 witness: the theorem applied to a concrete `add_tab` on the default
layout, and to a concrete `delete_tab Overview` that removes the only tab. -/
theorem c10_save_shape_invariant_witness :
    ((applyCommand inspNull (.obj [("action", .str "add_tab"), ("name", .str "B")])
        [] "t" ⟨some (.json defaultLayoutDoc), [], []⟩).st.layout =
        (⟨some (.json defaultLayoutDoc), [], []⟩ : St).layout ∨
      ∃ v, (applyCommand inspNull (.obj [("action", .str "add_tab"),
          ("name", .str "B")]) [] "t"
          ⟨some (.json defaultLayoutDoc), [], []⟩).st.layout =
        some (.json v) ∧ shapeInvB v = true) ∧
    (∃ kvs2, (applyCommand inspNull (.obj [("action", .str "delete_tab"),
        ("name", .str "Overview")]) [] "t"
        ⟨some (.json defaultLayoutDoc), [], []⟩).st.layout =
        some (.json (.obj kvs2)) ∧
      lookAssoc kvs2 "tabs" = some (.arr [overviewTab])) :=
  ⟨c10_save_shape_invariant.1 inspNull [] "t"
      ⟨some (.json defaultLayoutDoc), [], []⟩
      [("action", .str "add_tab"), ("name", .str "B")] "add_tab" rfl
      (Or.inl rfl) rfl,
    c10_save_shape_invariant.2 inspNull [] "t"
      ⟨some (.json defaultLayoutDoc), [], []⟩
      [("action", .str "delete_tab"), ("name", .str "Overview")]
      [("tabs", .arr [overviewTab]), ("sidebar", .obj [])] "Overview"
      [overviewTab] rfl rfl (by decide) rfl rfl rfl⟩
